import Mathlib

/-!
# Two-site sweep engine of GraceQ/mps2: a shallow embedding

The development embeds `src/src/two_site_algo.cc` (`InitBlocks`, `TwoSiteSweep`,
`TwoSiteUpdate`).

* Tensors are values of an arbitrary type `T`; the tensor algebra, the Lanczos
  solver and the SVD live in other files of the repository and enter as the
  fields of `TensorOps`.
* A `GQTensor *` is a `Ptr T`: null, pointing to a live tensor, or dangling
  (the object was deleted and the pointer kept).  Every pointer the code stores
  comes from a fresh allocation and is stored in one vector slot only, so a slot
  owns its object and the state of the object is the state of the slot.
* `long` and `size_t` values are integers; conversions between the two wrap
  modulo `2^64` (`u64`, `i64`).
* Out-of-bounds vector accesses, dereferences of null or dangling pointers and
  double deletes are undefined behaviour and end a run with `Fault.ub`;
  `exit(1)` ends it with `Fault.usage`.  A fault carries the store as it was
  when the run stopped.
* Timers and console output are not modelled.
-/

namespace Gqmps2

/-! ## Machine integers -/

/-- Conversion to `size_t`: reduction modulo `2^64`. -/
def u64 (x : Int) : Int := x % 18446744073709551616

/-- Conversion to `long`: the representative of `x` modulo `2^64` in `[-2^63, 2^63)`. -/
def i64 (x : Int) : Int :=
  (x + 9223372036854775808) % 18446744073709551616 - 9223372036854775808

/-! ## Pointers, vectors, faults -/

/-- State of a `GQTensor *` held in a vector slot. -/
inductive Ptr (T : Type) where
  | null : Ptr T
  | live (t : T) : Ptr T
  | freed : Ptr T
  deriving DecidableEq, Repr

/-- Side of a block chain: `l` for `lblocks`, `r` for `rblocks`; also the first
letter of a block file name. -/
inductive Side where
  | l : Side
  | r : Side
  deriving DecidableEq, Repr

/-- Ways a run stops without returning. -/
inductive Fault where
  | usage : Fault
  | assertion : Fault
  | io : Fault
  | ub : Fault
  deriving DecidableEq, Repr

/-- Observable actions of a step, recorded in program order. -/
inductive Event (T : Type) where
  | read (side : Side) (len : Int) : Event T
  | write (side : Side) (len : Int) (t : T) : Event T
  | solve (eff_ham : List (Ptr T)) (init_state : T) (where_ : String) : Event T
  deriving DecidableEq, Repr

/-- Memory and disk as the sweep sees them: the four vectors of pointers, the
block files keyed by side and length (the most recent write first), the tensors
whose last pointer was overwritten while they were live, and the record of
reads, writes and solver calls. -/
structure Store (T : Type) where
  mps : List (Ptr T)
  mpo : List (Ptr T)
  lblocks : List (Ptr T)
  rblocks : List (Ptr T)
  files : List ((Side × Int) × T)
  leaked : List T
  trace : List (Event T)
  deriving DecidableEq, Repr

/-- Outcome of a run: a value and the final store, or a fault and the store at
the point where the run stopped. -/
inductive Res (σ α : Type) where
  | ok (a : α) (s : σ) : Res σ α
  | fault (f : Fault) (s : σ) : Res σ α
  deriving DecidableEq, Repr

/-- Computations over a store that may stop with a fault. -/
def M (σ α : Type) : Type := σ → Res σ α

/-- Sequencing: a fault of the first computation ends the run. -/
def M.bind {σ α β : Type} (x : M σ α) (f : α → M σ β) : M σ β := fun s =>
  match x s with
  | .ok a s1 => f a s1
  | .fault e s1 => .fault e s1

/-- Return a value without touching the store. -/
def M.pure {σ α : Type} (a : α) : M σ α := fun s => .ok a s

instance (σ : Type) : Monad (M σ) where
  pure := M.pure
  bind := M.bind

/-- Stop with the given fault. -/
def M.fail {σ α : Type} (f : Fault) : M σ α := fun s => .fault f s

/-- The current store. -/
def M.get {σ : Type} : M σ σ := fun s => .ok s s

/-- Replace the store. -/
def M.set {σ : Type} (s1 : σ) : M σ Unit := fun _ => .ok () s1

/-- An operation that is undefined when the option is empty. -/
def M.ofOption {σ α : Type} : Option α → M σ α
  | some a => M.pure a
  | none => M.fail .ub

/-- The slot index a `long` or `size_t` value selects in a vector. -/
def slot (idx : Int) : Nat := (u64 idx).toNat

/-- The pointer read by `v[idx]`; nothing when out of bounds. -/
def vecRead {T : Type} (v : List (Ptr T)) (idx : Int) : Option (Ptr T) := v[slot idx]?

/-- The vector after `v[idx] = p`; nothing when out of bounds. -/
def vecWrite {T : Type} (v : List (Ptr T)) (idx : Int) (p : Ptr T) : Option (List (Ptr T)) :=
  if slot idx < v.length then some (v.set (slot idx) p) else none

/-- The tensor `*p`; nothing for a null or dangling pointer. -/
def deref {T : Type} : Ptr T → Option T
  | .live t => some t
  | _ => none

/-- The pointer state after `delete p`: deleting null does nothing, deleting a
live object leaves the pointer dangling, deleting twice is undefined. -/
def del {T : Type} : Ptr T → Option (Ptr T)
  | .null => some .null
  | .live _ => some .freed
  | .freed => none

/-- Whether a pointer points to a live tensor. -/
def Ptr.isLive {T : Type} : Ptr T → Bool
  | .live _ => true
  | _ => false

/-- Whether every slot of a vector points to a live tensor. -/
def allLive {T : Type} (v : List (Ptr T)) : Bool := v.all Ptr.isLive

/-- The block chain of a side. -/
def Store.blocks {T : Type} (s : Store T) : Side → List (Ptr T)
  | .l => s.lblocks
  | .r => s.rblocks

/-- The store after the pointer `old` was overwritten: a tensor it pointed to is
still allocated and can no longer be reached. -/
def Store.leak {T : Type} (s : Store T) : Ptr T → Store T
  | .live o => { s with leaked := o :: s.leaked }
  | _ => s

/-- Replace the block chain of a side. -/
def Store.setBlocks {T : Type} (s : Store T) : Side → List (Ptr T) → Store T
  | .l, v => { s with lblocks := v }
  | .r, v => { s with rblocks := v }

/-! ## External collaborators -/

/-- Result of the Lanczos solver (`lancz_res`). -/
structure LanczosRes (T R : Type) where
  gs_vec : T
  gs_eng : R
  iters : Int
  deriving DecidableEq, Repr

/-- Result of the truncated SVD (`svd_res`). -/
structure SvdRes (T R : Type) where
  u : T
  s : T
  v : T
  trunc_err : R
  D : Int
  deriving DecidableEq, Repr

/-- Modelled from the spec: the tensor algebra (`GQTensor()`, `Contract`,
`MockDag`, `Div`, `Svd`), the ground-state solver (`LanczosSolver`) and the
entropy measurement (`MeasureEE`) are defined outside the files at hand.  They
are arbitrary functions here; `R` stands for `double`, `Q` for the quantum-number
type returned by `Div`, `LP` for `LanczosParams`.  The solver receives the four
pointers of `eff_ham` as they are, the initial state, its parameters and the
position string. -/
structure TensorOps (T R Q LP : Type) where
  GQTensor : T
  Contract : T → T → List (List Int) → T
  MockDag : T → T
  Div : T → Q
  LanczosSolver : List (Ptr T) → T → LP → String → LanczosRes T R
  Svd : T → Int → Int → Q → Q → R → Int → Int → SvdRes T R
  MeasureEE : T → Int → R

/-- Modelled from the spec: the two workflow constants
`kTwoSiteAlgoWorkflowInitial` and `kTwoSiteAlgoWorkflowContinue`. -/
inductive WorkflowMode where
  | kTwoSiteAlgoWorkflowInitial : WorkflowMode
  | kTwoSiteAlgoWorkflowContinue : WorkflowMode
  deriving DecidableEq, Repr

/-- Modelled from the spec: `SweepParams`, declared in a header that is not at
hand; the fields are those the code reads and the test constructs. -/
structure SweepParams (R LP : Type) where
  Sweeps : Int
  Dmin : Int
  Dmax : Int
  Cutoff : R
  FileIO : Bool
  Workflow : WorkflowMode
  LanczParams : LP
  EETargetBond : Int
  deriving DecidableEq, Repr

/-- Modelled from the spec: `WriteGQTensorTOFile(t, file)` for the file
`<side><basename><len>.<suffix>`; a file holds the tensor last written to it. -/
def WriteGQTensorTOFile {T : Type} (t : T) (side : Side) (len : Int) : M (Store T) Unit :=
  fun s => .ok () { s with files := ((side, len), t) :: s.files,
                           trace := s.trace ++ [Event.write side len t] }

/-- Modelled from the spec: `ReadGQTensorFromFile(blocks[len], file)`.  The slot
is selected first; the tensor in the file is loaded into a fresh object and the
slot is pointed to it.  A missing file is a fatal I/O error; an object the slot
still owned is leaked. -/
def ReadGQTensorFromFile {T : Type} (side : Side) (len : Int) : M (Store T) Unit :=
  fun s =>
    match vecRead (s.blocks side) len with
    | none => .fault .ub s
    | some old =>
      match s.files.lookup (side, len) with
      | none => .fault .io s
      | some t =>
        .ok () (({ s.leak old with trace := s.trace ++ [Event.read side len] } : Store T).setBlocks
          side ((s.blocks side).set (slot len) (.live t)))

/-! ## TwoSiteUpdate -/

/-- The locals the first `switch (dir)` of `TwoSiteUpdate` assigns. -/
structure Geometry where
  init_state_ctrct_axes : List (List Int)
  us_ctrct_axes : List (List Int)
  where_ : String
  svd_ldims : Int
  svd_rdims : Int
  lsite_idx : Int
  rsite_idx : Int
  lblock_len : Int
  rblock_len : Int
  measure_ee : Bool
  deriving DecidableEq, Repr

/-- First `switch (dir)` of `TwoSiteUpdate` (source lines 115-170): the sites,
the block lengths and the boundary class of the step.  `N` is `mps.size()`, a
`size_t`: `i == N-2` and `i == N-1` compare as `size_t`, and `N-(i+2)`, `N-i-1`
are computed as `size_t` and stored in a `long`.  The result is empty in the
`default` branch, where the program prints a message and calls `exit(1)`. -/
def geometry (N : Nat) (i : Int) (EETargetBond : Int) (dir : Char) : Option Geometry :=
  if dir = 'r' then
    let lsite_idx := i
    let rsite_idx := i + 1
    let lblock_len := i
    let rblock_len := i64 ((N : Int) - (i + 2))
    let measure_ee := decide (i = EETargetBond)
    if i = 0 then
      some { init_state_ctrct_axes := [[1], [0]], us_ctrct_axes := [], where_ := "lend",
             svd_ldims := 1, svd_rdims := 2, lsite_idx, rsite_idx, lblock_len, rblock_len,
             measure_ee }
    else if u64 i = u64 ((N : Int) - 2) then
      some { init_state_ctrct_axes := [[2], [0]], us_ctrct_axes := [], where_ := "rend",
             svd_ldims := 2, svd_rdims := 1, lsite_idx, rsite_idx, lblock_len, rblock_len,
             measure_ee }
    else
      some { init_state_ctrct_axes := [[2], [0]], us_ctrct_axes := [], where_ := "cent",
             svd_ldims := 2, svd_rdims := 2, lsite_idx, rsite_idx, lblock_len, rblock_len,
             measure_ee }
  else if dir = 'l' then
    let lsite_idx := i - 1
    let rsite_idx := i
    let lblock_len := i - 1
    let rblock_len := i64 ((N : Int) - i - 1)
    let measure_ee := decide (i = EETargetBond + 1)
    if u64 i = u64 ((N : Int) - 1) then
      some { init_state_ctrct_axes := [[2], [0]], us_ctrct_axes := [[2], [0]], where_ := "rend",
             svd_ldims := 2, svd_rdims := 1, lsite_idx, rsite_idx, lblock_len, rblock_len,
             measure_ee }
    else if i = 1 then
      some { init_state_ctrct_axes := [[1], [0]], us_ctrct_axes := [[1], [0]], where_ := "lend",
             svd_ldims := 1, svd_rdims := 2, lsite_idx, rsite_idx, lblock_len, rblock_len,
             measure_ee }
    else
      some { init_state_ctrct_axes := [[2], [0]], us_ctrct_axes := [[2], [0]], where_ := "cent",
             svd_ldims := 2, svd_rdims := 2, lsite_idx, rsite_idx, lblock_len, rblock_len,
             measure_ee }
  else
    none

/-- Second `switch (dir)` (source lines 172-190): with file I/O, load the block
of the side the sweep moves towards from its file. -/
def loadBlock {T R LP : Type} (p : SweepParams R LP) (g : Geometry) (dir : Char) :
    M (Store T) Unit :=
  if SweepParams.FileIO p then
    if dir = 'r' then ReadGQTensorFromFile Side.r g.rblock_len
    else if dir = 'l' then ReadGQTensorFromFile Side.l g.lblock_len
    else M.fail .usage
  else M.pure ()

/-- The results one step keeps from the solver, the factorisation and the entropy
measurement. -/
structure Solved (T R : Type) where
  lancz_res : LanczosRes T R
  svd_res : SvdRes T R
  ee : Option R
  deriving DecidableEq, Repr

/-- Source lines 199-226 on the values read from the vectors: the initial state,
the solver call, the factorisation and the entropy. -/
def solved {T R Q LP : Type} (ops : TensorOps T R Q LP) (p : SweepParams R LP) (g : Geometry)
    (e0 e1 e2 e3 : Ptr T) (lsite rsite : T) : Solved T R :=
  let init_state := ops.Contract lsite rsite g.init_state_ctrct_axes
  let lancz_res := ops.LanczosSolver [e0, e1, e2, e3] init_state p.LanczParams g.where_
  let svd_res := ops.Svd lancz_res.gs_vec g.svd_ldims g.svd_rdims
                   (ops.Div lsite) (ops.Div rsite) p.Cutoff p.Dmin p.Dmax
  let ee := if g.measure_ee then some (ops.MeasureEE svd_res.s svd_res.D) else none
  { lancz_res, svd_res, ee }

/-- Source lines 194-226: assemble `eff_ham` from `lblocks[lblock_len]`,
`mpo[lsite_idx]`, `mpo[rsite_idx]`, `rblocks[rblock_len]`, contract the two sites
into the initial state, call the solver, factorise the ground state, measure the
entropy when asked to. -/
def solve {T R Q LP : Type} (ops : TensorOps T R Q LP) (p : SweepParams R LP) (g : Geometry) :
    M (Store T) (Solved T R) := fun s =>
  match vecRead s.lblocks g.lblock_len, vecRead s.mpo g.lsite_idx,
        vecRead s.mpo g.rsite_idx, vecRead s.rblocks g.rblock_len with
  | some e0, some e1, some e2, some e3 =>
    match (vecRead s.mps g.lsite_idx).bind deref, (vecRead s.mps g.rsite_idx).bind deref with
    | some lsite, some rsite =>
      .ok (solved ops p g e0 e1 e2 e3 lsite rsite)
        { s with trace := s.trace ++
            [Event.solve [e0, e1, e2, e3]
              (ops.Contract lsite rsite g.init_state_ctrct_axes) g.where_] }
    | _, _ => .fault .ub s
  | _, _, _, _ => .fault .ub s

/-- The statement pair `delete mps[idx]; mps[idx] = t;`. -/
def replaceSite {T : Type} (idx : Int) (t : T) : M (Store T) Unit := fun s =>
  match (vecRead s.mps idx).bind del with
  | none => .fault .ub s
  | some _ => .ok () { s with mps := s.mps.set (slot idx) (.live t) }

/-- The tensor `*mps[idx]`. -/
def siteAt {T : Type} (idx : Int) : M (Store T) T := fun s =>
  match (vecRead s.mps idx).bind deref with
  | some t => .ok t s
  | none => .fault .ub s

/-- The tensor `*mpo[idx]`. -/
def opAt {T : Type} (idx : Int) : M (Store T) T := fun s =>
  match (vecRead s.mpo idx).bind deref with
  | some t => .ok t s
  | none => .fault .ub s

/-- The tensor `*blocks[idx]` of a side. -/
def blockAt {T : Type} (side : Side) (idx : Int) : M (Store T) T := fun s =>
  match (vecRead (s.blocks side) idx).bind deref with
  | some t => .ok t s
  | none => .fault .ub s

/-- The statement `blocks[idx] = new T(t)` for a freshly built tensor, without a
delete: an object the slot still owned is leaked. -/
def storeBlock {T : Type} (side : Side) (idx : Int) (t : T) : M (Store T) Unit := fun s =>
  match vecRead (s.blocks side) idx with
  | none => .fault .ub s
  | some old => .ok () ((s.leak old).setBlocks side ((s.blocks side).set (slot idx) (.live t)))

/-- The statement `delete blocks[idx]` of a side; the slot keeps the pointer. -/
def deleteBlock {T : Type} (side : Side) (idx : Int) : M (Store T) Unit := fun s =>
  match (vecRead (s.blocks side) idx).bind del with
  | none => .fault .ub s
  | some q => .ok () (s.setBlocks side ((s.blocks side).set (slot idx) q))

/-- Left block of the first site (source lines 249-254). -/
def lblockEnd {T R Q LP : Type} (ops : TensorOps T R Q LP) (site op : T) : T :=
  ops.Contract (ops.Contract site op [[0], [0]]) (ops.MockDag site) [[2], [0]]

/-- Left block grown by one site (source lines 256-262). -/
def lblockGrow {T R Q LP : Type} (ops : TensorOps T R Q LP) (block site op : T) : T :=
  ops.Contract
    (ops.Contract (ops.Contract block site [[0], [0]]) op [[0, 2], [0, 1]])
    (ops.MockDag site) [[0, 2], [0, 1]]

/-- Right block of the last site (source lines 40-43 and 301-304). -/
def rblockEnd {T R Q LP : Type} (ops : TensorOps T R Q LP) (site op : T) : T :=
  ops.Contract (ops.Contract site op [[1], [0]]) (ops.MockDag site) [[2], [1]]

/-- Right block grown by one site (source lines 55-61 and 306-312). -/
def rblockGrow {T R Q LP : Type} (ops : TensorOps T R Q LP) (block site op : T) : T :=
  ops.Contract
    (ops.Contract (ops.Contract site block [[2], [0]]) op [[1, 2], [1, 3]])
    (ops.MockDag site) [[3, 1], [1, 2]]

/-- Source lines 241-246 and 293-298: replace the two site tensors by the
factors of the ground state. -/
def reassemble {T R Q LP : Type} (ops : TensorOps T R Q LP) (g : Geometry) (dir : Char)
    (svd_res : SvdRes T R) : M (Store T) Unit :=
  if dir = 'r' then do
    replaceSite g.lsite_idx svd_res.u
    replaceSite g.rsite_idx (ops.Contract svd_res.s svd_res.v [[1], [0]])
  else if dir = 'l' then do
    replaceSite g.lsite_idx (ops.Contract svd_res.u svd_res.s g.us_ctrct_axes)
    replaceSite g.rsite_idx svd_res.v
  else M.pure ()

/-- Source lines 248-265 and 300-315: the block the step forms, or nothing when
`update_block` is cleared.  In the backward pass the grown block reads the old
block through `eff_ham[3]`, which is the pointer of `rblocks[rblock_len]`. -/
def renormalize {T R Q LP : Type} (ops : TensorOps T R Q LP) (N : Nat) (i : Int) (g : Geometry)
    (dir : Char) : M (Store T) (Option T) :=
  if dir = 'r' then
    if i = 0 then do
      let site ← siteAt i
      let op ← opAt i
      pure (some (lblockEnd ops site op))
    else if u64 i ≠ u64 ((N : Int) - 2) then do
      let block ← blockAt Side.l i
      let site ← siteAt i
      let op ← opAt i
      pure (some (lblockGrow ops block site op))
    else pure none
  else if dir = 'l' then
    if u64 i = u64 ((N : Int) - 1) then do
      let site ← siteAt i
      let op ← opAt i
      pure (some (rblockEnd ops site op))
    else if i ≠ 1 then do
      let site ← siteAt i
      let block ← blockAt Side.r g.rblock_len
      let op ← opAt i
      pure (some (rblockGrow ops block site op))
    else pure none
  else pure none

/-- Source lines 268-289 and 318-339: store the new block at its target length
(`i+1` forward, `N-i` backward, the latter a `size_t`).  With file I/O the block
is also written to its file and the blocks `eff_ham[0]` and `eff_ham[3]` point
to, which are those of `lblocks[lblock_len]` and `rblocks[rblock_len]`, are
deleted; without file I/O the old block at the target is deleted first. -/
def commit {T R LP : Type} (p : SweepParams R LP) (N : Nat) (i : Int) (g : Geometry)
    (dir : Char) (new_block : Option T) : M (Store T) Unit :=
  if dir = 'r' then
    if SweepParams.FileIO p then
      match new_block with
      | some new_lblock => do
        storeBlock Side.l (i + 1) new_lblock
        WriteGQTensorTOFile new_lblock Side.l (i + 1)
        deleteBlock Side.l g.lblock_len
        deleteBlock Side.r g.rblock_len
      | none => deleteBlock Side.l g.lblock_len
    else
      match new_block with
      | some new_lblock => do
        deleteBlock Side.l (i + 1)
        storeBlock Side.l (i + 1) new_lblock
      | none => pure ()
  else if dir = 'l' then
    if SweepParams.FileIO p then
      match new_block with
      | some new_rblock => do
        storeBlock Side.r (u64 ((N : Int) - i)) new_rblock
        WriteGQTensorTOFile new_rblock Side.r (u64 ((N : Int) - i))
        deleteBlock Side.l g.lblock_len
        deleteBlock Side.r g.rblock_len
      | none => deleteBlock Side.r g.rblock_len
    else
      match new_block with
      | some new_rblock => do
        deleteBlock Side.r (u64 ((N : Int) - i))
        storeBlock Side.r (u64 ((N : Int) - i)) new_rblock
      | none => pure ()
  else pure ()

/-- Body of `TwoSiteUpdate` after the first switch (source lines 172-355), for
the locals `g` that switch assigned and `N = mps.size()`. -/
def stepBody {T R Q LP : Type} (ops : TensorOps T R Q LP) (p : SweepParams R LP) (N : Nat)
    (i : Int) (g : Geometry) (dir : Char) : M (Store T) R := do
  loadBlock p g dir
  let r ← solve ops p g
  reassemble ops g dir r.svd_res
  let new_block ← renormalize ops N i g dir
  commit p N i g dir new_block
  pure r.lancz_res.gs_eng

/-- One two-site update (source lines 96-356): returns `lancz_res.gs_eng`. -/
def TwoSiteUpdate {T R Q LP : Type} (ops : TensorOps T R Q LP) (i : Int)
    (p : SweepParams R LP) (dir : Char) : M (Store T) R := fun s =>
  match geometry s.mps.length i p.EETargetBond dir with
  | none => .fault .usage s
  | some g => stepBody ops p s.mps.length i g dir s

/-! ## TwoSiteSweep -/

/-- The loop `for (size_t i = lo; i < hi; ++i) e0 = update(i, 'r')`, with `cnt`
iterations left. -/
def forwardLoop {σ R : Type} (update : Int → Char → M σ R) : Nat → Nat → Option R → M σ (Option R)
  | 0, _, e0 => M.pure e0
  | cnt + 1, i, _ => M.bind (update (i64 i) 'r') (fun e => forwardLoop update cnt (i + 1) (some e))

/-- The loop `for (size_t i = start; i > 0; --i) e0 = update(i, 'l')`. -/
def backwardLoop {σ R : Type} (update : Int → Char → M σ R) : Nat → Option R → M σ (Option R)
  | 0, e0 => M.pure e0
  | i + 1, _ => M.bind (update (i64 ((i + 1 : Nat) : Int)) 'l')
                  (fun e => backwardLoop update i (some e))

/-- The two loops of `TwoSiteSweep` (source lines 84-92) over a chain of `N`
sites, for an arbitrary update step.  `N-1` is a `size_t`; the `size_t` loop
variable is converted to the `long` parameter of the step.  The result is empty
when no step ran and `e0` was returned uninitialised. -/
def sweepLoops {σ R : Type} (update : Int → Char → M σ R) (N : Nat) : M σ (Option R) :=
  M.bind (forwardLoop update (slot ((N : Int) - 1)) 0 none)
    (fun e0 => backwardLoop update (slot ((N : Int) - 1)) e0)

/-- One sweep (source lines 80-93). -/
def TwoSiteSweep {T R Q LP : Type} (ops : TensorOps T R Q LP) (p : SweepParams R LP) :
    M (Store T) (Option R) := fun s =>
  sweepLoops (fun i dir => TwoSiteUpdate ops i p dir) s.mps.length s

/-! ## InitBlocks -/

/-- The loop `for (size_t i = 2; i < N-1; ++i)` of `InitBlocks` (source lines
54-69) with `cnt` iterations left: grow the right block by site `N-i`, store it
in slot `i` of the local vector and, with file I/O, write it to its file. -/
def initLoop {T R Q LP : Type} (ops : TensorOps T R Q LP) (p : SweepParams R LP) (N : Nat) :
    Nat → Nat → List (Ptr T) → M (Store T) (List (Ptr T))
  | 0, _, rblocks => M.pure rblocks
  | cnt + 1, i, rblocks => fun s =>
    match (vecRead s.mps ((N : Int) - i)).bind deref,
          (vecRead rblocks ((i : Int) - 1)).bind deref,
          (vecRead s.mpo ((N : Int) - i)).bind deref,
          vecWrite rblocks i with
    | some site, some block, some op, wr =>
      let rblocki := rblockGrow ops block site op
      match wr (.live rblocki) with
      | none => .fault .ub s
      | some rblocks1 =>
        M.bind (if SweepParams.FileIO p then WriteGQTensorTOFile rblocki Side.r i else M.pure ())
          (fun _ => initLoop ops p N cnt (i + 1) rblocks1) s
    | _, _, _, _ => .fault .ub s

/-- The loop `for (auto &rb : rblocks) { delete rb; }`: every slot keeps its
pointer, now dangling unless it was null. -/
def deleteAll {T : Type} : List (Ptr T) → Option (List (Ptr T))
  | [] => some []
  | q :: rest =>
    match del q, deleteAll rest with
    | some q1, some rest1 => some (q1 :: rest1)
    | _, _ => none

/-- The function `InitBlocks` (source lines 25-77): returns the pair
`(lblocks, rblocks)`.  The assertion is the one of a build without `NDEBUG`.
Both vectors have `N-1` null slots at first, `N-1` computed as a `size_t`. -/
def InitBlocks {T R Q LP : Type} (ops : TensorOps T R Q LP) (p : SweepParams R LP) :
    M (Store T) (List (Ptr T) × List (Ptr T)) := fun s =>
  if s.mps.length ≠ s.mpo.length then .fault .assertion s
  else
    let N := s.mps.length
    let rblocks : List (Ptr T) := List.replicate (slot ((N : Int) - 1)) Ptr.null
    let lblocks : List (Ptr T) := List.replicate (slot ((N : Int) - 1)) Ptr.null
    if p.Workflow = WorkflowMode.kTwoSiteAlgoWorkflowContinue then .ok (lblocks, rblocks) s
    else
      let rblock0 := ops.GQTensor
      match vecWrite rblocks 0 (.live rblock0), s.mps.getLast?.bind deref,
            s.mpo.getLast?.bind deref with
      | some rblocks1, some site, some op =>
        let rblock1 := rblockEnd ops site op
        match vecWrite rblocks1 1 (.live rblock1) with
        | none => .fault .ub s
        | some rblocks2 =>
          (do
            if SweepParams.FileIO p then
              WriteGQTensorTOFile rblock0 Side.r 0
              WriteGQTensorTOFile rblock1 Side.r 1
            let rblocks3 ← initLoop ops p N (slot ((N : Int) - 1) - 2) 2 rblocks2
            let rblocks4 ← (if SweepParams.FileIO p then M.ofOption (deleteAll rblocks3)
                            else M.pure rblocks3)
            if SweepParams.FileIO p then
              WriteGQTensorTOFile ops.GQTensor Side.l 0
            pure (lblocks, rblocks4) : M (Store T) (List (Ptr T) × List (Ptr T))) s
      | _, _, _ => .fault .ub s

/-- Modelled from the spec: the driver `TwoSiteAlgorithm` is not among the files
at hand; it passes the pair returned by `InitBlocks` to `TwoSiteSweep` as
`lblocks` and `rblocks`.  This is `InitBlocks` followed by one sweep. -/
def initThenSweep {T R Q LP : Type} (ops : TensorOps T R Q LP) (p : SweepParams R LP) :
    M (Store T) (Option R) :=
  M.bind (InitBlocks ops p)
    (fun blocks s => TwoSiteSweep ops p { s with lblocks := blocks.1, rblocks := blocks.2 })

/-! ## A small concrete instance -/

/-- Number standing for a pointer in the toy solver. -/
def toyCode : Ptr Nat → Nat
  | .null => 0
  | .live t => t + 1
  | .freed => 0

/-- Toy solver: at the left end it skips the left block, at the right end the
right block. -/
def toySolver (eff_ham : List (Ptr Nat)) (init_state : Nat) (where_ : String) :
    LanczosRes Nat Nat :=
  let codes := eff_ham.map toyCode
  let used := if where_ = "lend" then codes.drop 1
              else if where_ = "rend" then codes.take 3
              else codes
  { gs_vec := init_state + used.sum, gs_eng := 2 * used.sum + init_state, iters := 1 }

/-- Toy tensor algebra on natural numbers. -/
def toyOps : TensorOps Nat Nat Nat Unit where
  GQTensor := 0
  Contract a b axes := 3 * a + 5 * b + axes.length + 1
  MockDag a := a + 1
  Div a := a % 2
  LanczosSolver eff_ham init_state _ where_ := toySolver eff_ham init_state where_
  Svd t _ _ _ _ _ _ Dmax := { u := t + 1, s := t + 2, v := t + 3, trunc_err := 0, D := Dmax }
  MeasureEE t _ := t

/-- Parameters of the toy runs. -/
def toyParams (checkpoint : Bool) : SweepParams Nat Unit :=
  { Sweeps := 1, Dmin := 1, Dmax := 10, Cutoff := 0, FileIO := checkpoint,
    Workflow := WorkflowMode.kTwoSiteAlgoWorkflowInitial, LanczParams := (), EETargetBond := 0 }

/-- A chain of `N` live sites and operators, no blocks, no files. -/
def toyStore (N : Nat) : Store Nat :=
  { mps := (List.range N).map (fun k => Ptr.live (10 + k)),
    mpo := (List.range N).map (fun k => Ptr.live (100 + k)),
    lblocks := [], rblocks := [], files := [], leaked := [], trace := [] }

/-- The three-site toy chain with the blocks `InitBlocks` returns for it without
file I/O. -/
def toyStart : Store Nat :=
  { toyStore 3 with lblocks := [Ptr.null, Ptr.null], rblocks := [Ptr.live 0, Ptr.live 1715] }

/-- Slot `j` of the block chain of a side points to the live tensor `x`. -/
def liveIn {T : Type} (s : Store T) (side : Side) (j : Nat) (x : T) : Prop :=
  (s.blocks side)[j]? = some (Ptr.live x)

/-- Every live block of `s1` is one of the blocks listed in `formed`, or was live
in the same slot of `s`, or is the tensor held in `s` by the file of its side
and length. -/
def blocksFrom {T : Type} (s s1 : Store T) (formed : List (Side × Nat × T)) : Prop :=
  ∀ side j x, liveIn s1 side j x →
    (side, j, x) ∈ formed ∨ liveIn s side j x ∨ s.files.lookup (side, (j : Int)) = some x

/-- What a run with file I/O (store `a`) and a run without (store `b`) share at
every point of a sweep over `N` sites: the same chain of live sites and
operators, block chains of `N-1` slots, no dangling pointer in the block chains
of `b`, and a length-0 file of the left side in `a`. -/
def SimBase {T : Type} (N : Nat) (a b : Store T) : Prop :=
  a.mps = b.mps ∧ a.mpo = b.mpo ∧ b.mps.length = N ∧ b.mpo.length = N ∧
  allLive b.mps = true ∧ allLive b.mpo = true ∧
  a.lblocks.length = N - 1 ∧ a.rblocks.length = N - 1 ∧
  b.lblocks.length = N - 1 ∧ b.rblocks.length = N - 1 ∧
  (∀ j : Nat, b.lblocks[j]? ≠ some Ptr.freed) ∧ (∀ j : Nat, b.rblocks[j]? ≠ some Ptr.freed) ∧
  (∃ t, a.files.lookup (Side.l, (0 : Int)) = some t)

/-- The two runs before the forward step at `k`: the left block of length `k` is
resident in both and the same (for `k = 0` the slot of `a` is just not
dangling); the right blocks of length at most `N-k-2` and the left blocks of
length `1..k` resident in `b` are the tensors of the files of `a`. -/
def SimForward {T : Type} (N k : Nat) (a b : Store T) : Prop :=
  SimBase N a b ∧
  (k = 0 → a.lblocks[0]? ≠ some Ptr.freed) ∧
  (0 < k → ∃ t, a.lblocks[k]? = some (Ptr.live t) ∧ b.lblocks[k]? = some (Ptr.live t)) ∧
  (∀ j : Nat, j + k + 2 ≤ N → ∃ t, b.rblocks[j]? = some (Ptr.live t) ∧
    a.files.lookup (Side.r, (j : Int)) = some t) ∧
  (∀ j : Nat, 1 ≤ j → j ≤ k → ∃ t, b.lblocks[j]? = some (Ptr.live t) ∧
    a.files.lookup (Side.l, (j : Int)) = some t)

/-- The two runs before the backward step at `k`: the right block of length
`N-k-1` is resident in both and the same; the left blocks of length `1..k-1` and
the right blocks of length at most `N-k-1` resident in `b` are the tensors of the
files of `a`. -/
def SimBackward {T : Type} (N k : Nat) (a b : Store T) : Prop :=
  SimBase N a b ∧
  (∃ t, a.rblocks[N - k - 1]? = some (Ptr.live t) ∧ b.rblocks[N - k - 1]? = some (Ptr.live t)) ∧
  (∀ j : Nat, 1 ≤ j → j + 1 ≤ k → ∃ t, b.lblocks[j]? = some (Ptr.live t) ∧
    a.files.lookup (Side.l, (j : Int)) = some t) ∧
  (∀ j : Nat, j + k + 1 ≤ N → ∃ t, b.rblocks[j]? = some (Ptr.live t) ∧
    a.files.lookup (Side.r, (j : Int)) = some t)

/-- Whether an event is a solver call. -/
def Event.isSolve {T : Type} : Event T → Bool
  | .solve _ _ _ => true
  | _ => false

/-- Whether a run returned. -/
def Res.isOk {σ α : Type} : Res σ α → Bool
  | .ok _ _ => true
  | .fault _ _ => false

/-! ## Call sequences -/

/-- Run a list of update calls in order; the value is the energy of the last
call, or the given one when the list is empty. -/
def runCalls {σ R : Type} (update : Int → Char → M σ R) :
    List (Int × Char) → Option R → M σ (Option R)
  | [], e0 => M.pure e0
  | c :: rest, _ => M.bind (update c.1 c.2) (fun e => runCalls update rest (some e))

/-- The calls of one sweep over `N` sites: forward at `0, 1, ..., N-2`, then
backward at `N-1, N-2, ..., 1`. -/
def sweepCalls (N : Nat) : List (Int × Char) :=
  (List.range (N - 1)).map (fun (k : Nat) => ((k : Int), 'r')) ++
    (List.range (N - 1)).reverse.map (fun (k : Nat) => ((k : Int) + 1, 'l'))

/-- The calls of one sweep as the specification words them: forward at
`0, 1, ..., N-2`, then backward at `N-2, N-3, ..., 1`. -/
def specSweepCalls (N : Nat) : List (Int × Char) :=
  (List.range (N - 1)).map (fun (k : Nat) => ((k : Int), 'r')) ++
    (List.range (N - 2)).reverse.map (fun (k : Nat) => ((k : Int) + 1, 'l'))

/-- An update step that only records its arguments. -/
def logCall (i : Int) (dir : Char) : M (List (Int × Char)) Unit :=
  fun log => .ok () (log ++ [(i, dir)])

/-! ## DuoVector (`duovector.h`) -/

/-- The `raw_data_` of a `DuoVector<ElemT>` together with the free store its
pointers point into.  A pointer is `none` (the null pointer) or `some a`, the
address of cell `a` of the free store; a cell holds `some e` while its object is
alive and `none` once it has been deleted. -/
structure DuoVector (ElemT : Type) where
  heap : List (Option ElemT)
  raw_data_ : List (Option Nat)
  deriving DecidableEq, Repr

/-- The constructor `DuoVector(size)`: `size` null slots. -/
def DuoVector.create {ElemT : Type} (heap : List (Option ElemT)) (size : Nat) :
    DuoVector ElemT :=
  { heap := heap, raw_data_ := List.replicate size none }

/-- The method `size()`. -/
def DuoVector.size {ElemT : Type} (v : DuoVector ElemT) : Nat := v.raw_data_.length

/-- The expression `new ElemT`: a fresh cell with a default-constructed element;
the value is its address. -/
def DuoVector.newElem {ElemT : Type} (dflt : ElemT) (v : DuoVector ElemT) :
    Nat × DuoVector ElemT :=
  (v.heap.length, { v with heap := v.heap ++ [some dflt] })

/-- The statement `delete p` for a non-null `p`: undefined unless the object is
alive. -/
def DuoVector.deleteElem {ElemT : Type} (a : Nat) (v : DuoVector ElemT) :
    Option (DuoVector ElemT) :=
  match v.heap[a]? with
  | some (some _) => some { v with heap := v.heap.set a none }
  | _ => none

/-- The const `operator[]` (source line 58): `*raw_data_[idx]`, undefined
outside the vector, on a null slot and on a dead object. -/
def DuoVector.operatorIndexConst {ElemT : Type} (v : DuoVector ElemT) (idx : Nat) :
    Option ElemT :=
  match v.raw_data_[idx]? with
  | some (some a) => (v.heap[a]?).join
  | _ => none

/-- The mutable `operator[]` (source lines 66-71): allocate the element if the
slot is null, then return a reference to `*raw_data_[idx]`; the value is the
address of the referenced object. -/
def DuoVector.operatorIndex {ElemT : Type} (dflt : ElemT) (idx : Nat) (v : DuoVector ElemT) :
    Option (Nat × DuoVector ElemT) :=
  match v.raw_data_[idx]? with
  | none => none
  | some none =>
    let fresh := v.newElem dflt
    some (fresh.1, { fresh.2 with raw_data_ := fresh.2.raw_data_.set idx (some fresh.1) })
  | some (some a) =>
    match v.heap[a]? with
    | some (some _) => some (a, v)
    | _ => none

/-- The const `operator()` (source line 78): the pointer in the slot. -/
def DuoVector.operatorCallConst {ElemT : Type} (v : DuoVector ElemT) (idx : Nat) :
    Option (Option Nat) :=
  v.raw_data_[idx]?

/-- An assignment `v(idx) = ptr` through the reference the mutable `operator()`
(source line 85) returns: `raw_data_[idx]` is overwritten. -/
def DuoVector.operatorCallAssign {ElemT : Type} (idx : Nat) (ptr : Option Nat)
    (v : DuoVector ElemT) : Option (DuoVector ElemT) :=
  if idx < v.raw_data_.length then some { v with raw_data_ := v.raw_data_.set idx ptr }
  else none

/-- The method `alloc` (source lines 106-111): delete the occupant, if any, and
point the slot to a default-constructed element. -/
def DuoVector.alloc {ElemT : Type} (dflt : ElemT) (idx : Nat) (v : DuoVector ElemT) :
    Option (DuoVector ElemT) :=
  match v.raw_data_[idx]? with
  | none => none
  | some ptr =>
    match (match ptr with
           | none => some v
           | some a => v.deleteElem a) with
    | none => none
    | some v1 =>
      let fresh := v1.newElem dflt
      some { fresh.2 with raw_data_ := fresh.2.raw_data_.set idx (some fresh.1) }

/-- The method `dealloc` (source lines 118-123): delete the occupant, if any, and
null the slot. -/
def DuoVector.dealloc {ElemT : Type} (idx : Nat) (v : DuoVector ElemT) :
    Option (DuoVector ElemT) :=
  match v.raw_data_[idx]? with
  | none => none
  | some none => some v
  | some (some a) =>
    match v.deleteElem a with
    | none => none
    | some v1 => some { v1 with raw_data_ := v1.raw_data_.set idx none }

/-- A two-slot vector of numbers: slot 0 owns the object at address 0, slot 1 is
null, and the object at address 1 belongs to the caller. -/
def toyDuo : DuoVector Nat :=
  { heap := [some 7, some 9], raw_data_ := [some 0, none] }

/-- A two-site toy chain with one-slot block chains: an empty left chain and the
default tensor as the right block of length 0. -/
def toyPair : Store Nat :=
  { toyStore 2 with lblocks := [Ptr.null], rblocks := [Ptr.live 0] }

/-! ## Blocks of a chain and the checkpointed run -/

/-- The left block of length `l` of a chain: the default tensor for `l = 0`
(the tensor `InitBlocks` writes to the left file of length 0), the block of
site 0 alone for `l = 1` (source lines 250-253), and site `l-1` contracted into
the block of length `l-1` otherwise (source lines 255-262).  Nothing when a site
or operator it needs is not live. -/
def leftBlockOf {T R Q LP : Type} (ops : TensorOps T R Q LP) (mps mpo : List (Ptr T)) :
    Nat → Option T
  | 0 => some ops.GQTensor
  | l + 1 =>
    match (mps[l]?).bind deref, (mpo[l]?).bind deref with
    | some site, some op =>
      if l = 0 then some (lblockEnd ops site op)
      else (leftBlockOf ops mps mpo l).map (fun b => lblockGrow ops b site op)
    | _, _ => none

/-- The right block of length `l` of a chain: the default tensor for `l = 0`
(source line 38), the block of the last site alone for `l = 1` (source lines
40-43 and 301-304), and site `N-l` contracted into the block of length `l-1`
otherwise (source lines 55-61 and 306-312).  Nothing when a site or operator it
needs is not live. -/
def rightBlockOf {T R Q LP : Type} (ops : TensorOps T R Q LP) (mps mpo : List (Ptr T)) :
    Nat → Option T
  | 0 => some ops.GQTensor
  | l + 1 =>
    match (mps[mps.length - (l + 1)]?).bind deref, (mpo[mps.length - (l + 1)]?).bind deref with
    | some site, some op =>
      if l = 0 then some (rblockEnd ops site op)
      else (rightBlockOf ops mps mpo l).map (fun b => rblockGrow ops b site op)
    | _, _ => none

/-- What holds throughout a run with file I/O on a chain of `N` sites: live
sites and operators, block chains of `N-1` slots, the files of the store are the
files `written` since the start of the run on top of the files `before` it, and
a right file of every length `0..N-2` has been written. -/
def CkBase {T : Type} (N : Nat) (before written : List ((Side × Int) × T)) (s : Store T) :
    Prop :=
  s.mps.length = N ∧ s.mpo.length = N ∧ allLive s.mps = true ∧ allLive s.mpo = true ∧
  s.lblocks.length = N - 1 ∧ s.rblocks.length = N - 1 ∧ s.files = written ++ before ∧
  (∀ j : Nat, j + 2 ≤ N → ∃ t, written.lookup (Side.r, (j : Int)) = some t)

/-- The run with file I/O before the forward step at `k`: left files of length
up to `K` have been written; the last write to the right file of each length
`j ≤ N-k-2` and to the left file of each length `j ≤ k` holds the block of that
side and length of the current chain; no right block is resident, and no left
block other than the one of length `k`, which is the block of the current chain
when `k > 0`. -/
def CkForward {T R Q LP : Type} (ops : TensorOps T R Q LP) (N k K : Nat)
    (before written : List ((Side × Int) × T)) (s : Store T) : Prop :=
  CkBase N before written s ∧
  (∀ j : Nat, j ≤ K → ∃ t, written.lookup (Side.l, (j : Int)) = some t) ∧
  (∀ j : Nat, j + k + 2 ≤ N → ∃ t, written.lookup (Side.r, (j : Int)) = some t ∧
    rightBlockOf ops s.mps s.mpo j = some t) ∧
  (∀ j : Nat, j ≤ k → ∃ t, written.lookup (Side.l, (j : Int)) = some t ∧
    leftBlockOf ops s.mps s.mpo j = some t) ∧
  (∀ (j : Nat) (t : T), s.rblocks[j]? ≠ some (Ptr.live t)) ∧
  (∀ (j : Nat) (t : T), j ≠ k → s.lblocks[j]? ≠ some (Ptr.live t)) ∧
  (k = 0 → s.lblocks[0]? ≠ some Ptr.freed) ∧
  (0 < k → ∃ t, s.lblocks[k]? = some (Ptr.live t) ∧ leftBlockOf ops s.mps s.mpo k = some t)

/-- The run with file I/O before the backward step at `k`: left files of length
up to `K` have been written; the last write to the right file of each length
`j ≤ N-k-1` and to the left file of each length `j ≤ k-1` holds the block of
that side and length of the current chain; no left block is resident, and no
right block other than the one of length `N-k-1`, which is the block of the
current chain. -/
def CkBackward {T R Q LP : Type} (ops : TensorOps T R Q LP) (N k K : Nat)
    (before written : List ((Side × Int) × T)) (s : Store T) : Prop :=
  CkBase N before written s ∧
  (∀ j : Nat, j ≤ K → ∃ t, written.lookup (Side.l, (j : Int)) = some t) ∧
  (∀ j : Nat, j + k + 1 ≤ N → ∃ t, written.lookup (Side.r, (j : Int)) = some t ∧
    rightBlockOf ops s.mps s.mpo j = some t) ∧
  (∀ j : Nat, j + 1 ≤ k → ∃ t, written.lookup (Side.l, (j : Int)) = some t ∧
    leftBlockOf ops s.mps s.mpo j = some t) ∧
  (∀ (j : Nat) (t : T), s.lblocks[j]? ≠ some (Ptr.live t)) ∧
  (∀ (j : Nat) (t : T), j ≠ N - k - 1 → s.rblocks[j]? ≠ some (Ptr.live t)) ∧
  (∃ t, s.rblocks[N - k - 1]? = some (Ptr.live t) ∧
    rightBlockOf ops s.mps s.mpo (N - k - 1) = some t)

/-- The run with file I/O after `n` steps of a sweep over `N` sites that began
with left files up to length `K`: before the forward step `n` while `n < N-1`,
before the backward step `2N-2-n` while `N-1 ≤ n < 2N-2`, and before the first
forward step of the next sweep at `n = 2N-2`. -/
def CkAt {T R Q LP : Type} (ops : TensorOps T R Q LP) (N n K : Nat)
    (before written : List ((Side × Int) × T)) (s : Store T) : Prop :=
  (n + 1 < N → CkForward ops N n K before written s) ∧
  (N ≤ n + 1 → n + 2 < 2 * N → CkBackward ops N (2 * N - 2 - n) (N - 2) before written s) ∧
  (n + 2 = 2 * N → CkForward ops N 0 (N - 2) before written s)

/-- The first `n` steps of a sweep. -/
def sweepSteps {T R Q LP : Type} (ops : TensorOps T R Q LP) (p : SweepParams R LP) (n : Nat) :
    M (Store T) (Option R) := fun s =>
  runCalls (fun i dir => TwoSiteUpdate ops i p dir) ((sweepCalls s.mps.length).take n) none s

/-- Run `m` complete sweeps one after the other, then the first `n` steps of the
next one. -/
def sweepsThen {T R Q LP : Type} (ops : TensorOps T R Q LP) (p : SweepParams R LP) :
    Nat → Nat → M (Store T) (Option R)
  | 0, n => sweepSteps ops p n
  | m + 1, n => M.bind (TwoSiteSweep ops p) (fun _ => sweepsThen ops p m n)

/-- Modelled from the spec: the driver `TwoSiteAlgorithm` is not among the files
at hand; it passes the pair returned by `InitBlocks` to the sweeps, which it
runs one after the other.  This is `InitBlocks` followed by `m` complete sweeps
and the first `n` steps of the next one. -/
def initThenSteps {T R Q LP : Type} (ops : TensorOps T R Q LP) (p : SweepParams R LP)
    (m n : Nat) : M (Store T) (Option R) :=
  M.bind (InitBlocks ops p)
    (fun blocks s => sweepsThen ops p m n { s with lblocks := blocks.1, rblocks := blocks.2 })

/-- No block is resident outside slot `j` of the block chain of `side`. -/
def residentOnlyAt {T : Type} (s : Store T) (side : Side) (j : Nat) : Prop :=
  ∀ sd i t, liveIn s sd i t → sd = side ∧ i = j

/-- At most one slot of the two block chains points to a live block. -/
def atMostOneResident {T : Type} (s : Store T) : Prop :=
  ∀ sd i t sd2 i2 t2, liveIn s sd i t → liveIn s sd2 i2 t2 → sd = sd2 ∧ i = i2

/-! # Theorems -/

/-! ## Machine integers -/

theorem u64_of_lt {x : Int} (h0 : 0 ≤ x) (h1 : x < 18446744073709551616) : u64 x = x := by
  unfold u64; omega

theorem i64_of_lt {x : Int} (h0 : -9223372036854775808 ≤ x) (h1 : x < 9223372036854775808) :
    i64 x = x := by
  unfold i64; omega

theorem slot_natCast {k : Nat} (h : k < 18446744073709551616) : slot (k : Int) = k := by
  unfold slot u64; omega

/-! ## The monad -/

theorem M.bind_assoc {σ α β γ : Type} (x : M σ α) (f : α → M σ β) (g : β → M σ γ) :
    M.bind (M.bind x f) g = M.bind x (fun a => M.bind (f a) g) := by
  funext s
  simp only [M.bind]
  cases x s <;> rfl

theorem M.pure_bind {σ α β : Type} (a : α) (f : α → M σ β) : M.bind (M.pure a) f = f a := rfl

theorem M.bind_congr {σ α β : Type} (x : M σ α) (f g : α → M σ β) (h : ∀ a, f a = g a) :
    M.bind x f = M.bind x g := by
  have : f = g := funext h
  rw [this]

/-! ## C1: block lengths -/

/-- C1: for a chain of `N >= 2` sites (a vector size, hence below `2^63`) and a
step as a sweep calls it, direction `'r'` with `0 <= i <= N-2` or direction `'l'`
with `1 <= i <= N-1`, the first switch of `TwoSiteUpdate` yields block lengths
with `lblock_len + rblock_len + 2 = N`, both between `0` and `N-2`. -/
theorem geometry_block_lengths (N : Nat) (i EETargetBond : Int) (dir : Char)
    (hN : 2 ≤ N) (hsize : N < 2 ^ 63)
    (hstep : (dir = 'r' ∧ 0 ≤ i ∧ i ≤ (N : Int) - 2) ∨ (dir = 'l' ∧ 1 ≤ i ∧ i ≤ (N : Int) - 1)) :
    ∃ g, geometry N i EETargetBond dir = some g ∧
      g.lblock_len + g.rblock_len + 2 = (N : Int) ∧
      0 ≤ g.lblock_len ∧ g.lblock_len ≤ (N : Int) - 2 ∧
      0 ≤ g.rblock_len ∧ g.rblock_len ≤ (N : Int) - 2 := by
  rcases hstep with ⟨hd, h0, h1⟩ | ⟨hd, h0, h1⟩
  · subst hd
    have hr : i64 ((N : Int) - (i + 2)) = (N : Int) - (i + 2) := by
      apply i64_of_lt <;> omega
    unfold geometry
    simp only [if_true]
    split
    · exact ⟨_, rfl, by simp only [hr]; omega⟩
    · split
      · exact ⟨_, rfl, by simp only [hr]; omega⟩
      · exact ⟨_, rfl, by simp only [hr]; omega⟩
  · subst hd
    have hr : i64 ((N : Int) - i - 1) = (N : Int) - i - 1 := by
      apply i64_of_lt <;> omega
    have hne : ¬ ('l' = 'r') := by decide
    unfold geometry
    simp only [hne, if_false, if_true]
    split
    · exact ⟨_, rfl, by simp only [hr]; omega⟩
    · split
      · exact ⟨_, rfl, by simp only [hr]; omega⟩
      · exact ⟨_, rfl, by simp only [hr]; omega⟩

/-- Witness of C1 on a chain of six sites, backward step at bond index three. -/
theorem geometry_block_lengths_witness :
    ∃ g, geometry 6 3 2 'l' = some g ∧
      g.lblock_len + g.rblock_len + 2 = ((6 : Nat) : Int) ∧
      0 ≤ g.lblock_len ∧ g.lblock_len ≤ ((6 : Nat) : Int) - 2 ∧
      0 ≤ g.rblock_len ∧ g.rblock_len ≤ ((6 : Nat) : Int) - 2 :=
  geometry_block_lengths 6 3 2 'l' (by decide) (by decide)
    (Or.inr ⟨rfl, by decide, by decide⟩)

/-! ## C2, C3: the calls of a sweep -/

theorem runCalls_append {σ R : Type} (update : Int → Char → M σ R) (a b : List (Int × Char))
    (e0 : Option R) :
    runCalls update (a ++ b) e0 = M.bind (runCalls update a e0) (fun e => runCalls update b e) := by
  induction a generalizing e0 with
  | nil => rfl
  | cons c rest ih =>
    simp only [List.cons_append, runCalls, M.bind_assoc]
    exact M.bind_congr _ _ _ (fun e => ih (some e))

theorem forwardLoop_eq_runCalls {σ R : Type} (update : Int → Char → M σ R) (cnt i : Nat)
    (e0 : Option R) (h : i + cnt ≤ 2 ^ 63) :
    forwardLoop update cnt i e0 =
      runCalls update ((List.range' i cnt).map (fun (k : Nat) => ((k : Int), 'r'))) e0 := by
  induction cnt generalizing i e0 with
  | zero => rfl
  | succ cnt ih =>
    have hi : i64 (i : Int) = (i : Int) := by apply i64_of_lt <;> omega
    simp only [forwardLoop, List.range'_succ, List.map_cons, runCalls, hi]
    exact M.bind_congr _ _ _ (fun e => ih (i + 1) (some e) (by omega))

theorem backwardLoop_eq_runCalls {σ R : Type} (update : Int → Char → M σ R) (n : Nat)
    (e0 : Option R) (h : n < 2 ^ 63) :
    backwardLoop update n e0 =
      runCalls update ((List.range n).reverse.map (fun (k : Nat) => ((k : Int) + 1, 'l'))) e0 := by
  induction n generalizing e0 with
  | zero => rfl
  | succ n ih =>
    have hi : i64 (((n + 1 : Nat) : Int)) = (n : Int) + 1 := by
      rw [i64_of_lt] <;> omega
    simp only [backwardLoop, List.range_succ, List.reverse_append, List.reverse_cons,
      List.reverse_nil, List.nil_append, List.singleton_append, List.map_cons, runCalls, hi]
    exact M.bind_congr _ _ _ (fun e => ih (some e) (by omega))

theorem sweepLoops_eq_runCalls {σ R : Type} (update : Int → Char → M σ R) (N : Nat)
    (hN : 1 ≤ N) (hsize : N < 2 ^ 63) :
    sweepLoops update N = runCalls update (sweepCalls N) none := by
  have hs : slot ((N : Int) - 1) = N - 1 := by unfold slot u64; omega
  unfold sweepLoops sweepCalls
  rw [hs, runCalls_append, forwardLoop_eq_runCalls update (N - 1) 0 none (by omega),
    ← List.range_eq_range']
  exact M.bind_congr _ _ _ (fun e => backwardLoop_eq_runCalls update (N - 1) e (by omega))

theorem sweepCalls_last (N : Nat) (hN : 2 ≤ N) :
    sweepCalls N = (sweepCalls N).dropLast ++ [((1 : Int), 'l')] := by
  obtain ⟨m, rfl⟩ : ∃ m, N = m + 2 := ⟨N - 2, by omega⟩
  have h1 : m + 2 - 1 = m + 1 := by omega
  have h2 : (List.range (m + 1)).reverse = (List.range' 1 m).reverse ++ [0] := by
    rw [List.range_eq_range', List.range'_succ, List.reverse_cons]
  unfold sweepCalls
  rw [h1, h2, List.map_append, ← List.append_assoc]
  simp only [List.map_cons, List.map_nil, Nat.cast_zero, zero_add, List.dropLast_concat]

/-- C2 (as amended): for a chain of `N >= 2` sites, `TwoSiteSweep` is the run of
the calls `TwoSiteUpdate(i, 'r')` for `i = 0, 1, ..., N-2` followed by
`TwoSiteUpdate(i, 'l')` for `i = N-1, N-2, ..., 1`, in that order, with no other
call; a call that stops the program ends the run. -/
theorem twoSiteSweep_calls {T R Q LP : Type} (ops : TensorOps T R Q LP) (p : SweepParams R LP)
    (s : Store T) (hN : 2 ≤ s.mps.length) (hsize : s.mps.length < 2 ^ 63) :
    TwoSiteSweep ops p s =
      runCalls (fun i dir => TwoSiteUpdate ops i p dir) (sweepCalls s.mps.length) none s := by
  unfold TwoSiteSweep
  rw [sweepLoops_eq_runCalls _ _ (by omega) hsize]

/-- Witness of C2 on the four-site toy chain; the call list is spelled out. -/
theorem twoSiteSweep_calls_witness :
    sweepCalls 4 = [(0, 'r'), (1, 'r'), (2, 'r'), (3, 'l'), (2, 'l'), (1, 'l')] ∧
    TwoSiteSweep toyOps (toyParams false) (toyStore 4) =
      runCalls (fun i dir => TwoSiteUpdate toyOps i (toyParams false) dir)
        (sweepCalls (toyStore 4).mps.length) none (toyStore 4) :=
  ⟨by decide, twoSiteSweep_calls toyOps (toyParams false) (toyStore 4) (by decide) (by decide)⟩

/-- C2, counterexample: on three sites the sweep loops make the calls
`(0,'r'), (1,'r'), (2,'l'), (1,'l')`; the backward pass starts at index `N-1 = 2`,
not at `N-2 = 1` as the sequence `(0,'r'), (1,'r'), (1,'l')` of the claim has it. -/
theorem sweep_calls_counterexample :
    sweepLoops logCall 3 [] = Res.ok (some ()) [(0, 'r'), (1, 'r'), (2, 'l'), (1, 'l')] ∧
    specSweepCalls 3 = [(0, 'r'), (1, 'r'), (1, 'l')] ∧
    sweepLoops logCall 3 [] ≠ Res.ok (some ()) (specSweepCalls 3) := by
  refine ⟨by decide, by decide, by decide⟩

/-- C3: for a chain of `N >= 2` sites, `TwoSiteSweep` ends with the call
`TwoSiteUpdate(1, 'l')` and returns the energy of that call, whatever the calls
before it returned. -/
theorem twoSiteSweep_returns_last_energy {T R Q LP : Type} (ops : TensorOps T R Q LP)
    (p : SweepParams R LP) (s : Store T) (hN : 2 ≤ s.mps.length)
    (hsize : s.mps.length < 2 ^ 63) :
    TwoSiteSweep ops p s =
      M.bind (runCalls (fun i dir => TwoSiteUpdate ops i p dir)
                (sweepCalls s.mps.length).dropLast none)
        (fun _ => M.bind (TwoSiteUpdate ops 1 p 'l') (fun e => M.pure (some e))) s := by
  unfold TwoSiteSweep
  rw [sweepLoops_eq_runCalls _ _ (by omega) hsize]
  conv_lhs => rw [sweepCalls_last _ hN, runCalls_append]
  rfl

/-! ## C4: unknown direction -/

/-- C4: for a direction other than `'r'` and `'l'`, whatever the bond index, the
parameters and the store, `TwoSiteUpdate` stops with the usage fault (`exit(1)`)
and returns no energy; the store at that point is the one it was called with, so
no file was read and no chain entry, block entry or file has changed. -/
theorem twoSiteUpdate_bad_direction {T R Q LP : Type} (ops : TensorOps T R Q LP) (i : Int)
    (p : SweepParams R LP) (dir : Char) (s : Store T) (hr : dir ≠ 'r') (hl : dir ≠ 'l') :
    TwoSiteUpdate ops i p dir s = Res.fault Fault.usage s := by
  simp [TwoSiteUpdate, geometry, hr, hl]

/-- Witness of C4: direction `'x'` on the three-site toy chain. -/
theorem twoSiteUpdate_bad_direction_witness :
    TwoSiteUpdate toyOps 0 (toyParams true) 'x' (toyStore 3) =
      Res.fault Fault.usage (toyStore 3) :=
  twoSiteUpdate_bad_direction toyOps 0 (toyParams true) 'x' (toyStore 3) (by decide) (by decide)

/-! ## Vectors and files -/

theorem vecRead_natCast {T : Type} (v : List (Ptr T)) (k : Nat) (h : k < 2 ^ 63) :
    vecRead v (k : Int) = v[k]? := by
  unfold vecRead
  rw [slot_natCast (by omega)]

theorem vecWrite_natCast {T : Type} (v : List (Ptr T)) (k : Nat) (q : Ptr T) (h : k < 2 ^ 63)
    (hk : k < v.length) : vecWrite v (k : Int) q = some (v.set k q) := by
  unfold vecWrite
  rw [slot_natCast (by omega), if_pos hk]

theorem allLive_getElem? {T : Type} {v : List (Ptr T)} (h : allLive v = true) {k : Nat}
    (hk : k < v.length) : ∃ t, v[k]? = some (Ptr.live t) := by
  have hm : v[k] ∈ v := List.getElem_mem hk
  have hl : Ptr.isLive v[k] = true := (List.all_eq_true.mp h) _ hm
  rw [List.getElem?_eq_getElem hk]
  cases hq : v[k] with
  | live t => exact ⟨t, rfl⟩
  | null => rw [hq] at hl; cases hl
  | freed => rw [hq] at hl; cases hl

theorem lookup_cons_eq {T : Type} (key k : Side × Int) (t : T) (fs : List ((Side × Int) × T)) :
    List.lookup key ((k, t) :: fs) = if key = k then some t else List.lookup key fs := by
  rw [List.lookup_cons]
  by_cases h : key = k
  · simp [h]
  · have : (key == k) = false := by simpa using h
    simp [this, h]

/-! ## InitBlocks -/

theorem initLoop_spec {T R Q LP : Type} (ops : TensorOps T R Q LP) (p : SweepParams R LP)
    (N : Nat) (hsize : N < 2 ^ 63) (cnt : Nat) :
    ∀ (i : Nat) (rb : List (Ptr T)) (s : Store T),
      s.mps.length = N → s.mpo.length = N → allLive s.mps = true → allLive s.mpo = true →
      2 ≤ i → i + cnt = N - 1 → rb.length = N - 1 →
      (∃ t, rb[i - 1]? = some (Ptr.live t)) →
      ∃ rb1 s1, initLoop ops p N cnt i rb s = Res.ok rb1 s1 ∧ rb1.length = N - 1 ∧
        (∀ k, k < i → rb1[k]? = rb[k]?) ∧
        (∀ l, i ≤ l → l < N - 1 → ∃ b m o, rb1[l - 1]? = some (Ptr.live b) ∧
          s.mps[N - l]? = some (Ptr.live m) ∧ s.mpo[N - l]? = some (Ptr.live o) ∧
          rb1[l]? = some (Ptr.live (rblockGrow ops b m o))) ∧
        s1.mps = s.mps ∧ s1.mpo = s.mpo ∧ s1.lblocks = s.lblocks ∧ s1.rblocks = s.rblocks ∧
        ( SweepParams.FileIO p = false → s1 = s) ∧
        ( SweepParams.FileIO p = true →
          (∀ l, i ≤ l → l < N - 1 → ∃ t, rb1[l]? = some (Ptr.live t) ∧
            s1.files.lookup (Side.r, (l : Int)) = some t) ∧
          (∀ key, (∀ l : Nat, i ≤ l → key ≠ (Side.r, (l : Int))) →
            s1.files.lookup key = s.files.lookup key)) := by
  induction cnt with
  | zero =>
    intro i rb s _ _ _ _ _ hcnt hlen _
    refine ⟨rb, s, rfl, hlen, fun _ _ => rfl, ?_, rfl, rfl, rfl, rfl, fun _ => rfl, fun _ => ⟨?_, fun _ _ => rfl⟩⟩
    · intro l h1 h2; omega
    · intro l h1 h2; omega
  | succ cnt ih =>
    intro i rb s hmps hmpo lmps lmpo hi hcnt hlen hprev
    obtain ⟨m, hm⟩ := allLive_getElem? lmps (k := N - i) (by omega)
    obtain ⟨o, ho⟩ := allLive_getElem? lmpo (k := N - i) (by omega)
    obtain ⟨b, hb⟩ := hprev
    have e1 : ((N : Int) - (i : Int)) = ((N - i : Nat) : Int) := by omega
    have e2 : ((i : Int) - 1) = ((i - 1 : Nat) : Int) := by omega
    have r1 : (vecRead s.mps ((N : Int) - i)).bind deref = some m := by
      rw [e1, vecRead_natCast _ _ (by omega), hm]; rfl
    have r2 : (vecRead rb ((i : Int) - 1)).bind deref = some b := by
      rw [e2, vecRead_natCast _ _ (by omega), hb]; rfl
    have r3 : (vecRead s.mpo ((N : Int) - i)).bind deref = some o := by
      rw [e1, vecRead_natCast _ _ (by omega), ho]; rfl
    have r4 : vecWrite rb (i : Int) (Ptr.live (rblockGrow ops b m o)) =
        some (rb.set i (Ptr.live (rblockGrow ops b m o))) :=
      vecWrite_natCast _ _ _ (by omega) (by omega)
    have hset : (rb.set i (Ptr.live (rblockGrow ops b m o)))[i]? =
        some (Ptr.live (rblockGrow ops b m o)) := by
      rw [List.getElem?_set_self (by omega)]
    cases hio : SweepParams.FileIO p with
    | false =>
      obtain ⟨rb1, s1, hrun, hl1, hk1, hrec1, f1, f2, f3, f4, f5, _⟩ :=
        ih (i + 1) (rb.set i (Ptr.live (rblockGrow ops b m o))) s hmps hmpo lmps lmpo
          (by omega) (by omega) (by simpa using hlen) ⟨_, by simpa using hset⟩
      refine ⟨rb1, s1, ?_, hl1, ?_, ?_, f1, f2, f3, f4, fun _ => f5 hio, fun h => by cases h⟩
      · simp only [initLoop, r1, r2, r3, r4, hio, M.bind, M.pure]
        exact hrun
      · intro k hk
        rw [hk1 k (by omega), List.getElem?_set_ne (by omega)]
      · intro l h1 h2
        rcases Nat.eq_or_lt_of_le h1 with h | h
        · subst h
          refine ⟨b, m, o, ?_, hm, ho, ?_⟩
          · rw [hk1 _ (by omega), List.getElem?_set_ne (by omega), hb]
          · rw [hk1 _ (by omega), hset]
        · exact hrec1 l (by omega) h2
    | true =>
      obtain ⟨rb1, s1, hrun, hl1, hk1, hrec1, f1, f2, f3, f4, _, f6⟩ :=
        ih (i + 1) (rb.set i (Ptr.live (rblockGrow ops b m o)))
          { s with files := ((Side.r, (i : Int)), rblockGrow ops b m o) :: s.files,
                   trace := s.trace ++ [Event.write Side.r (i : Int) (rblockGrow ops b m o)] }
          hmps hmpo lmps lmpo
          (by omega) (by omega) (by simpa using hlen) ⟨_, by simpa using hset⟩
      obtain ⟨f6a, f6b⟩ := f6 hio
      refine ⟨rb1, s1, ?_, hl1, ?_, ?_, f1, f2, f3, f4, (fun h => by cases h), fun _ => ⟨?_, ?_⟩⟩
      · simp only [initLoop, r1, r2, r3, r4, hio, M.bind, M.pure, WriteGQTensorTOFile, if_true]
        exact hrun
      · intro k hk
        rw [hk1 k (by omega), List.getElem?_set_ne (by omega)]
      · intro l h1 h2
        rcases Nat.eq_or_lt_of_le h1 with h | h
        · subst h
          refine ⟨b, m, o, ?_, hm, ho, ?_⟩
          · rw [hk1 _ (by omega), List.getElem?_set_ne (by omega), hb]
          · rw [hk1 _ (by omega), hset]
        · exact hrec1 l (by omega) h2
      · intro l h1 h2
        rcases Nat.eq_or_lt_of_le h1 with h | h
        · subst h
          refine ⟨_, by rw [hk1 _ (by omega), hset], ?_⟩
          rw [f6b (Side.r, (i : Int)) (fun l hl hne => by
            have := (Prod.mk.inj hne).2
            omega)]
          simp [lookup_cons_eq]
        · exact f6a l (by omega) h2
      · intro key hkey
        rw [f6b key (fun l hl => hkey l (by omega))]
        simp only [lookup_cons_eq]
        rw [if_neg (hkey i (le_refl _))]

theorem deleteAll_live {T : Type} (v : List (Ptr T)) (h : allLive v = true) :
    deleteAll v = some (List.replicate v.length Ptr.freed) := by
  induction v with
  | nil => rfl
  | cons q rest ih =>
    simp only [allLive, List.all_cons, Bool.and_eq_true] at h
    have hr : allLive rest = true := h.2
    cases q with
    | live t => simp [deleteAll, del, ih hr, List.replicate_succ]
    | null => cases h.1
    | freed => cases h.1

theorem allLive_of_getElem? {T : Type} (v : List (Ptr T))
    (h : ∀ k, k < v.length → ∃ t, v[k]? = some (Ptr.live t)) : allLive v = true := by
  unfold allLive
  rw [List.all_eq_true]
  intro q hq
  obtain ⟨k, hk, rfl⟩ := List.getElem_of_mem hq
  obtain ⟨t, ht⟩ := h k hk
  rw [List.getElem?_eq_getElem hk] at ht
  rw [Option.some.inj ht]
  rfl

theorem initBlocks_spec {T R Q LP : Type} (ops : TensorOps T R Q LP) (p : SweepParams R LP)
    (s : Store T) (N : Nat) (hN : 3 ≤ N) (hsize : N < 2 ^ 63)
    (hmps : s.mps.length = N) (hmpo : s.mpo.length = N)
    (lmps : allLive s.mps = true) (lmpo : allLive s.mpo = true)
    (hw : p.Workflow = WorkflowMode.kTwoSiteAlgoWorkflowInitial) :
    ∃ rb s1,
      InitBlocks ops p s =
        Res.ok (List.replicate (N - 1) Ptr.null,
          if SweepParams.FileIO p = true then List.replicate (N - 1) Ptr.freed else rb) s1 ∧
      rb.length = N - 1 ∧
      rb[0]? = some (Ptr.live ops.GQTensor) ∧
      (∃ m o, s.mps[N - 1]? = some (Ptr.live m) ∧ s.mpo[N - 1]? = some (Ptr.live o) ∧
        rb[1]? = some (Ptr.live (rblockEnd ops m o))) ∧
      (∀ l, 2 ≤ l → l < N - 1 → ∃ b m o, rb[l - 1]? = some (Ptr.live b) ∧
        s.mps[N - l]? = some (Ptr.live m) ∧ s.mpo[N - l]? = some (Ptr.live o) ∧
        rb[l]? = some (Ptr.live (rblockGrow ops b m o))) ∧
      s1.mps = s.mps ∧ s1.mpo = s.mpo ∧ s1.lblocks = s.lblocks ∧ s1.rblocks = s.rblocks ∧
      ( SweepParams.FileIO p = false → s1 = s) ∧
      ( SweepParams.FileIO p = true →
        (∀ l, l < N - 1 → ∃ t, rb[l]? = some (Ptr.live t) ∧
          s1.files.lookup (Side.r, (l : Int)) = some t) ∧
        s1.files.lookup (Side.l, (0 : Int)) = some ops.GQTensor) := by
  obtain ⟨m, hm⟩ := allLive_getElem? lmps (k := N - 1) (by omega)
  obtain ⟨o, ho⟩ := allLive_getElem? lmpo (k := N - 1) (by omega)
  have hslot : slot ((N : Int) - 1) = N - 1 := by unfold slot u64; omega
  have hne : ¬ (s.mps.length ≠ s.mpo.length) := by omega
  have hwf : ¬ (p.Workflow = WorkflowMode.kTwoSiteAlgoWorkflowContinue) := by
    rw [hw]; decide
  have w0 : vecWrite (List.replicate (N - 1) (Ptr.null : Ptr T)) 0 (Ptr.live ops.GQTensor) =
      some ((List.replicate (N - 1) Ptr.null).set 0 (Ptr.live ops.GQTensor)) := by
    have := vecWrite_natCast (List.replicate (N - 1) (Ptr.null : Ptr T)) 0
      (Ptr.live ops.GQTensor) (by omega) (by simp; omega)
    simpa using this
  have w1 : vecWrite ((List.replicate (N - 1) (Ptr.null : Ptr T)).set 0 (Ptr.live ops.GQTensor)) 1
      (Ptr.live (rblockEnd ops m o)) =
      some (((List.replicate (N - 1) Ptr.null).set 0 (Ptr.live ops.GQTensor)).set 1
        (Ptr.live (rblockEnd ops m o))) := by
    have := vecWrite_natCast
      ((List.replicate (N - 1) (Ptr.null : Ptr T)).set 0 (Ptr.live ops.GQTensor)) 1
      (Ptr.live (rblockEnd ops m o)) (by omega) (by simp; omega)
    simpa using this
  have g1 : s.mps.getLast?.bind deref = some m := by
    rw [List.getLast?_eq_getElem?, hmps, hm]; rfl
  have g2 : s.mpo.getLast?.bind deref = some o := by
    rw [List.getLast?_eq_getElem?, hmpo, ho]; rfl
  generalize hrb2 : ((List.replicate (N - 1) (Ptr.null : Ptr T)).set 0
    (Ptr.live ops.GQTensor)).set 1 (Ptr.live (rblockEnd ops m o)) = rb2 at w1
  have hlen2 : rb2.length = N - 1 := by rw [← hrb2]; simp
  have h20 : rb2[0]? = some (Ptr.live ops.GQTensor) := by
    rw [← hrb2, List.getElem?_set_ne (by omega), List.getElem?_set_self (by simp; omega)]
  have h21 : rb2[1]? = some (Ptr.live (rblockEnd ops m o)) := by
    rw [← hrb2, List.getElem?_set_self (by simp; omega)]
  cases hio : SweepParams.FileIO p with
  | false =>
    obtain ⟨rb3, s3, hrun, hl3, hk3, hrec3, f1, f2, f3, f4, f5, _⟩ :=
      initLoop_spec ops p N hsize (N - 1 - 2) 2 rb2 s hmps hmpo lmps lmpo (le_refl _)
        (by omega) hlen2 ⟨_, h21⟩
    have e3 : s3 = s := f5 hio
    subst e3
    refine ⟨rb3, s3, ?_, hl3, ?_, ⟨m, o, hm, ho, ?_⟩, hrec3, rfl, rfl, rfl, rfl, fun _ => rfl,
      fun h => by cases h⟩
    · simp only [InitBlocks]
      rw [if_neg hne]
      simp only [if_false, hwf, hslot, w0, g1, g2, hmps, w1, hio, bind, pure,
        M.bind, M.pure, hrun, Bool.false_eq_true]
    · rw [hk3 0 (by omega), h20]
    · rw [hk3 1 (by omega), h21]
  | true =>
    obtain ⟨rb3, s3, hrun, hl3, hk3, hrec3, f1, f2, f3, f4, _, f6⟩ :=
      initLoop_spec ops p N hsize (N - 1 - 2) 2 rb2
        { s with files := ((Side.r, (1 : Int)), rblockEnd ops m o) ::
                   ((Side.r, (0 : Int)), ops.GQTensor) :: s.files,
                 trace := s.trace ++ [Event.write Side.r 0 ops.GQTensor] ++
                   [Event.write Side.r 1 (rblockEnd ops m o)] }
        hmps hmpo lmps lmpo (le_refl _) (by omega) hlen2 ⟨_, h21⟩
    obtain ⟨f6a, f6b⟩ := f6 hio
    have hall : allLive rb3 = true := by
      apply allLive_of_getElem?
      intro k hk
      rcases Nat.lt_or_ge k 2 with h | h
      · rcases Nat.lt_or_ge k 1 with h0 | h0
        · have : k = 0 := by omega
          subst this
          exact ⟨_, by rw [hk3 0 (by omega), h20]⟩
        · have : k = 1 := by omega
          subst this
          exact ⟨_, by rw [hk3 1 (by omega), h21]⟩
      · obtain ⟨t, ht, _⟩ := f6a k h (by omega)
        exact ⟨t, ht⟩
    refine ⟨rb3, Store.mk s3.mps s3.mpo s3.lblocks s3.rblocks
        (((Side.l, (0 : Int)), ops.GQTensor) :: s3.files) s3.leaked
        (s3.trace ++ [Event.write Side.l 0 ops.GQTensor]),
      ?_, hl3, ?_, ⟨m, o, hm, ho, ?_⟩, hrec3, f1, f2, f3, f4, (fun h => by cases h),
      fun _ => ⟨?_, ?_⟩⟩
    · simp only [InitBlocks]
      rw [if_neg hne]
      simp only [if_false, hwf, hslot, w0, g1, g2, hmps, w1, hio, bind, pure,
        M.bind, M.pure, WriteGQTensorTOFile, if_true, hrun, M.ofOption, deleteAll_live rb3 hall,
        hl3]
    · rw [hk3 0 (by omega), h20]
    · rw [hk3 1 (by omega), h21]
    · intro l hl
      have hnel : ∀ (k : Nat), (Side.r, (k : Int)) ≠ (Side.l, (0 : Int)) := by
        intro k h; cases h
      rcases Nat.lt_or_ge l 2 with h | h
      · rcases Nat.lt_or_ge l 1 with h0 | h0
        · have : l = 0 := by omega
          subst this
          refine ⟨_, by rw [hk3 0 (by omega), h20], ?_⟩
          simp only [lookup_cons_eq, if_neg (hnel 0)]
          rw [f6b _ (fun k hk hne => by have := (Prod.mk.inj hne).2; omega)]
          simp [lookup_cons_eq]
        · have : l = 1 := by omega
          subst this
          refine ⟨_, by rw [hk3 1 (by omega), h21], ?_⟩
          simp only [lookup_cons_eq, if_neg (hnel 1)]
          rw [f6b _ (fun k hk hne => by have := (Prod.mk.inj hne).2; omega)]
          simp [lookup_cons_eq]
      · obtain ⟨t, ht, hf⟩ := f6a l h hl
        refine ⟨t, ht, ?_⟩
        simp only [lookup_cons_eq, if_neg (hnel l)]
        exact hf
    · simp [lookup_cons_eq]

/-- C9: for a chain of `N >= 3` live sites with as many live operators,
`InitBlocks` in the Initial workflow without file I/O returns, leaving the store
as it was, a right block chain of `N-1` slots which all point to live blocks:
slot 0 holds the default tensor, slot 1 the block built from the state and
operator tensors of site `N-1`, and slot `l` for `2 <= l <= N-2` the block grown
from the one in slot `l-1` with the state tensor, the operator tensor and the
mock conjugate of the state tensor of site `N-l`. -/
theorem initBlocks_right_chain {T R Q LP : Type} (ops : TensorOps T R Q LP)
    (p : SweepParams R LP) (s : Store T) (N : Nat) (hN : 3 ≤ N) (hsize : N < 2 ^ 63)
    (hmps : s.mps.length = N) (hmpo : s.mpo.length = N)
    (lmps : allLive s.mps = true) (lmpo : allLive s.mpo = true)
    (hw : p.Workflow = WorkflowMode.kTwoSiteAlgoWorkflowInitial)
    (hio : SweepParams.FileIO p = false) :
    ∃ lb rb, InitBlocks ops p s = Res.ok (lb, rb) s ∧ rb.length = N - 1 ∧
      (∀ l, l < N - 1 → ∃ t, rb[l]? = some (Ptr.live t)) ∧
      rb[0]? = some (Ptr.live ops.GQTensor) ∧
      (∃ m o, s.mps[N - 1]? = some (Ptr.live m) ∧ s.mpo[N - 1]? = some (Ptr.live o) ∧
        rb[1]? = some (Ptr.live (rblockEnd ops m o))) ∧
      (∀ l, 2 ≤ l → l ≤ N - 2 → ∃ b m o, rb[l - 1]? = some (Ptr.live b) ∧
        s.mps[N - l]? = some (Ptr.live m) ∧ s.mpo[N - l]? = some (Ptr.live o) ∧
        rb[l]? = some (Ptr.live (rblockGrow ops b m o))) := by
  obtain ⟨rb, s1, hrun, hlen, h0, h1, hrec, _, _, _, _, hs, _⟩ :=
    initBlocks_spec ops p s N hN hsize hmps hmpo lmps lmpo hw
  have e1 : s1 = s := hs hio
  subst e1
  rw [hio] at hrun
  refine ⟨_, rb, hrun, hlen, ?_, h0, h1, fun l h2 h3 => hrec l h2 (by omega)⟩
  intro l hl
  rcases Nat.lt_or_ge l 2 with h | h
  · rcases Nat.lt_or_ge l 1 with h' | h'
    · have : l = 0 := by omega
      subst this
      exact ⟨_, h0⟩
    · have : l = 1 := by omega
      subst this
      obtain ⟨m, o, _, _, h⟩ := h1
      exact ⟨_, h⟩
  · obtain ⟨b, m, o, _, _, _, h⟩ := hrec l h hl
    exact ⟨_, h⟩

/-- Witness of C9 on the four-site toy chain. -/
theorem initBlocks_right_chain_witness :
    ∃ lb rb, InitBlocks toyOps (toyParams false) (toyStore 4) = Res.ok (lb, rb) (toyStore 4) ∧
      rb.length = 4 - 1 ∧
      (∀ l, l < 4 - 1 → ∃ t, rb[l]? = some (Ptr.live t)) ∧
      rb[0]? = some (Ptr.live toyOps.GQTensor) ∧
      (∃ m o, (toyStore 4).mps[4 - 1]? = some (Ptr.live m) ∧
        (toyStore 4).mpo[4 - 1]? = some (Ptr.live o) ∧
        rb[1]? = some (Ptr.live (rblockEnd toyOps m o))) ∧
      (∀ l, 2 ≤ l → l ≤ 4 - 2 → ∃ b m o, rb[l - 1]? = some (Ptr.live b) ∧
        (toyStore 4).mps[4 - l]? = some (Ptr.live m) ∧
        (toyStore 4).mpo[4 - l]? = some (Ptr.live o) ∧
        rb[l]? = some (Ptr.live (rblockGrow toyOps b m o))) :=
  initBlocks_right_chain toyOps (toyParams false) (toyStore 4) 4 (by decide) (by decide)
    (by decide) (by decide) (by decide) (by decide) rfl rfl

/-- C10, counterexample: on the three-site toy chain without file I/O,
`InitBlocks` returns a left block chain whose slot 0 is a null pointer, not a
pointer to the default tensor; only the right chain has it. -/
theorem initBlocks_left_slot_counterexample :
    ∃ lb rb, InitBlocks toyOps (toyParams false) (toyStore 3) = Res.ok (lb, rb) (toyStore 3) ∧
      rb[0]? = some (Ptr.live toyOps.GQTensor) ∧
      lb[0]? = some Ptr.null ∧
      lb[0]? ≠ some (Ptr.live toyOps.GQTensor) :=
  ⟨[Ptr.null, Ptr.null], [Ptr.live 0, Ptr.live 1715], by decide, by decide, by decide,
    by decide⟩

/-- C10 (as amended): for a chain of `N >= 3` live sites with as many live
operators, `InitBlocks` in the Initial workflow returns; without file I/O slot 0
of the returned right block chain points to the default tensor and slot 0 of the
returned left block chain is null; with file I/O the length-0 files of both
sides hold the default tensor. -/
theorem initBlocks_trivial_blocks {T R Q LP : Type} (ops : TensorOps T R Q LP)
    (p : SweepParams R LP) (s : Store T) (N : Nat) (hN : 3 ≤ N) (hsize : N < 2 ^ 63)
    (hmps : s.mps.length = N) (hmpo : s.mpo.length = N)
    (lmps : allLive s.mps = true) (lmpo : allLive s.mpo = true)
    (hw : p.Workflow = WorkflowMode.kTwoSiteAlgoWorkflowInitial) :
    ∃ lb rb s1, InitBlocks ops p s = Res.ok (lb, rb) s1 ∧
      ( SweepParams.FileIO p = false →
        rb[0]? = some (Ptr.live ops.GQTensor) ∧ lb[0]? = some Ptr.null) ∧
      ( SweepParams.FileIO p = true →
        s1.files.lookup (Side.r, (0 : Int)) = some ops.GQTensor ∧
        s1.files.lookup (Side.l, (0 : Int)) = some ops.GQTensor) := by
  obtain ⟨rb, s1, hrun, hlen, h0, h1, hrec, _, _, _, _, hs, hf⟩ :=
    initBlocks_spec ops p s N hN hsize hmps hmpo lmps lmpo hw
  refine ⟨_, _, s1, hrun, ?_, ?_⟩
  · intro hio
    rw [hio]
    refine ⟨h0, ?_⟩
    rw [List.getElem?_replicate, if_pos (by omega)]
  · intro hio
    obtain ⟨hr, hl⟩ := hf hio
    obtain ⟨t, ht, hft⟩ := hr 0 (by omega)
    rw [h0] at ht
    have : t = ops.GQTensor := by
      have := Option.some.inj ht
      cases this
      rfl
    subst this
    exact ⟨by simpa using hft, hl⟩

/-- Witness of C10 on the three-site toy chain with file I/O. -/
theorem initBlocks_trivial_blocks_witness :
    ∃ lb rb s1, InitBlocks toyOps (toyParams true) (toyStore 3) = Res.ok (lb, rb) s1 ∧
      ( SweepParams.FileIO (toyParams true) = false →
        rb[0]? = some (Ptr.live toyOps.GQTensor) ∧ lb[0]? = some Ptr.null) ∧
      ( SweepParams.FileIO (toyParams true) = true →
        s1.files.lookup (Side.r, (0 : Int)) = some toyOps.GQTensor ∧
        s1.files.lookup (Side.l, (0 : Int)) = some toyOps.GQTensor) :=
  initBlocks_trivial_blocks toyOps (toyParams true) (toyStore 3) 3 (by decide) (by decide)
    (by decide) (by decide) (by decide) (by decide) rfl

/-! ## Primitive operations -/

theorem M.bind_ok_iff {σ α β : Type} (x : M σ α) (f : α → M σ β) (s s1 : σ) (b : β) :
    M.bind x f s = Res.ok b s1 ↔ ∃ a s0, x s = Res.ok a s0 ∧ f a s0 = Res.ok b s1 := by
  unfold M.bind
  cases h : x s with
  | ok a s0 =>
    constructor
    · intro hf; exact ⟨a, s0, rfl, hf⟩
    · rintro ⟨a1, s2, he, hf⟩
      cases he
      exact hf
  | fault e s0 =>
    constructor
    · intro hf; cases hf
    · rintro ⟨a1, s2, he, _⟩
      cases he

theorem M.pure_ok_iff {σ α : Type} (a b : α) (s s1 : σ) :
    (M.pure a : M σ α) s = Res.ok b s1 ↔ a = b ∧ s = s1 := by
  unfold M.pure
  constructor
  · intro h; cases h; exact ⟨rfl, rfl⟩
  · rintro ⟨rfl, rfl⟩; rfl

theorem bind_deref_eq_some {T : Type} (o : Option (Ptr T)) (t : T) :
    o.bind deref = some t ↔ o = some (Ptr.live t) := by
  cases o with
  | none => simp
  | some q =>
    cases q with
    | live x => simp [deref]
    | null => simp [deref]
    | freed => simp [deref]

theorem bind_del_eq_some {T : Type} (o : Option (Ptr T)) (q1 : Ptr T) :
    o.bind del = some q1 ↔ ∃ q, o = some q ∧ del q = some q1 := by
  cases o with
  | none => simp
  | some q => simp

theorem del_ne_live {T : Type} {q q1 : Ptr T} (h : del q = some q1) (x : T) : q1 ≠ Ptr.live x := by
  cases q with
  | null => cases h; intro h2; cases h2
  | live t => cases h; intro h2; cases h2
  | freed => cases h

theorem siteAt_ok_iff {T : Type} (idx : Int) (s s1 : Store T) (t : T) :
    siteAt idx s = Res.ok t s1 ↔ vecRead s.mps idx = some (Ptr.live t) ∧ s1 = s := by
  unfold siteAt
  cases h : (vecRead s.mps idx).bind deref with
  | none =>
    have : ¬ vecRead s.mps idx = some (Ptr.live t) := by
      intro h2; rw [← bind_deref_eq_some] at h2; rw [h] at h2; cases h2
    simp [this]
  | some x =>
    rw [bind_deref_eq_some] at h
    simp only [h, Option.some.injEq, Ptr.live.injEq, Res.ok.injEq]
    constructor
    · rintro ⟨rfl, rfl⟩; exact ⟨rfl, rfl⟩
    · rintro ⟨rfl, rfl⟩; exact ⟨rfl, rfl⟩

theorem opAt_ok_iff {T : Type} (idx : Int) (s s1 : Store T) (t : T) :
    opAt idx s = Res.ok t s1 ↔ vecRead s.mpo idx = some (Ptr.live t) ∧ s1 = s := by
  unfold opAt
  cases h : (vecRead s.mpo idx).bind deref with
  | none =>
    have : ¬ vecRead s.mpo idx = some (Ptr.live t) := by
      intro h2; rw [← bind_deref_eq_some] at h2; rw [h] at h2; cases h2
    simp [this]
  | some x =>
    rw [bind_deref_eq_some] at h
    simp only [h, Option.some.injEq, Ptr.live.injEq, Res.ok.injEq]
    constructor
    · rintro ⟨rfl, rfl⟩; exact ⟨rfl, rfl⟩
    · rintro ⟨rfl, rfl⟩; exact ⟨rfl, rfl⟩

theorem blockAt_ok_iff {T : Type} (side : Side) (idx : Int) (s s1 : Store T) (t : T) :
    blockAt side idx s = Res.ok t s1 ↔
      vecRead (s.blocks side) idx = some (Ptr.live t) ∧ s1 = s := by
  unfold blockAt
  cases h : (vecRead (s.blocks side) idx).bind deref with
  | none =>
    have : ¬ vecRead (s.blocks side) idx = some (Ptr.live t) := by
      intro h2; rw [← bind_deref_eq_some] at h2; rw [h] at h2; cases h2
    simp [this]
  | some x =>
    rw [bind_deref_eq_some] at h
    simp only [h, Option.some.injEq, Ptr.live.injEq, Res.ok.injEq]
    constructor
    · rintro ⟨rfl, rfl⟩; exact ⟨rfl, rfl⟩
    · rintro ⟨rfl, rfl⟩; exact ⟨rfl, rfl⟩

theorem replaceSite_ok_iff {T : Type} (idx : Int) (t : T) (s s1 : Store T) (u : Unit) :
    replaceSite idx t s = Res.ok u s1 ↔
      (∃ q q1, vecRead s.mps idx = some q ∧ del q = some q1) ∧
      s1 = { s with mps := s.mps.set (slot idx) (Ptr.live t) } := by
  unfold replaceSite
  cases h : (vecRead s.mps idx).bind del with
  | none =>
    constructor
    · intro h2; cases h2
    · rintro ⟨⟨q, q1, h1, h2⟩, _⟩
      rw [h1] at h
      simp [h2] at h
  | some x =>
    obtain ⟨q, hq, hd⟩ := (bind_del_eq_some _ _).mp h
    constructor
    · intro h2
      cases h2
      exact ⟨⟨q, x, hq, hd⟩, rfl⟩
    · rintro ⟨_, rfl⟩
      rfl

theorem storeBlock_ok_iff {T : Type} (side : Side) (idx : Int) (t : T) (s s1 : Store T)
    (u : Unit) :
    storeBlock side idx t s = Res.ok u s1 ↔
      ∃ old, vecRead (s.blocks side) idx = some old ∧
        s1 = (s.leak old).setBlocks side ((s.blocks side).set (slot idx) (Ptr.live t)) := by
  unfold storeBlock
  cases h : vecRead (s.blocks side) idx with
  | none =>
    constructor
    · intro h2; cases h2
    · rintro ⟨old, h1, _⟩; cases h1
  | some old =>
    constructor
    · intro h2; cases h2; exact ⟨old, rfl, rfl⟩
    · rintro ⟨old1, h1, rfl⟩; cases h1; rfl

theorem deleteBlock_ok_iff {T : Type} (side : Side) (idx : Int) (s s1 : Store T) (u : Unit) :
    deleteBlock side idx s = Res.ok u s1 ↔
      ∃ q q1, vecRead (s.blocks side) idx = some q ∧ del q = some q1 ∧
        s1 = s.setBlocks side ((s.blocks side).set (slot idx) q1) := by
  unfold deleteBlock
  cases h : (vecRead (s.blocks side) idx).bind del with
  | none =>
    constructor
    · intro h2; cases h2
    · rintro ⟨q, q1, h1, h2, _⟩
      rw [h1] at h
      simp [h2] at h
  | some x =>
    obtain ⟨q, hq, hd⟩ := (bind_del_eq_some _ _).mp h
    constructor
    · intro h2
      cases h2
      exact ⟨q, x, hq, hd, rfl⟩
    · rintro ⟨q2, q1, h1, h2, rfl⟩
      rw [hq] at h1
      cases h1
      rw [hd] at h2
      cases h2
      rfl

theorem write_ok_iff {T : Type} (t : T) (side : Side) (len : Int) (s s1 : Store T) (u : Unit) :
    WriteGQTensorTOFile t side len s = Res.ok u s1 ↔
      s1 = { s with files := ((side, len), t) :: s.files,
                    trace := s.trace ++ [Event.write side len t] } := by
  unfold WriteGQTensorTOFile
  constructor
  · intro h; cases h; rfl
  · rintro rfl; rfl

theorem read_ok_iff {T : Type} (side : Side) (len : Int) (s s1 : Store T) (u : Unit) :
    ReadGQTensorFromFile side len s = Res.ok u s1 ↔
      ∃ old t, vecRead (s.blocks side) len = some old ∧ s.files.lookup (side, len) = some t ∧
        s1 = ({ s.leak old with trace := s.trace ++ [Event.read side len] } : Store T).setBlocks
               side ((s.blocks side).set (slot len) (Ptr.live t)) := by
  unfold ReadGQTensorFromFile
  cases h : vecRead (s.blocks side) len with
  | none =>
    constructor
    · intro h2; cases h2
    · rintro ⟨old, t, h1, _⟩; cases h1
  | some old =>
    cases h2 : s.files.lookup (side, len) with
    | none =>
      constructor
      · intro h3; cases h3
      · rintro ⟨old1, t, _, h3, _⟩; cases h3
    | some t =>
      constructor
      · intro h3; cases h3; exact ⟨old, t, rfl, rfl, rfl⟩
      · rintro ⟨old1, t1, h3, h4, rfl⟩; cases h3; cases h4; rfl

@[simp] theorem Store.leak_mps {T : Type} (s : Store T) (q : Ptr T) : (s.leak q).mps = s.mps := by
  cases q <;> rfl

@[simp] theorem Store.leak_mpo {T : Type} (s : Store T) (q : Ptr T) : (s.leak q).mpo = s.mpo := by
  cases q <;> rfl

@[simp] theorem Store.leak_lblocks {T : Type} (s : Store T) (q : Ptr T) :
    (s.leak q).lblocks = s.lblocks := by
  cases q <;> rfl

@[simp] theorem Store.leak_rblocks {T : Type} (s : Store T) (q : Ptr T) :
    (s.leak q).rblocks = s.rblocks := by
  cases q <;> rfl

@[simp] theorem Store.leak_files {T : Type} (s : Store T) (q : Ptr T) :
    (s.leak q).files = s.files := by
  cases q <;> rfl

@[simp] theorem Store.leak_trace {T : Type} (s : Store T) (q : Ptr T) :
    (s.leak q).trace = s.trace := by
  cases q <;> rfl

@[simp] theorem Store.leak_blocks {T : Type} (s : Store T) (q : Ptr T) (side : Side) :
    (s.leak q).blocks side = s.blocks side := by
  cases q <;> rfl

theorem solve_ok_iff {T R Q LP : Type} (ops : TensorOps T R Q LP) (p : SweepParams R LP)
    (g : Geometry) (s s1 : Store T) (r : Solved T R) :
    solve ops p g s = Res.ok r s1 ↔
      ∃ e0 e1 e2 e3 lsite rsite,
        vecRead s.lblocks g.lblock_len = some e0 ∧ vecRead s.mpo g.lsite_idx = some e1 ∧
        vecRead s.mpo g.rsite_idx = some e2 ∧ vecRead s.rblocks g.rblock_len = some e3 ∧
        vecRead s.mps g.lsite_idx = some (Ptr.live lsite) ∧
        vecRead s.mps g.rsite_idx = some (Ptr.live rsite) ∧
        r = solved ops p g e0 e1 e2 e3 lsite rsite ∧
        s1 = { s with trace := s.trace ++
                 [Event.solve [e0, e1, e2, e3]
                   (ops.Contract lsite rsite g.init_state_ctrct_axes) g.where_] } := by
  unfold solve
  constructor
  · intro h
    split at h
    · split at h
      · rename_i e0 e1 e2 e3 h0 h1 h2 h3 _ _ lsite rsite hl hr
        cases h
        exact ⟨e0, e1, e2, e3, lsite, rsite, h0, h1, h2, h3,
          (bind_deref_eq_some _ _).mp hl, (bind_deref_eq_some _ _).mp hr, rfl, rfl⟩
      · cases h
    · cases h
  · rintro ⟨e0, e1, e2, e3, lsite, rsite, h0, h1, h2, h3, hl, hr, rfl, rfl⟩
    rw [h0, h1, h2, h3]
    simp only [hl, hr, Option.bind, deref]

theorem stepBody_ok_iff {T R Q LP : Type} (ops : TensorOps T R Q LP) (p : SweepParams R LP)
    (N : Nat) (i : Int) (g : Geometry) (dir : Char) (s s5 : Store T) (e : R) :
    stepBody ops p N i g dir s = Res.ok e s5 ↔
      ∃ s1 r s2 s3 nb s4, loadBlock p g dir s = Res.ok () s1 ∧ solve ops p g s1 = Res.ok r s2 ∧
        reassemble ops g dir r.svd_res s2 = Res.ok () s3 ∧
        renormalize ops N i g dir s3 = Res.ok nb s4 ∧
        commit p N i g dir nb s4 = Res.ok () s5 ∧ e = r.lancz_res.gs_eng := by
  unfold stepBody
  simp only [bind, pure, M.bind_ok_iff, M.pure_ok_iff]
  constructor
  · rintro ⟨u1, s1, h1, r, s2, h2, u3, s3, h3, nb, s4, h4, u5, s6, h5, rfl, rfl⟩
    exact ⟨s1, r, s2, s3, nb, s4, h1, h2, h3, h4, h5, rfl⟩
  · rintro ⟨s1, r, s2, s3, nb, s4, h1, h2, h3, h4, h5, rfl⟩
    exact ⟨(), s1, h1, r, s2, h2, (), s3, h3, nb, s4, h4, (), s5, h5, rfl, rfl⟩

theorem twoSiteUpdate_eq_stepBody {T R Q LP : Type} (ops : TensorOps T R Q LP)
    (p : SweepParams R LP) (i : Int) (dir : Char) (s : Store T) (g : Geometry)
    (hg : geometry s.mps.length i p.EETargetBond dir = some g) :
    TwoSiteUpdate ops i p dir s = stepBody ops p s.mps.length i g dir s := by
  unfold TwoSiteUpdate
  rw [hg]

/-! ## Phases of a step -/

theorem l_ne_r : ¬ ('l' = 'r') := by decide

@[simp] theorem Store.setBlocks_mps {T : Type} (s : Store T) (side : Side) (v : List (Ptr T)) :
    (s.setBlocks side v).mps = s.mps := by cases side <;> rfl

@[simp] theorem Store.setBlocks_mpo {T : Type} (s : Store T) (side : Side) (v : List (Ptr T)) :
    (s.setBlocks side v).mpo = s.mpo := by cases side <;> rfl

@[simp] theorem Store.setBlocks_files {T : Type} (s : Store T) (side : Side) (v : List (Ptr T)) :
    (s.setBlocks side v).files = s.files := by cases side <;> rfl

@[simp] theorem Store.setBlocks_trace {T : Type} (s : Store T) (side : Side) (v : List (Ptr T)) :
    (s.setBlocks side v).trace = s.trace := by cases side <;> rfl

theorem loadBlock_ok_iff {T R LP : Type} (p : SweepParams R LP) (g : Geometry) (dir : Char)
    (s s1 : Store T) (u : Unit) :
    loadBlock p g dir s = Res.ok u s1 ↔
      ( SweepParams.FileIO p = false ∧ s1 = s) ∨
      ( SweepParams.FileIO p = true ∧ dir = 'r' ∧
        ReadGQTensorFromFile Side.r g.rblock_len s = Res.ok () s1) ∨
      ( SweepParams.FileIO p = true ∧ dir = 'l' ∧
        ReadGQTensorFromFile Side.l g.lblock_len s = Res.ok () s1) := by
  unfold loadBlock
  cases hio : SweepParams.FileIO p with
  | false =>
    rw [if_neg (by simp)]
    constructor
    · intro h
      rw [M.pure_ok_iff] at h
      exact Or.inl ⟨rfl, h.2.symm⟩
    · rintro (⟨_, rfl⟩ | ⟨h, _⟩ | ⟨h, _⟩)
      · rfl
      · cases h
      · cases h
  | true =>
    rw [if_pos rfl]
    by_cases hr : dir = 'r'
    · subst hr
      rw [if_pos rfl]
      constructor
      · intro h; exact Or.inr (Or.inl ⟨rfl, rfl, h⟩)
      · rintro (⟨h, _⟩ | ⟨_, _, h⟩ | ⟨_, h, _⟩)
        · cases h
        · exact h
        · exact absurd h.symm l_ne_r
    · rw [if_neg hr]
      by_cases hl : dir = 'l'
      · subst hl
        rw [if_pos rfl]
        constructor
        · intro h; exact Or.inr (Or.inr ⟨rfl, rfl, h⟩)
        · rintro (⟨h, _⟩ | ⟨_, h, _⟩ | ⟨_, _, h⟩)
          · cases h
          · exact absurd h l_ne_r
          · exact h
      · rw [if_neg hl]
        constructor
        · intro h; cases h
        · rintro (⟨h, _⟩ | ⟨_, h, _⟩ | ⟨_, h, _⟩)
          · cases h
          · exact absurd h hr
          · exact absurd h hl

theorem reassemble_r_ok_iff {T R Q LP : Type} (ops : TensorOps T R Q LP) (g : Geometry)
    (svd_res : SvdRes T R) (s s1 : Store T) (u : Unit) :
    reassemble ops g 'r' svd_res s = Res.ok u s1 ↔
      (∃ q q1, vecRead s.mps g.lsite_idx = some q ∧ del q = some q1) ∧
      (∃ q q1, vecRead (s.mps.set (slot g.lsite_idx) (Ptr.live svd_res.u)) g.rsite_idx = some q ∧
        del q = some q1) ∧
      s1 = { s with mps := ((s.mps.set (slot g.lsite_idx) (Ptr.live svd_res.u)).set
               (slot g.rsite_idx) (Ptr.live (ops.Contract svd_res.s svd_res.v [[1], [0]]))) } := by
  unfold reassemble
  simp only [if_true, bind, M.bind_ok_iff, replaceSite_ok_iff]
  constructor
  · rintro ⟨_, s0, ⟨h1, rfl⟩, h2, rfl⟩
    exact ⟨h1, h2, rfl⟩
  · rintro ⟨h1, h2, rfl⟩
    exact ⟨(), _, ⟨h1, rfl⟩, h2, rfl⟩

theorem reassemble_l_ok_iff {T R Q LP : Type} (ops : TensorOps T R Q LP) (g : Geometry)
    (svd_res : SvdRes T R) (s s1 : Store T) (u : Unit) :
    reassemble ops g 'l' svd_res s = Res.ok u s1 ↔
      (∃ q q1, vecRead s.mps g.lsite_idx = some q ∧ del q = some q1) ∧
      (∃ q q1, vecRead (s.mps.set (slot g.lsite_idx)
          (Ptr.live (ops.Contract svd_res.u svd_res.s g.us_ctrct_axes))) g.rsite_idx = some q ∧
        del q = some q1) ∧
      s1 = { s with mps := ((s.mps.set (slot g.lsite_idx)
               (Ptr.live (ops.Contract svd_res.u svd_res.s g.us_ctrct_axes))).set
               (slot g.rsite_idx) (Ptr.live svd_res.v)) } := by
  unfold reassemble
  simp only [l_ne_r, if_false, if_true, bind, M.bind_ok_iff, replaceSite_ok_iff]
  constructor
  · rintro ⟨_, s0, ⟨h1, rfl⟩, h2, rfl⟩
    exact ⟨h1, h2, rfl⟩
  · rintro ⟨h1, h2, rfl⟩
    exact ⟨(), _, ⟨h1, rfl⟩, h2, rfl⟩

theorem renormalize_r_ok_iff {T R Q LP : Type} (ops : TensorOps T R Q LP) (N : Nat) (i : Int)
    (g : Geometry) (s s1 : Store T) (nb : Option T) :
    renormalize ops N i g 'r' s = Res.ok nb s1 ↔
      s1 = s ∧
      ((i = 0 ∧ ∃ site op, vecRead s.mps i = some (Ptr.live site) ∧
          vecRead s.mpo i = some (Ptr.live op) ∧ nb = some (lblockEnd ops site op)) ∨
       (i ≠ 0 ∧ u64 i ≠ u64 ((N : Int) - 2) ∧ ∃ block site op,
          vecRead s.lblocks i = some (Ptr.live block) ∧ vecRead s.mps i = some (Ptr.live site) ∧
          vecRead s.mpo i = some (Ptr.live op) ∧ nb = some (lblockGrow ops block site op)) ∨
       (i ≠ 0 ∧ u64 i = u64 ((N : Int) - 2) ∧ nb = none)) := by
  unfold renormalize
  simp only [if_true]
  by_cases h0 : i = 0
  · simp only [h0, if_true, bind, pure, M.bind_ok_iff, M.pure_ok_iff, siteAt_ok_iff, opAt_ok_iff,
      ne_eq, not_true_eq_false, false_and, or_false, true_and]
    constructor
    · rintro ⟨site, s2, ⟨h1, rfl⟩, op, s3, ⟨h2, rfl⟩, rfl, rfl⟩
      exact ⟨rfl, site, op, h1, h2, rfl⟩
    · rintro ⟨rfl, site, op, h1, h2, rfl⟩
      exact ⟨site, _, ⟨h1, rfl⟩, op, _, ⟨h2, rfl⟩, rfl, rfl⟩
  · by_cases h1 : u64 i = u64 ((N : Int) - 2)
    · simp only [h0, h1, if_false, ne_eq, not_true_eq_false, pure, M.pure_ok_iff, false_and,
        not_false_eq_true, true_and, false_or]
      constructor
      · rintro ⟨rfl, rfl⟩; exact ⟨rfl, rfl⟩
      · rintro ⟨rfl, rfl⟩; exact ⟨rfl, rfl⟩
    · simp only [h0, h1, if_false, if_true, ne_eq, not_false_eq_true, bind, pure, M.bind_ok_iff,
        M.pure_ok_iff, siteAt_ok_iff, opAt_ok_iff, blockAt_ok_iff, false_and, true_and, or_false,
        false_or]
      constructor
      · rintro ⟨b, s2, ⟨hb, rfl⟩, site, s3, ⟨h2, rfl⟩, op, s4, ⟨h3, rfl⟩, rfl, rfl⟩
        exact ⟨rfl, b, site, op, hb, h2, h3, rfl⟩
      · rintro ⟨rfl, b, site, op, hb, h2, h3, rfl⟩
        exact ⟨b, _, ⟨hb, rfl⟩, site, _, ⟨h2, rfl⟩, op, _, ⟨h3, rfl⟩, rfl, rfl⟩

theorem renormalize_l_ok_iff {T R Q LP : Type} (ops : TensorOps T R Q LP) (N : Nat) (i : Int)
    (g : Geometry) (s s1 : Store T) (nb : Option T) :
    renormalize ops N i g 'l' s = Res.ok nb s1 ↔
      s1 = s ∧
      ((u64 i = u64 ((N : Int) - 1) ∧ ∃ site op, vecRead s.mps i = some (Ptr.live site) ∧
          vecRead s.mpo i = some (Ptr.live op) ∧ nb = some (rblockEnd ops site op)) ∨
       (u64 i ≠ u64 ((N : Int) - 1) ∧ i ≠ 1 ∧ ∃ block site op,
          vecRead s.rblocks g.rblock_len = some (Ptr.live block) ∧
          vecRead s.mps i = some (Ptr.live site) ∧
          vecRead s.mpo i = some (Ptr.live op) ∧ nb = some (rblockGrow ops block site op)) ∨
       (u64 i ≠ u64 ((N : Int) - 1) ∧ i = 1 ∧ nb = none)) := by
  unfold renormalize
  simp only [l_ne_r, if_false, if_true]
  by_cases h0 : u64 i = u64 ((N : Int) - 1)
  · simp only [h0, if_true, bind, pure, M.bind_ok_iff, M.pure_ok_iff, siteAt_ok_iff, opAt_ok_iff,
      ne_eq, not_true_eq_false, false_and, or_false, true_and]
    constructor
    · rintro ⟨site, s2, ⟨h1, rfl⟩, op, s3, ⟨h2, rfl⟩, rfl, rfl⟩
      exact ⟨rfl, site, op, h1, h2, rfl⟩
    · rintro ⟨rfl, site, op, h1, h2, rfl⟩
      exact ⟨site, _, ⟨h1, rfl⟩, op, _, ⟨h2, rfl⟩, rfl, rfl⟩
  · by_cases h1 : i = 1
    · subst h1
      simp only [h0, if_false, ne_eq, not_true_eq_false, pure, M.pure_ok_iff, false_and,
        not_false_eq_true, true_and, false_or]
      constructor
      · rintro ⟨rfl, rfl⟩; exact ⟨rfl, rfl⟩
      · rintro ⟨rfl, rfl⟩; exact ⟨rfl, rfl⟩
    · simp only [h0, h1, if_false, if_true, ne_eq, not_false_eq_true, bind, pure, M.bind_ok_iff,
        M.pure_ok_iff, siteAt_ok_iff, opAt_ok_iff, blockAt_ok_iff, false_and, true_and, or_false,
        false_or]
      constructor
      · rintro ⟨site, s2, ⟨h2, rfl⟩, b, s3, ⟨hb, rfl⟩, op, s4, ⟨h3, rfl⟩, rfl, rfl⟩
        exact ⟨rfl, b, site, op, hb, h2, h3, rfl⟩
      · rintro ⟨rfl, b, site, op, hb, h2, h3, rfl⟩
        exact ⟨site, _, ⟨h2, rfl⟩, b, _, ⟨hb, rfl⟩, op, _, ⟨h3, rfl⟩, rfl, rfl⟩

theorem commit_r_io_some {T R LP : Type} (p : SweepParams R LP) (N : Nat) (i : Int)
    (g : Geometry) (t : T) (s s1 : Store T) (u : Unit) (hio : SweepParams.FileIO p = true) :
    commit p N i g 'r' (some t) s = Res.ok u s1 ↔
      ∃ sa sb sc, storeBlock Side.l (i + 1) t s = Res.ok () sa ∧
        WriteGQTensorTOFile t Side.l (i + 1) sa = Res.ok () sb ∧
        deleteBlock Side.l g.lblock_len sb = Res.ok () sc ∧
        deleteBlock Side.r g.rblock_len sc = Res.ok () s1 := by
  unfold commit
  simp only [if_true, hio, bind, M.bind_ok_iff]
  constructor
  · rintro ⟨_, sa, h1, _, sb, h2, _, sc, h3, h4⟩
    exact ⟨sa, sb, sc, h1, h2, h3, h4⟩
  · rintro ⟨sa, sb, sc, h1, h2, h3, h4⟩
    exact ⟨(), sa, h1, (), sb, h2, (), sc, h3, h4⟩

theorem commit_r_io_none {T R LP : Type} (p : SweepParams R LP) (N : Nat) (i : Int)
    (g : Geometry) (s s1 : Store T) (u : Unit) (hio : SweepParams.FileIO p = true) :
    commit p N i g 'r' (none : Option T) s = Res.ok u s1 ↔
      deleteBlock Side.l g.lblock_len s = Res.ok () s1 := by
  unfold commit
  simp only [if_true, hio]

theorem commit_r_mem_some {T R LP : Type} (p : SweepParams R LP) (N : Nat) (i : Int)
    (g : Geometry) (t : T) (s s1 : Store T) (u : Unit) (hio : SweepParams.FileIO p = false) :
    commit p N i g 'r' (some t) s = Res.ok u s1 ↔
      ∃ sa, deleteBlock Side.l (i + 1) s = Res.ok () sa ∧
        storeBlock Side.l (i + 1) t sa = Res.ok () s1 := by
  unfold commit
  simp only [if_true, hio, Bool.false_eq_true, if_false, bind, M.bind_ok_iff]
  constructor
  · rintro ⟨_, sa, h1, h2⟩
    exact ⟨sa, h1, h2⟩
  · rintro ⟨sa, h1, h2⟩
    exact ⟨(), sa, h1, h2⟩

theorem commit_r_mem_none {T R LP : Type} (p : SweepParams R LP) (N : Nat) (i : Int)
    (g : Geometry) (s s1 : Store T) (u : Unit) (hio : SweepParams.FileIO p = false) :
    commit p N i g 'r' (none : Option T) s = Res.ok u s1 ↔ s1 = s := by
  unfold commit
  simp only [if_true, hio, Bool.false_eq_true, if_false, pure, M.pure_ok_iff, true_and]
  exact eq_comm

theorem commit_l_io_some {T R LP : Type} (p : SweepParams R LP) (N : Nat) (i : Int)
    (g : Geometry) (t : T) (s s1 : Store T) (u : Unit) (hio : SweepParams.FileIO p = true) :
    commit p N i g 'l' (some t) s = Res.ok u s1 ↔
      ∃ sa sb sc, storeBlock Side.r (u64 ((N : Int) - i)) t s = Res.ok () sa ∧
        WriteGQTensorTOFile t Side.r (u64 ((N : Int) - i)) sa = Res.ok () sb ∧
        deleteBlock Side.l g.lblock_len sb = Res.ok () sc ∧
        deleteBlock Side.r g.rblock_len sc = Res.ok () s1 := by
  unfold commit
  simp only [l_ne_r, if_false, if_true, hio, bind, M.bind_ok_iff]
  constructor
  · rintro ⟨_, sa, h1, _, sb, h2, _, sc, h3, h4⟩
    exact ⟨sa, sb, sc, h1, h2, h3, h4⟩
  · rintro ⟨sa, sb, sc, h1, h2, h3, h4⟩
    exact ⟨(), sa, h1, (), sb, h2, (), sc, h3, h4⟩

theorem commit_l_io_none {T R LP : Type} (p : SweepParams R LP) (N : Nat) (i : Int)
    (g : Geometry) (s s1 : Store T) (u : Unit) (hio : SweepParams.FileIO p = true) :
    commit p N i g 'l' (none : Option T) s = Res.ok u s1 ↔
      deleteBlock Side.r g.rblock_len s = Res.ok () s1 := by
  unfold commit
  simp only [l_ne_r, if_false, if_true, hio]

theorem commit_l_mem_some {T R LP : Type} (p : SweepParams R LP) (N : Nat) (i : Int)
    (g : Geometry) (t : T) (s s1 : Store T) (u : Unit) (hio : SweepParams.FileIO p = false) :
    commit p N i g 'l' (some t) s = Res.ok u s1 ↔
      ∃ sa, deleteBlock Side.r (u64 ((N : Int) - i)) s = Res.ok () sa ∧
        storeBlock Side.r (u64 ((N : Int) - i)) t sa = Res.ok () s1 := by
  unfold commit
  simp only [l_ne_r, if_true, hio, Bool.false_eq_true, if_false, bind, M.bind_ok_iff]
  constructor
  · rintro ⟨_, sa, h1, h2⟩
    exact ⟨sa, h1, h2⟩
  · rintro ⟨sa, h1, h2⟩
    exact ⟨(), sa, h1, h2⟩

theorem commit_l_mem_none {T R LP : Type} (p : SweepParams R LP) (N : Nat) (i : Int)
    (g : Geometry) (s s1 : Store T) (u : Unit) (hio : SweepParams.FileIO p = false) :
    commit p N i g 'l' (none : Option T) s = Res.ok u s1 ↔ s1 = s := by
  unfold commit
  simp only [l_ne_r, if_true, hio, Bool.false_eq_true, if_false, pure, M.pure_ok_iff, true_and]
  exact eq_comm

/-! ## Geometry of the steps of a sweep -/

theorem geometry_r {N k : Nat} (ee : Int) (hk : k + 2 ≤ N) (hsize : N < 2 ^ 63) :
    ∃ g, geometry N (k : Int) ee 'r' = some g ∧ g.lsite_idx = (k : Int) ∧
      g.rsite_idx = ((k + 1 : Nat) : Int) ∧ g.lblock_len = (k : Int) ∧
      g.rblock_len = ((N - k - 2 : Nat) : Int) ∧ (k = 0 → g.where_ = "lend") := by
  have hr : i64 ((N : Int) - ((k : Int) + 2)) = ((N - k - 2 : Nat) : Int) := by
    rw [i64_of_lt] <;> omega
  unfold geometry
  simp only [if_true, hr]
  split
  · exact ⟨_, rfl, rfl, by push_cast; rfl, rfl, rfl, fun _ => rfl⟩
  · rename_i h0
    have hk0 : k ≠ 0 := by omega
    split
    · exact ⟨_, rfl, rfl, by push_cast; rfl, rfl, rfl, fun h => absurd h hk0⟩
    · exact ⟨_, rfl, rfl, by push_cast; rfl, rfl, rfl, fun h => absurd h hk0⟩

theorem geometry_l {N k : Nat} (ee : Int) (hk1 : 1 ≤ k) (hk : k + 1 ≤ N) (hsize : N < 2 ^ 63) :
    ∃ g, geometry N (k : Int) ee 'l' = some g ∧ g.lsite_idx = ((k - 1 : Nat) : Int) ∧
      g.rsite_idx = (k : Int) ∧ g.lblock_len = ((k - 1 : Nat) : Int) ∧
      g.rblock_len = ((N - k - 1 : Nat) : Int) ∧ (k = 1 → 3 ≤ N → g.where_ = "lend") := by
  have hr : i64 ((N : Int) - (k : Int) - 1) = ((N - k - 1 : Nat) : Int) := by
    rw [i64_of_lt] <;> omega
  have hl : (k : Int) - 1 = ((k - 1 : Nat) : Int) := by omega
  unfold geometry
  simp only [l_ne_r, if_false, if_true, hr, hl]
  split
  · rename_i h0
    refine ⟨_, rfl, rfl, rfl, rfl, rfl, fun h1 h3 => ?_⟩
    exfalso
    subst h1
    unfold u64 at h0
    omega
  · split
    · exact ⟨_, rfl, rfl, rfl, rfl, rfl, fun _ _ => rfl⟩
    · rename_i h1
      refine ⟨_, rfl, rfl, rfl, rfl, rfl, fun h _ => ?_⟩
      exfalso
      subst h
      exact h1 rfl

theorem Res.exists_of_isOk {σ α : Type} {r : Res σ α} (h : r.isOk = true) :
    ∃ a s, r = Res.ok a s := by
  cases r with
  | ok a s => exact ⟨a, s, rfl⟩
  | fault f s => cases h

/-! ## What a step leaves alone -/

theorem loadBlock_ok_frame {T R LP : Type} (p : SweepParams R LP) (g : Geometry) (dir : Char)
    (s s1 : Store T) (u : Unit) (h : loadBlock p g dir s = Res.ok u s1) :
    s1.mps = s.mps ∧ s1.mpo = s.mpo ∧ s1.files = s.files ∧
      ∃ pre, s1.trace = s.trace ++ pre ∧ ∀ ev ∈ pre, Event.isSolve ev = false := by
  rw [loadBlock_ok_iff] at h
  rcases h with ⟨_, rfl⟩ | ⟨_, _, h⟩ | ⟨_, _, h⟩
  · exact ⟨rfl, rfl, rfl, [], by simp, by simp⟩
  · rw [read_ok_iff] at h
    obtain ⟨old, t, _, _, rfl⟩ := h
    refine ⟨by simp, by simp, by simp, [Event.read Side.r g.rblock_len], by simp, ?_⟩
    intro ev hev
    simp only [List.mem_singleton] at hev
    subst hev
    rfl
  · rw [read_ok_iff] at h
    obtain ⟨old, t, _, _, rfl⟩ := h
    refine ⟨by simp, by simp, by simp, [Event.read Side.l g.lblock_len], by simp, ?_⟩
    intro ev hev
    simp only [List.mem_singleton] at hev
    subst hev
    rfl

theorem storeBlock_ok_frame {T : Type} (side : Side) (idx : Int) (t : T) (s s1 : Store T)
    (u : Unit) (h : storeBlock side idx t s = Res.ok u s1) :
    s1.mps = s.mps ∧ s1.mpo = s.mpo ∧ s1.files = s.files ∧ s1.trace = s.trace := by
  rw [storeBlock_ok_iff] at h
  obtain ⟨old, _, rfl⟩ := h
  simp

theorem deleteBlock_ok_frame {T : Type} (side : Side) (idx : Int) (s s1 : Store T)
    (u : Unit) (h : deleteBlock side idx s = Res.ok u s1) :
    s1.mps = s.mps ∧ s1.mpo = s.mpo ∧ s1.files = s.files ∧ s1.trace = s.trace := by
  rw [deleteBlock_ok_iff] at h
  obtain ⟨q, q1, _, _, rfl⟩ := h
  simp

theorem commit_ok_frame {T R LP : Type} (p : SweepParams R LP) (N : Nat) (i : Int)
    (g : Geometry) (dir : Char) (nb : Option T) (s s1 : Store T) (u : Unit)
    (h : commit p N i g dir nb s = Res.ok u s1) :
    s1.mps = s.mps ∧ s1.mpo = s.mpo ∧
      ∃ post, s1.trace = s.trace ++ post ∧ ∀ ev ∈ post, Event.isSolve ev = false := by
  have hw : ∀ (t : T) (side : Side) (len : Int) (ev : Event T),
      ev ∈ [Event.write side len t] → Event.isSolve ev = false := by
    intro t side len ev hev
    simp only [List.mem_singleton] at hev
    subst hev
    rfl
  by_cases hr : dir = 'r'
  · subst hr
    cases hio : SweepParams.FileIO p with
    | true =>
      cases nb with
      | some t =>
        rw [commit_r_io_some p N i g t s s1 u hio] at h
        obtain ⟨sa, sb, sc, h1, h2, h3, h4⟩ := h
        obtain ⟨a1, a2, _, a4⟩ := storeBlock_ok_frame _ _ _ _ _ _ h1
        rw [write_ok_iff] at h2
        obtain ⟨c1, c2, _, c4⟩ := deleteBlock_ok_frame _ _ _ _ _ h3
        obtain ⟨d1, d2, _, d4⟩ := deleteBlock_ok_frame _ _ _ _ _ h4
        subst h2
        refine ⟨by rw [d1, c1, ← a1], by rw [d2, c2, ← a2], _, ?_, hw t Side.l (i + 1)⟩
        rw [d4, c4, ← a4]
      | none =>
        rw [commit_r_io_none p N i g s s1 u hio] at h
        obtain ⟨d1, d2, _, d4⟩ := deleteBlock_ok_frame _ _ _ _ _ h
        exact ⟨d1, d2, [], by simp [d4], by simp⟩
    | false =>
      cases nb with
      | some t =>
        rw [commit_r_mem_some p N i g t s s1 u hio] at h
        obtain ⟨sa, h1, h2⟩ := h
        obtain ⟨c1, c2, _, c4⟩ := deleteBlock_ok_frame _ _ _ _ _ h1
        obtain ⟨a1, a2, _, a4⟩ := storeBlock_ok_frame _ _ _ _ _ _ h2
        exact ⟨by rw [a1, c1], by rw [a2, c2], [], by simp [a4, c4], by simp⟩
      | none =>
        rw [commit_r_mem_none p N i g s s1 u hio] at h
        subst h
        exact ⟨rfl, rfl, [], by simp, by simp⟩
  · by_cases hl : dir = 'l'
    · subst hl
      cases hio : SweepParams.FileIO p with
      | true =>
        cases nb with
        | some t =>
          rw [commit_l_io_some p N i g t s s1 u hio] at h
          obtain ⟨sa, sb, sc, h1, h2, h3, h4⟩ := h
          obtain ⟨a1, a2, _, a4⟩ := storeBlock_ok_frame _ _ _ _ _ _ h1
          rw [write_ok_iff] at h2
          obtain ⟨c1, c2, _, c4⟩ := deleteBlock_ok_frame _ _ _ _ _ h3
          obtain ⟨d1, d2, _, d4⟩ := deleteBlock_ok_frame _ _ _ _ _ h4
          subst h2
          refine ⟨by rw [d1, c1, ← a1], by rw [d2, c2, ← a2], _, ?_,
            hw t Side.r (u64 ((N : Int) - i))⟩
          rw [d4, c4, ← a4]
        | none =>
          rw [commit_l_io_none p N i g s s1 u hio] at h
          obtain ⟨d1, d2, _, d4⟩ := deleteBlock_ok_frame _ _ _ _ _ h
          exact ⟨d1, d2, [], by simp [d4], by simp⟩
      | false =>
        cases nb with
        | some t =>
          rw [commit_l_mem_some p N i g t s s1 u hio] at h
          obtain ⟨sa, h1, h2⟩ := h
          obtain ⟨c1, c2, _, c4⟩ := deleteBlock_ok_frame _ _ _ _ _ h1
          obtain ⟨a1, a2, _, a4⟩ := storeBlock_ok_frame _ _ _ _ _ _ h2
          exact ⟨by rw [a1, c1], by rw [a2, c2], [], by simp [a4, c4], by simp⟩
        | none =>
          rw [commit_l_mem_none p N i g s s1 u hio] at h
          subst h
          exact ⟨rfl, rfl, [], by simp, by simp⟩
    · unfold commit at h
      rw [if_neg hr, if_neg hl] at h
      cases h
      exact ⟨rfl, rfl, [], by simp, by simp⟩

theorem renormalize_ok_store {T R Q LP : Type} (ops : TensorOps T R Q LP) (N : Nat) (i : Int)
    (g : Geometry) (dir : Char) (s s1 : Store T) (nb : Option T)
    (h : renormalize ops N i g dir s = Res.ok nb s1) : s1 = s := by
  by_cases hr : dir = 'r'
  · subst hr
    exact ((renormalize_r_ok_iff ops N i g s s1 nb).mp h).1
  · by_cases hl : dir = 'l'
    · subst hl
      exact ((renormalize_l_ok_iff ops N i g s s1 nb).mp h).1
    · unfold renormalize at h
      rw [if_neg hr, if_neg hl] at h
      cases h
      rfl

theorem geometry_some {N : Nat} {i ee : Int} {dir : Char} {g : Geometry}
    (h : geometry N i ee dir = some g) :
    (dir = 'r' ∧ g.lsite_idx = i ∧ g.rsite_idx = i + 1 ∧ g.lblock_len = i ∧
      g.rblock_len = i64 ((N : Int) - (i + 2))) ∨
    (dir = 'l' ∧ g.lsite_idx = i - 1 ∧ g.rsite_idx = i ∧ g.lblock_len = i - 1 ∧
      g.rblock_len = i64 ((N : Int) - i - 1)) := by
  unfold geometry at h
  by_cases hr : dir = 'r'
  · left
    rw [if_pos hr] at h
    simp only [] at h
    split at h
    · cases h; exact ⟨hr, rfl, rfl, rfl, rfl⟩
    · split at h
      · cases h; exact ⟨hr, rfl, rfl, rfl, rfl⟩
      · cases h; exact ⟨hr, rfl, rfl, rfl, rfl⟩
  · rw [if_neg hr] at h
    by_cases hl : dir = 'l'
    · right
      rw [if_pos hl] at h
      simp only [] at h
      split at h
      · cases h; exact ⟨hl, rfl, rfl, rfl, rfl⟩
      · split at h
        · cases h; exact ⟨hl, rfl, rfl, rfl, rfl⟩
        · cases h; exact ⟨hl, rfl, rfl, rfl, rfl⟩
    · rw [if_neg hl] at h
      cases h

theorem reassemble_ok_frame {T R Q LP : Type} (ops : TensorOps T R Q LP) (g : Geometry)
    (dir : Char) (svd_res : SvdRes T R) (s s1 : Store T) (u : Unit)
    (h : reassemble ops g dir svd_res s = Res.ok u s1) :
    s1.mpo = s.mpo ∧ s1.lblocks = s.lblocks ∧ s1.rblocks = s.rblocks ∧ s1.files = s.files ∧
      s1.trace = s.trace := by
  by_cases hr : dir = 'r'
  · subst hr
    obtain ⟨_, _, rfl⟩ := (reassemble_r_ok_iff ops g svd_res s s1 u).mp h
    exact ⟨rfl, rfl, rfl, rfl, rfl⟩
  · by_cases hl : dir = 'l'
    · subst hl
      obtain ⟨_, _, rfl⟩ := (reassemble_l_ok_iff ops g svd_res s s1 u).mp h
      exact ⟨rfl, rfl, rfl, rfl, rfl⟩
    · unfold reassemble at h
      rw [if_neg hr, if_neg hl] at h
      cases h
      exact ⟨rfl, rfl, rfl, rfl, rfl⟩

theorem vecRead_set_self {T : Type} (v : List (Ptr T)) (idx : Int) (q old : Ptr T)
    (h : vecRead v idx = some old) : vecRead (v.set (slot idx) q) idx = some q := by
  unfold vecRead at *
  have hlt : slot idx < v.length := by
    by_contra hc
    rw [List.getElem?_eq_none (by omega)] at h
    cases h
  rw [List.getElem?_set_self hlt]

/-! ## C7: the effective Hamiltonian -/

/-- C7: a step of `TwoSiteUpdate` that returns has called the solver exactly
once, with a list of four pointers in this order: the pointer of
`lblocks[lblock_len]`, the pointer of `mpo[lsite_idx]`, the pointer of
`mpo[rsite_idx]`, the pointer of `rblocks[rblock_len]`, where `rsite_idx` is
`lsite_idx + 1`, forward `lsite_idx = i` and backward `rsite_idx = i`.  The block
pointer of the side loaded from a file (right forward, left backward, with file
I/O) points to the tensor of that file; the other one is the pointer the store
held when the step began.  The energy the step returns is the ground-state
energy of the solver called with this list, the initial state and the position
tag of the step. -/
theorem twoSiteUpdate_eff_ham {T R Q LP : Type} (ops : TensorOps T R Q LP) (i : Int)
    (p : SweepParams R LP) (dir : Char) (s s1 : Store T) (e : R)
    (h : TwoSiteUpdate ops i p dir s = Res.ok e s1) :
    ∃ g b0 o1 o2 b3 init pre post,
      geometry s.mps.length i p.EETargetBond dir = some g ∧
      g.rsite_idx = g.lsite_idx + 1 ∧
      ((dir = 'r' ∧ g.lsite_idx = i) ∨ (dir = 'l' ∧ g.rsite_idx = i)) ∧
      s1.trace = s.trace ++ pre ++ [Event.solve [b0, o1, o2, b3] init g.where_] ++ post ∧
      (∀ ev ∈ pre ++ post, Event.isSolve ev = false) ∧
      vecRead s.mpo g.lsite_idx = some o1 ∧ vecRead s.mpo g.rsite_idx = some o2 ∧
      (( SweepParams.FileIO p = true ∧ dir = 'l') →
        ∃ t, s.files.lookup (Side.l, g.lblock_len) = some t ∧ b0 = Ptr.live t) ∧
      (¬ ( SweepParams.FileIO p = true ∧ dir = 'l') → vecRead s.lblocks g.lblock_len = some b0) ∧
      (( SweepParams.FileIO p = true ∧ dir = 'r') →
        ∃ t, s.files.lookup (Side.r, g.rblock_len) = some t ∧ b3 = Ptr.live t) ∧
      (¬ ( SweepParams.FileIO p = true ∧ dir = 'r') → vecRead s.rblocks g.rblock_len = some b3) ∧
      e = (ops.LanczosSolver [b0, o1, o2, b3] init p.LanczParams g.where_).gs_eng := by
  unfold TwoSiteUpdate at h
  cases hg : geometry s.mps.length i p.EETargetBond dir with
  | none => rw [hg] at h; cases h
  | some g =>
    rw [hg] at h
    simp only [] at h
    obtain ⟨sa, r, sb, sc, nb, sd, hload, hsolve, hre, hnorm, hcommit, heng⟩ :=
      (stepBody_ok_iff ops p _ i g dir s s1 e).mp h
    obtain ⟨_, lmpo, _, pre, hpre, hpre2⟩ := loadBlock_ok_frame p g dir s sa () hload
    obtain ⟨e0, e1, e2, e3, lsite, rsite, h0, h1, h2, h3, _, _, hres, hsb⟩ :=
      (solve_ok_iff ops p g sa sb r).mp hsolve
    obtain ⟨_, _, _, _, htc⟩ := reassemble_ok_frame ops g dir r.svd_res sb sc () hre
    have hsd := renormalize_ok_store ops _ i g dir sc sd nb hnorm
    obtain ⟨_, _, post, hpost, hpost2⟩ := commit_ok_frame p _ i g dir nb sd s1 () hcommit
    have hgeo := geometry_some hg
    refine ⟨g, e0, e1, e2, e3, ops.Contract lsite rsite g.init_state_ctrct_axes, pre, post, rfl,
      ?_, ?_, ?_, ?_, ?_, ?_, ?_, ?_, ?_, ?_, by rw [heng, hres]; rfl⟩
    · rcases hgeo with ⟨_, a, b, _⟩ | ⟨_, a, b, _⟩
      · rw [a, b]
      · rw [a, b]; omega
    · rcases hgeo with ⟨d, a, _⟩ | ⟨d, _, b, _⟩
      · exact Or.inl ⟨d, a⟩
      · exact Or.inr ⟨d, b⟩
    · rw [hpost, hsd, htc, hsb, hpre]
    · intro ev hev
      rcases List.mem_append.mp hev with h | h
      · exact hpre2 ev h
      · exact hpost2 ev h
    · rw [← lmpo]; exact h1
    · rw [← lmpo]; exact h2
    · rintro ⟨hio, hd⟩
      rcases (loadBlock_ok_iff p g dir s sa ()).mp hload with ⟨hf, _⟩ | ⟨_, hr, _⟩ | ⟨_, _, hrd⟩
      · rw [hio] at hf; cases hf
      · rw [hd] at hr; exact absurd hr l_ne_r
      · obtain ⟨old, t, hold, hfile, rfl⟩ := (read_ok_iff _ _ _ _ _).mp hrd
        refine ⟨t, hfile, ?_⟩
        simp only [Store.setBlocks, Store.blocks, Store.leak_lblocks, Store.leak_rblocks] at h0 hold
        have : vecRead (s.lblocks.set (slot g.lblock_len) (Ptr.live t)) g.lblock_len =
            some (Ptr.live t) := vecRead_set_self _ _ _ old hold
        rw [this] at h0
        exact (Option.some.inj h0).symm
    · intro hn
      rcases (loadBlock_ok_iff p g dir s sa ()).mp hload with ⟨_, rfl⟩ | ⟨_, _, hrd⟩ | ⟨hio, hd, _⟩
      · exact h0
      · obtain ⟨old, t, hold, hfile, rfl⟩ := (read_ok_iff _ _ _ _ _).mp hrd
        simpa only [Store.setBlocks, Store.leak_lblocks] using h0
      · exact absurd ⟨hio, hd⟩ hn
    · rintro ⟨hio, hd⟩
      rcases (loadBlock_ok_iff p g dir s sa ()).mp hload with ⟨hf, _⟩ | ⟨_, _, hrd⟩ | ⟨_, hl, _⟩
      · rw [hio] at hf; cases hf
      · obtain ⟨old, t, hold, hfile, rfl⟩ := (read_ok_iff _ _ _ _ _).mp hrd
        refine ⟨t, hfile, ?_⟩
        simp only [Store.setBlocks, Store.blocks, Store.leak_lblocks, Store.leak_rblocks] at h3 hold
        have : vecRead (s.rblocks.set (slot g.rblock_len) (Ptr.live t)) g.rblock_len =
            some (Ptr.live t) := vecRead_set_self _ _ _ old hold
        rw [this] at h3
        exact (Option.some.inj h3).symm
      · rw [hd] at hl; exact absurd hl.symm l_ne_r
    · intro hn
      rcases (loadBlock_ok_iff p g dir s sa ()).mp hload with ⟨_, rfl⟩ | ⟨hio, hd, _⟩ | ⟨_, _, hrd⟩
      · exact h3
      · exact absurd ⟨hio, hd⟩ hn
      · obtain ⟨old, t, hold, hfile, rfl⟩ := (read_ok_iff _ _ _ _ _).mp hrd
        simpa only [Store.setBlocks, Store.leak_rblocks] using h3

/-- Witness of C7: the first forward step on the three-site toy chain. -/
theorem twoSiteUpdate_eff_ham_witness :
    ∃ e s1, TwoSiteUpdate toyOps 0 (toyParams false) 'r' toyStart = Res.ok e s1 ∧
    ∃ g b0 o1 o2 b3 init pre post,
      geometry toyStart.mps.length 0 (toyParams false).EETargetBond 'r' = some g ∧
      g.rsite_idx = g.lsite_idx + 1 ∧
      (('r' = 'r' ∧ g.lsite_idx = 0) ∨ ('r' = 'l' ∧ g.rsite_idx = 0)) ∧
      s1.trace = toyStart.trace ++ pre ++ [Event.solve [b0, o1, o2, b3] init g.where_] ++ post ∧
      (∀ ev ∈ pre ++ post, Event.isSolve ev = false) ∧
      vecRead toyStart.mpo g.lsite_idx = some o1 ∧ vecRead toyStart.mpo g.rsite_idx = some o2 ∧
      (( SweepParams.FileIO (toyParams false) = true ∧ 'r' = 'l') →
        ∃ t, toyStart.files.lookup (Side.l, g.lblock_len) = some t ∧ b0 = Ptr.live t) ∧
      (¬ ( SweepParams.FileIO (toyParams false) = true ∧ 'r' = 'l') →
        vecRead toyStart.lblocks g.lblock_len = some b0) ∧
      (( SweepParams.FileIO (toyParams false) = true ∧ 'r' = 'r') →
        ∃ t, toyStart.files.lookup (Side.r, g.rblock_len) = some t ∧ b3 = Ptr.live t) ∧
      (¬ ( SweepParams.FileIO (toyParams false) = true ∧ 'r' = 'r') →
        vecRead toyStart.rblocks g.rblock_len = some b3) ∧
      e = (toyOps.LanczosSolver [b0, o1, o2, b3] init (toyParams false).LanczParams
            g.where_).gs_eng := by
  obtain ⟨e, s1, h⟩ := Res.exists_of_isOk
    (by decide : (TwoSiteUpdate toyOps 0 (toyParams false) 'r' toyStart).isOk = true)
  exact ⟨e, s1, h, twoSiteUpdate_eff_ham toyOps 0 (toyParams false) 'r' toyStart s1 e h⟩

/-! ## C8: the chain entries a step replaces -/

theorem vecRead_some_lt {T : Type} {v : List (Ptr T)} {idx : Int} {q : Ptr T}
    (h : vecRead v idx = some q) : slot idx < v.length := by
  unfold vecRead at h
  by_contra hc
  rw [List.getElem?_eq_none (by omega)] at h
  cases h

theorem setBlocks_blocks {T : Type} (s : Store T) (side side1 : Side) (v : List (Ptr T)) :
    (s.setBlocks side v).blocks side1 = if side1 = side then v else s.blocks side1 := by
  cases side <;> cases side1 <;> rfl

theorem storeBlock_liveIn {T : Type} {side : Side} {idx : Int} {t : T} {s s1 : Store T}
    {u : Unit} (h : storeBlock side idx t s = Res.ok u s1) :
    liveIn s1 side (slot idx) t ∧
    (∀ side1 j x, liveIn s1 side1 j x →
      (side1 = side ∧ j = slot idx ∧ x = t) ∨ liveIn s side1 j x) ∧
    (∀ side1 j, (side1 ≠ side ∨ j ≠ slot idx) →
      (s1.blocks side1)[j]? = (s.blocks side1)[j]?) := by
  obtain ⟨old, hold, rfl⟩ := (storeBlock_ok_iff _ _ _ _ _ _).mp h
  have hlt := vecRead_some_lt hold
  have hb : ∀ side1, (s.leak old).blocks side1 = s.blocks side1 :=
    fun side1 => Store.leak_blocks s old side1
  refine ⟨?_, ?_, ?_⟩
  · unfold liveIn
    rw [setBlocks_blocks, if_pos rfl, List.getElem?_set_self hlt]
  · intro side1 j x hl
    unfold liveIn at hl ⊢
    rw [setBlocks_blocks, hb] at hl
    by_cases hs : side1 = side
    · subst hs
      rw [if_pos rfl] at hl
      by_cases hj : j = slot idx
      · subst hj
        rw [List.getElem?_set_self hlt] at hl
        cases hl
        exact Or.inl ⟨rfl, rfl, rfl⟩
      · rw [List.getElem?_set_ne (Ne.symm hj)] at hl
        exact Or.inr hl
    · rw [if_neg hs] at hl
      exact Or.inr hl
  · intro side1 j hne
    rw [setBlocks_blocks, hb]
    by_cases hs : side1 = side
    · subst hs
      rw [if_pos rfl]
      rcases hne with h1 | h1
      · exact absurd rfl h1
      · rw [List.getElem?_set_ne (Ne.symm h1)]
    · rw [if_neg hs]

theorem deleteBlock_liveIn {T : Type} {side : Side} {idx : Int} {s s1 : Store T}
    {u : Unit} (h : deleteBlock side idx s = Res.ok u s1) :
    (∀ x, ¬ liveIn s1 side (slot idx) x) ∧
    (∀ side1 j x, liveIn s1 side1 j x → liveIn s side1 j x) ∧
    (∀ side1 j, (side1 ≠ side ∨ j ≠ slot idx) →
      (s1.blocks side1)[j]? = (s.blocks side1)[j]?) ∧
    (∃ q, (s.blocks side)[slot idx]? = some q ∧ q ≠ Ptr.freed) ∧
    ((s1.blocks side)[slot idx]? = some Ptr.freed ∨ (s1.blocks side)[slot idx]? = some Ptr.null) := by
  obtain ⟨q, q1, hq, hd, rfl⟩ := (deleteBlock_ok_iff _ _ _ _ _).mp h
  have hlt := vecRead_some_lt hq
  have hself : ((s.setBlocks side ((s.blocks side).set (slot idx) q1)).blocks side)[slot idx]? =
      some q1 := by
    rw [setBlocks_blocks, if_pos rfl, List.getElem?_set_self hlt]
  refine ⟨?_, ?_, ?_, ⟨q, hq, ?_⟩, ?_⟩
  · intro x hl
    unfold liveIn at hl
    rw [hself] at hl
    exact del_ne_live hd x (Option.some.inj hl)
  · intro side1 j x hl
    unfold liveIn at hl ⊢
    rw [setBlocks_blocks] at hl
    by_cases hs : side1 = side
    · subst hs
      rw [if_pos rfl] at hl
      by_cases hj : j = slot idx
      · subst hj
        rw [List.getElem?_set_self hlt] at hl
        exact absurd (Option.some.inj hl) (del_ne_live hd x)
      · rw [List.getElem?_set_ne (Ne.symm hj)] at hl
        exact hl
    · rw [if_neg hs] at hl
      exact hl
  · intro side1 j hne
    rw [setBlocks_blocks]
    by_cases hs : side1 = side
    · subst hs
      rw [if_pos rfl]
      rcases hne with h1 | h1
      · exact absurd rfl h1
      · rw [List.getElem?_set_ne (Ne.symm h1)]
    · rw [if_neg hs]
  · intro hf
    subst hf
    cases hd
  · rw [hself]
    cases q with
    | null => cases hd; exact Or.inr rfl
    | live t => cases hd; exact Or.inl rfl
    | freed => cases hd

theorem write_blocks {T : Type} {t : T} {side : Side} {len : Int} {s s1 : Store T} {u : Unit}
    (h : WriteGQTensorTOFile t side len s = Res.ok u s1) (side1 : Side) :
    s1.blocks side1 = s.blocks side1 := by
  rw [write_ok_iff] at h
  subst h
  cases side1 <;> rfl

theorem read_liveIn {T : Type} {side : Side} {len : Int} {s s1 : Store T} {u : Unit}
    (h : ReadGQTensorFromFile side len s = Res.ok u s1) :
    ∃ t, s.files.lookup (side, len) = some t ∧ liveIn s1 side (slot len) t ∧
      slot len < (s.blocks side).length ∧
      (∀ side1 j, (side1 ≠ side ∨ j ≠ slot len) →
        (s1.blocks side1)[j]? = (s.blocks side1)[j]?) := by
  obtain ⟨old, t, hold, hfile, rfl⟩ := (read_ok_iff _ _ _ _ _).mp h
  have hlt := vecRead_some_lt hold
  have hb : ∀ side1, ({ s.leak old with trace := s.trace ++ [Event.read side len] } :
      Store T).blocks side1 = s.blocks side1 := by
    intro side1
    cases side1
    · exact Store.leak_lblocks s old
    · exact Store.leak_rblocks s old
  refine ⟨t, hfile, ?_, hlt, ?_⟩
  · unfold liveIn
    rw [setBlocks_blocks, if_pos rfl, List.getElem?_set_self hlt]
  · intro side1 j hne
    rw [setBlocks_blocks, hb]
    by_cases hs : side1 = side
    · subst hs
      rw [if_pos rfl]
      rcases hne with h1 | h1
      · exact absurd rfl h1
      · rw [List.getElem?_set_ne (Ne.symm h1)]
    · rw [if_neg hs]

theorem loadBlock_blocksFrom {T R LP : Type} {p : SweepParams R LP} {g : Geometry} {dir : Char}
    {s s1 : Store T} {u : Unit} (h : loadBlock p g dir s = Res.ok u s1)
    (hl : ((slot g.lblock_len : Nat) : Int) = g.lblock_len)
    (hr : ((slot g.rblock_len : Nat) : Int) = g.rblock_len) :
    blocksFrom s s1 [] ∧ (dir = 'r' → s1.lblocks = s.lblocks) ∧
      (dir = 'l' → s1.rblocks = s.rblocks) := by
  rcases (loadBlock_ok_iff p g dir s s1 u).mp h with ⟨_, rfl⟩ | ⟨_, hd, hrd⟩ | ⟨_, hd, hrd⟩
  · exact ⟨fun side j x hx => Or.inr (Or.inl hx), fun _ => rfl, fun _ => rfl⟩
  · obtain ⟨t, hfile, hlive, _, hother⟩ := read_liveIn hrd
    refine ⟨?_, ?_, ?_⟩
    · intro side j x hx
      by_cases hs : side = Side.r ∧ j = slot g.rblock_len
      · obtain ⟨rfl, rfl⟩ := hs
        unfold liveIn at hx hlive
        rw [hlive] at hx
        cases hx
        right; right
        rw [hr]
        exact hfile
      · right; left
        unfold liveIn at hx ⊢
        rw [← hother side j (by
          by_cases h1 : side = Side.r
          · exact Or.inr (fun h2 => hs ⟨h1, h2⟩)
          · exact Or.inl h1)]
        exact hx
    · intro _
      obtain ⟨old, t1, _, _, rfl⟩ := (read_ok_iff _ _ _ _ _).mp hrd
      simp [Store.setBlocks]
    · intro h2
      rw [hd] at h2
      exact absurd h2.symm l_ne_r
  · obtain ⟨t, hfile, hlive, _, hother⟩ := read_liveIn hrd
    refine ⟨?_, ?_, ?_⟩
    · intro side j x hx
      by_cases hs : side = Side.l ∧ j = slot g.lblock_len
      · obtain ⟨rfl, rfl⟩ := hs
        unfold liveIn at hx hlive
        rw [hlive] at hx
        cases hx
        right; right
        rw [hl]
        exact hfile
      · right; left
        unfold liveIn at hx ⊢
        rw [← hother side j (by
          by_cases h1 : side = Side.l
          · exact Or.inr (fun h2 => hs ⟨h1, h2⟩)
          · exact Or.inl h1)]
        exact hx
    · intro h2
      rw [hd] at h2
      exact absurd h2 l_ne_r
    · intro _
      obtain ⟨old, t1, _, _, rfl⟩ := (read_ok_iff _ _ _ _ _).mp hrd
      simp [Store.setBlocks]

theorem commit_some_liveIn {T : Type} {side : Side} {tgt l0 r0 : Int} {t : T}
    {s sa sb sc s1 : Store T}
    (h1 : storeBlock side tgt t s = Res.ok () sa)
    (h2 : WriteGQTensorTOFile t side tgt sa = Res.ok () sb)
    (h3 : deleteBlock Side.l l0 sb = Res.ok () sc)
    (h4 : deleteBlock Side.r r0 sc = Res.ok () s1)
    (hne : ∀ len, (side = Side.l → len = l0 → slot tgt ≠ slot len) ∧
      (side = Side.r → len = r0 → slot tgt ≠ slot len)) :
    liveIn s1 side (slot tgt) t ∧
    (∀ side1 j x, liveIn s1 side1 j x →
      (side1 = side ∧ j = slot tgt ∧ x = t) ∨ liveIn s side1 j x) := by
  obtain ⟨a1, a2, _⟩ := storeBlock_liveIn h1
  have hb := write_blocks h2
  obtain ⟨_, c2, c3, _⟩ := deleteBlock_liveIn h3
  obtain ⟨_, d2, d3, _⟩ := deleteBlock_liveIn h4
  refine ⟨?_, ?_⟩
  · unfold liveIn at a1 ⊢
    rw [d3 side (slot tgt) (by
        by_cases hs : side = Side.r
        · exact Or.inr ((hne r0).2 hs rfl)
        · exact Or.inl hs),
      c3 side (slot tgt) (by
        by_cases hs : side = Side.l
        · exact Or.inr ((hne l0).1 hs rfl)
        · exact Or.inl hs), hb]
    exact a1
  · intro side1 j x hx
    have h5 := c2 side1 j x (d2 side1 j x hx)
    unfold liveIn at h5
    rw [hb] at h5
    exact a2 side1 j x h5

theorem commit_mem_liveIn {T : Type} {side : Side} {tgt : Int} {t : T} {s sa s1 : Store T}
    (h1 : deleteBlock side tgt s = Res.ok () sa)
    (h2 : storeBlock side tgt t sa = Res.ok () s1) :
    liveIn s1 side (slot tgt) t ∧
    (∀ side1 j x, liveIn s1 side1 j x →
      (side1 = side ∧ j = slot tgt ∧ x = t) ∨ liveIn s side1 j x) := by
  obtain ⟨_, c2, _⟩ := deleteBlock_liveIn h1
  obtain ⟨a1, a2, _⟩ := storeBlock_liveIn h2
  refine ⟨a1, ?_⟩
  intro side1 j x hx
  rcases a2 side1 j x hx with h | h
  · exact Or.inl h
  · exact Or.inr (c2 side1 j x h)

/-! ## C6: the block a step forms -/

theorem step_blocks_eq {T R Q LP : Type} {ops : TensorOps T R Q LP} {p : SweepParams R LP}
    {N : Nat} {i : Int} {g : Geometry} {dir : Char} {sa sb sc sd : Store T} {r : Solved T R}
    {nb : Option T} (hsolve : solve ops p g sa = Res.ok r sb)
    (hre : reassemble ops g dir r.svd_res sb = Res.ok () sc)
    (hnorm : renormalize ops N i g dir sc = Res.ok nb sd) :
    sd = sc ∧ sc.mpo = sa.mpo ∧ sc.lblocks = sa.lblocks ∧ sc.rblocks = sa.rblocks ∧
      (∀ side, sc.blocks side = sa.blocks side) := by
  obtain ⟨e0, e1, e2, e3, lsite, rsite, _, _, _, _, _, _, _, hsb⟩ :=
    (solve_ok_iff ops p g sa sb r).mp hsolve
  obtain ⟨c1, c2, c3, _, _⟩ := reassemble_ok_frame ops g dir r.svd_res sb sc () hre
  have hsd := renormalize_ok_store ops _ _ g dir sc sd nb hnorm
  subst hsb
  refine ⟨hsd, c1, c2, c3, ?_⟩
  intro side
  cases side
  · exact c2
  · exact c3

/-- C6 (as amended): on a chain of `N >= 3` sites, a step of a sweep that
returns forms a block exactly when it is not at the end it moves to (forward
`k /= N-2`, backward `k /= 1`).  At such an end every live block after the step
was live before it or was loaded from its file.  Otherwise one block is formed:
forward it is live in slot `k+1` of the left chain, backward in slot `N-k` of the
right chain, and every other live block was live before or was loaded.  The
block is built from the new tensor of site `k`, its operator and, except at the
first step of a pass (forward `k = 0`, backward `k = N-1`), the block the step
consumed on that side (`lblocks[k]` forward, `rblocks[N-k-1]` backward); at the
first step of a pass it is built from the site and its operator alone. -/
theorem twoSiteUpdate_forms_block {T R Q LP : Type} (ops : TensorOps T R Q LP)
    (p : SweepParams R LP) (dir : Char) (s s1 : Store T) (e : R) (N k : Nat)
    (hlen : s.mps.length = N) (hN : 3 ≤ N) (hsize : N < 2 ^ 63)
    (hstep : (dir = 'r' ∧ k + 2 ≤ N) ∨ (dir = 'l' ∧ 1 ≤ k ∧ k + 1 ≤ N))
    (h : TwoSiteUpdate ops (k : Int) p dir s = Res.ok e s1) :
    (dir = 'r' →
      (k + 2 = N → blocksFrom s s1 []) ∧
      (k + 2 < N → ∃ t site op, s1.mps[k]? = some (Ptr.live site) ∧
        s.mpo[k]? = some (Ptr.live op) ∧
        (k = 0 → t = lblockEnd ops site op) ∧
        (0 < k → ∃ b, s.lblocks[k]? = some (Ptr.live b) ∧ t = lblockGrow ops b site op) ∧
        liveIn s1 Side.l (k + 1) t ∧ blocksFrom s s1 [(Side.l, k + 1, t)])) ∧
    (dir = 'l' →
      (k = 1 → blocksFrom s s1 []) ∧
      (1 < k → ∃ t site op, s1.mps[k]? = some (Ptr.live site) ∧
        s.mpo[k]? = some (Ptr.live op) ∧
        (k + 1 = N → t = rblockEnd ops site op) ∧
        (k + 1 < N → ∃ b, s.rblocks[N - k - 1]? = some (Ptr.live b) ∧
          t = rblockGrow ops b site op) ∧
        liveIn s1 Side.r (N - k) t ∧ blocksFrom s s1 [(Side.r, N - k, t)])) := by
  rcases hstep with ⟨rfl, hk⟩ | ⟨rfl, hk1, hk⟩
  · refine ⟨fun _ => ?_, fun hd => absurd hd.symm l_ne_r⟩
    obtain ⟨g, hg, gl, gr, gbl, gbr, _⟩ := geometry_r p.EETargetBond hk hsize
    rw [← hlen] at hg
    rw [twoSiteUpdate_eq_stepBody ops p _ _ s g hg] at h
    obtain ⟨sa, r, sb, sc, nb, sd, hload, hsolve, hre, hnorm, hcommit, _⟩ :=
      (stepBody_ok_iff ops p _ _ g 'r' s s1 e).mp h
    obtain ⟨_, ampo, _, _⟩ := loadBlock_ok_frame p g 'r' s sa () hload
    obtain ⟨bfa, alb, _⟩ := loadBlock_blocksFrom hload
      (by rw [gbl, slot_natCast (by omega)]) (by rw [gbr, slot_natCast (by omega)])
    obtain ⟨hsd, cmpo, clb, _, cblk⟩ := step_blocks_eq hsolve hre hnorm
    subst hsd
    obtain ⟨dmps, _, _⟩ := commit_ok_frame p _ _ g 'r' nb sd s1 () hcommit
    have hfrom : ∀ side j x, liveIn sd side j x →
        liveIn s side j x ∨ s.files.lookup (side, (j : Int)) = some x := by
      intro side j x hx
      unfold liveIn at hx
      rw [cblk] at hx
      rcases bfa side j x hx with h1 | h1
      · cases h1
      · exact h1
    have hs1 : slot ((k : Int) + 1) = k + 1 := by
      have := slot_natCast (k := k + 1) (by omega)
      rw [← this]; push_cast; rfl
    have hs0 : slot g.lblock_len = k := by rw [gbl, slot_natCast (by omega)]
    obtain ⟨_, hcase⟩ := (renormalize_r_ok_iff ops _ _ g sd sd nb).mp hnorm
    have hnone : nb = none → blocksFrom s s1 [] := by
      intro hnb
      subst hnb
      intro side j x hx
      right
      apply hfrom
      cases hio : SweepParams.FileIO p with
      | true =>
        rw [commit_r_io_none p _ _ g sd s1 () hio] at hcommit
        exact (deleteBlock_liveIn hcommit).2.1 side j x hx
      | false =>
        rw [commit_r_mem_none p _ _ g sd s1 () hio] at hcommit
        subst hcommit
        exact hx
    have hsome : ∀ t, nb = some t →
        liveIn s1 Side.l (k + 1) t ∧ blocksFrom s s1 [(Side.l, k + 1, t)] := by
      intro t hnb
      subst hnb
      have hboth : liveIn s1 Side.l (slot ((k : Int) + 1)) t ∧
          (∀ side1 j x, liveIn s1 side1 j x →
            (side1 = Side.l ∧ j = slot ((k : Int) + 1) ∧ x = t) ∨ liveIn sd side1 j x) := by
        cases hio : SweepParams.FileIO p with
        | true =>
          rw [commit_r_io_some p _ _ g t sd s1 () hio] at hcommit
          obtain ⟨sx, sy, sz, h1, h2, h3, h4⟩ := hcommit
          exact commit_some_liveIn h1 h2 h3 h4 (fun len =>
            ⟨fun _ hl => by rw [hl, hs1, hs0]; omega, fun hs _ => by cases hs⟩)
        | false =>
          rw [commit_r_mem_some p _ _ g t sd s1 () hio] at hcommit
          obtain ⟨sx, h1, h2⟩ := hcommit
          exact commit_mem_liveIn h1 h2
      rw [hs1] at hboth
      refine ⟨hboth.1, ?_⟩
      intro side j x hx
      rcases hboth.2 side j x hx with ⟨rfl, rfl, rfl⟩ | h1
      · exact Or.inl (List.mem_singleton.mpr rfl)
      · exact Or.inr (hfrom side j x h1)
    rcases hcase with ⟨h0, site, op, hsite, hop, hnb⟩ | ⟨h0, h2, b, site, op, hb, hsite, hop, hnb⟩ |
      ⟨h0, h2, hnb⟩
    · have hk0 : k = 0 := by omega
      subst hk0
      refine ⟨fun hc => by omega, fun _ => ⟨_, site, op, ?_, ?_, fun _ => rfl,
        fun hc => by omega, (hsome _ hnb).1, (hsome _ hnb).2⟩⟩
      · rw [dmps]
        rw [vecRead_natCast _ _ (by omega)] at hsite
        exact hsite
      · rw [cmpo, ampo, vecRead_natCast _ _ (by omega)] at hop
        exact hop
    · have hk0 : 0 < k := by omega
      have hkN : k + 2 ≠ N := by
        intro hc
        apply h2
        congr 1
        omega
      refine ⟨fun hc => absurd hc hkN, fun _ => ⟨_, site, op, ?_, ?_, fun hc => by omega,
        fun _ => ⟨b, ?_, rfl⟩, (hsome _ hnb).1, (hsome _ hnb).2⟩⟩
      · rw [dmps]
        rw [vecRead_natCast _ _ (by omega)] at hsite
        exact hsite
      · rw [cmpo, ampo, vecRead_natCast _ _ (by omega)] at hop
        exact hop
      · rw [clb, alb rfl, vecRead_natCast _ _ (by omega)] at hb
        exact hb
    · have hkN : k + 2 = N := by
        unfold u64 at h2
        omega
      exact ⟨fun _ => hnone hnb, fun hc => by omega⟩
  · refine ⟨fun hd => absurd hd l_ne_r, fun _ => ?_⟩
    obtain ⟨g, hg, gl, gr, gbl, gbr, _⟩ := geometry_l p.EETargetBond hk1 hk hsize
    rw [← hlen] at hg
    rw [twoSiteUpdate_eq_stepBody ops p _ _ s g hg] at h
    obtain ⟨sa, r, sb, sc, nb, sd, hload, hsolve, hre, hnorm, hcommit, _⟩ :=
      (stepBody_ok_iff ops p _ _ g 'l' s s1 e).mp h
    obtain ⟨_, ampo, _, _⟩ := loadBlock_ok_frame p g 'l' s sa () hload
    obtain ⟨bfa, _, arb⟩ := loadBlock_blocksFrom hload
      (by rw [gbl, slot_natCast (by omega)]) (by rw [gbr, slot_natCast (by omega)])
    obtain ⟨hsd, cmpo, _, crb, cblk⟩ := step_blocks_eq hsolve hre hnorm
    subst hsd
    obtain ⟨dmps, _, _⟩ := commit_ok_frame p _ _ g 'l' nb sd s1 () hcommit
    have hfrom : ∀ side j x, liveIn sd side j x →
        liveIn s side j x ∨ s.files.lookup (side, (j : Int)) = some x := by
      intro side j x hx
      unfold liveIn at hx
      rw [cblk] at hx
      rcases bfa side j x hx with h1 | h1
      · cases h1
      · exact h1
    have hu : u64 ((s.mps.length : Int) - (k : Int)) = ((N - k : Nat) : Int) := by
      rw [hlen, u64_of_lt] <;> omega
    have hs1 : slot (u64 ((s.mps.length : Int) - (k : Int))) = N - k := by
      rw [hu, slot_natCast (by omega)]
    have hs0 : slot g.rblock_len = N - k - 1 := by rw [gbr, slot_natCast (by omega)]
    obtain ⟨_, hcase⟩ := (renormalize_l_ok_iff ops _ _ g sd sd nb).mp hnorm
    have hnone : nb = none → blocksFrom s s1 [] := by
      intro hnb
      subst hnb
      intro side j x hx
      right
      apply hfrom
      cases hio : SweepParams.FileIO p with
      | true =>
        rw [commit_l_io_none p _ _ g sd s1 () hio] at hcommit
        exact (deleteBlock_liveIn hcommit).2.1 side j x hx
      | false =>
        rw [commit_l_mem_none p _ _ g sd s1 () hio] at hcommit
        subst hcommit
        exact hx
    have hsome : ∀ t, nb = some t →
        liveIn s1 Side.r (N - k) t ∧ blocksFrom s s1 [(Side.r, N - k, t)] := by
      intro t hnb
      subst hnb
      have hboth : liveIn s1 Side.r (slot (u64 ((s.mps.length : Int) - (k : Int)))) t ∧
          (∀ side1 j x, liveIn s1 side1 j x →
            (side1 = Side.r ∧ j = slot (u64 ((s.mps.length : Int) - (k : Int))) ∧ x = t) ∨
              liveIn sd side1 j x) := by
        cases hio : SweepParams.FileIO p with
        | true =>
          rw [commit_l_io_some p _ _ g t sd s1 () hio] at hcommit
          obtain ⟨sx, sy, sz, h1, h2, h3, h4⟩ := hcommit
          exact commit_some_liveIn h1 h2 h3 h4 (fun len =>
            ⟨fun hs _ => (by cases hs), fun _ hl => by rw [hl, hs1, hs0]; omega⟩)
        | false =>
          rw [commit_l_mem_some p _ _ g t sd s1 () hio] at hcommit
          obtain ⟨sx, h1, h2⟩ := hcommit
          exact commit_mem_liveIn h1 h2
      rw [hs1] at hboth
      refine ⟨hboth.1, ?_⟩
      intro side j x hx
      rcases hboth.2 side j x hx with ⟨rfl, rfl, rfl⟩ | h1
      · exact Or.inl (List.mem_singleton.mpr rfl)
      · exact Or.inr (hfrom side j x h1)
    rcases hcase with ⟨h0, site, op, hsite, hop, hnb⟩ | ⟨h0, h2, b, site, op, hb, hsite, hop, hnb⟩ |
      ⟨h0, h2, hnb⟩
    · have hkN : k + 1 = N := by
        rw [hlen] at h0
        unfold u64 at h0
        omega
      refine ⟨fun hc => by omega, fun _ => ⟨_, site, op, ?_, ?_, fun _ => rfl,
        fun hc => by omega, (hsome _ hnb).1, (hsome _ hnb).2⟩⟩
      · rw [dmps]
        rw [vecRead_natCast _ _ (by omega)] at hsite
        exact hsite
      · rw [cmpo, ampo, vecRead_natCast _ _ (by omega)] at hop
        exact hop
    · have hkN : k + 1 ≠ N := by
        intro hc
        apply h0
        rw [hlen]
        congr 1
        omega
      have hk2 : k ≠ 1 := by
        intro hc
        apply h2
        rw [hc]
        rfl
      refine ⟨fun hc => absurd hc hk2, fun _ => ⟨_, site, op, ?_, ?_, fun hc => absurd hc hkN,
        fun _ => ⟨b, ?_, rfl⟩, (hsome _ hnb).1, (hsome _ hnb).2⟩⟩
      · rw [dmps]
        rw [vecRead_natCast _ _ (by omega)] at hsite
        exact hsite
      · rw [cmpo, ampo, vecRead_natCast _ _ (by omega)] at hop
        exact hop
      · rw [crb, arb rfl, gbr, vecRead_natCast _ _ (by omega)] at hb
        exact hb
    · have hk1' : k = 1 := by omega
      exact ⟨fun _ => hnone hnb, fun hc => by omega⟩

/-- Witness of C6: the first forward step on the three-site toy chain. -/
theorem twoSiteUpdate_forms_block_witness :
    ∃ e s1, TwoSiteUpdate toyOps ((0 : Nat) : Int) (toyParams false) 'r' toyStart = Res.ok e s1 ∧
    ('r' = 'r' →
      (0 + 2 = 3 → blocksFrom toyStart s1 []) ∧
      (0 + 2 < 3 → ∃ t site op, s1.mps[0]? = some (Ptr.live site) ∧
        toyStart.mpo[0]? = some (Ptr.live op) ∧
        (0 = 0 → t = lblockEnd toyOps site op) ∧
        (0 < 0 → ∃ b, toyStart.lblocks[0]? = some (Ptr.live b) ∧
          t = lblockGrow toyOps b site op) ∧
        liveIn s1 Side.l (0 + 1) t ∧ blocksFrom toyStart s1 [(Side.l, 0 + 1, t)])) ∧
    ('r' = 'l' →
      (0 = 1 → blocksFrom toyStart s1 []) ∧
      (1 < 0 → ∃ t site op, s1.mps[0]? = some (Ptr.live site) ∧
        toyStart.mpo[0]? = some (Ptr.live op) ∧
        (0 + 1 = 3 → t = rblockEnd toyOps site op) ∧
        (0 + 1 < 3 → ∃ b, toyStart.rblocks[3 - 0 - 1]? = some (Ptr.live b) ∧
          t = rblockGrow toyOps b site op) ∧
        liveIn s1 Side.r (3 - 0) t ∧ blocksFrom toyStart s1 [(Side.r, 3 - 0, t)])) := by
  obtain ⟨e, s1, h⟩ := Res.exists_of_isOk
    (by decide :
      (TwoSiteUpdate toyOps ((0 : Nat) : Int) (toyParams false) 'r' toyStart).isOk = true)
  exact ⟨e, s1, h, twoSiteUpdate_forms_block toyOps (toyParams false) 'r' toyStart s1 e 3 0
    (by decide) (by decide) (by decide) (Or.inl ⟨rfl, by decide⟩) h⟩

/-- C6, counterexample: the first forward step on the three-site toy chain
consumes the left block of length 0, whose slot holds a null pointer, and still
forms a block, live in slot 1 of the left chain after the step: that block is
built from the site and its operator, not from a consumed block. -/
theorem forms_block_counterexample :
    ∃ e s1 t, TwoSiteUpdate toyOps 0 (toyParams false) 'r' toyStart = Res.ok e s1 ∧
      s1.lblocks[1]? = some (Ptr.live t) ∧
      (∃ site op, s1.mps[0]? = some (Ptr.live site) ∧ toyStart.mpo[0]? = some (Ptr.live op) ∧
        t = lblockEnd toyOps site op) ∧
      toyStart.lblocks[0]? = some Ptr.null ∧
      ¬ ∃ b, toyStart.lblocks[0]? = some (Ptr.live b) :=
  ⟨3926,
   { mps := [Ptr.live 2008, Ptr.live 16080, Ptr.live 12],
     mpo := [Ptr.live 100, Ptr.live 101, Ptr.live 102],
     lblocks := [Ptr.null, Ptr.live 29629],
     rblocks := [Ptr.live 0, Ptr.live 1715],
     files := [], leaked := [],
     trace := [Event.solve [Ptr.null, Ptr.live 100, Ptr.live 101, Ptr.live 1715] 88 "lend"] },
   29629, by decide, by decide, ⟨2008, 100, by decide, by decide, by decide⟩, by decide,
   fun ⟨b, hb⟩ => by cases hb⟩

/-! ## Steps that return -/

@[simp] theorem Store.blocks_l {T : Type} (s : Store T) : s.blocks Side.l = s.lblocks := rfl

@[simp] theorem Store.blocks_r {T : Type} (s : Store T) : s.blocks Side.r = s.rblocks := rfl

theorem vecRead_of_getElem? {T : Type} {v : List (Ptr T)} {n : Nat} {q : Ptr T} {idx : Int}
    (hidx : slot idx = n) (h : v[n]? = some q) : vecRead v idx = some q := by
  unfold vecRead
  rw [hidx, h]

theorem read_l_intro {T : Type} {s : Store T} {len : Int} {t : T}
    (hlt : slot len < s.lblocks.length) (hfile : s.files.lookup (Side.l, len) = some t) :
    ∃ s1, ReadGQTensorFromFile Side.l len s = Res.ok () s1 ∧ s1.mps = s.mps ∧ s1.mpo = s.mpo ∧
      s1.files = s.files ∧ s1.lblocks = s.lblocks.set (slot len) (Ptr.live t) ∧
      s1.rblocks = s.rblocks := by
  obtain ⟨old, hold⟩ : ∃ old, vecRead (s.blocks Side.l) len = some old :=
    ⟨_, List.getElem?_eq_getElem hlt⟩
  exact ⟨_, (read_ok_iff _ _ _ _ _).mpr ⟨old, t, hold, hfile, rfl⟩, by simp [Store.setBlocks],
    by simp [Store.setBlocks], by simp [Store.setBlocks], by simp [Store.setBlocks],
    by simp [Store.setBlocks]⟩

theorem read_r_intro {T : Type} {s : Store T} {len : Int} {t : T}
    (hlt : slot len < s.rblocks.length) (hfile : s.files.lookup (Side.r, len) = some t) :
    ∃ s1, ReadGQTensorFromFile Side.r len s = Res.ok () s1 ∧ s1.mps = s.mps ∧ s1.mpo = s.mpo ∧
      s1.files = s.files ∧ s1.lblocks = s.lblocks ∧
      s1.rblocks = s.rblocks.set (slot len) (Ptr.live t) := by
  obtain ⟨old, hold⟩ : ∃ old, vecRead (s.blocks Side.r) len = some old :=
    ⟨_, List.getElem?_eq_getElem hlt⟩
  exact ⟨_, (read_ok_iff _ _ _ _ _).mpr ⟨old, t, hold, hfile, rfl⟩, by simp [Store.setBlocks],
    by simp [Store.setBlocks], by simp [Store.setBlocks], by simp [Store.setBlocks],
    by simp [Store.setBlocks]⟩

theorem storeBlock_l_intro {T : Type} {s : Store T} {idx : Int} (t : T)
    (hlt : slot idx < s.lblocks.length) :
    ∃ s1, storeBlock Side.l idx t s = Res.ok () s1 ∧ s1.mps = s.mps ∧ s1.mpo = s.mpo ∧
      s1.files = s.files ∧ s1.lblocks = s.lblocks.set (slot idx) (Ptr.live t) ∧
      s1.rblocks = s.rblocks := by
  obtain ⟨old, hold⟩ : ∃ old, vecRead (s.blocks Side.l) idx = some old :=
    ⟨_, List.getElem?_eq_getElem hlt⟩
  exact ⟨_, (storeBlock_ok_iff _ _ _ _ _ _).mpr ⟨old, hold, rfl⟩, by simp [Store.setBlocks],
    by simp [Store.setBlocks], by simp [Store.setBlocks], by simp [Store.setBlocks],
    by simp [Store.setBlocks]⟩

theorem storeBlock_r_intro {T : Type} {s : Store T} {idx : Int} (t : T)
    (hlt : slot idx < s.rblocks.length) :
    ∃ s1, storeBlock Side.r idx t s = Res.ok () s1 ∧ s1.mps = s.mps ∧ s1.mpo = s.mpo ∧
      s1.files = s.files ∧ s1.lblocks = s.lblocks ∧
      s1.rblocks = s.rblocks.set (slot idx) (Ptr.live t) := by
  obtain ⟨old, hold⟩ : ∃ old, vecRead (s.blocks Side.r) idx = some old :=
    ⟨_, List.getElem?_eq_getElem hlt⟩
  exact ⟨_, (storeBlock_ok_iff _ _ _ _ _ _).mpr ⟨old, hold, rfl⟩, by simp [Store.setBlocks],
    by simp [Store.setBlocks], by simp [Store.setBlocks], by simp [Store.setBlocks],
    by simp [Store.setBlocks]⟩

theorem del_some {T : Type} {q : Ptr T} (h : q ≠ Ptr.freed) : ∃ q1, del q = some q1 := by
  cases q with
  | null => exact ⟨_, rfl⟩
  | live t => exact ⟨_, rfl⟩
  | freed => exact absurd rfl h

theorem deleteBlock_l_intro {T : Type} {s : Store T} {idx : Int} {q : Ptr T}
    (hq : s.lblocks[slot idx]? = some q) (hne : q ≠ Ptr.freed) :
    ∃ s1 q1, deleteBlock Side.l idx s = Res.ok () s1 ∧ del q = some q1 ∧ s1.mps = s.mps ∧
      s1.mpo = s.mpo ∧ s1.files = s.files ∧ s1.lblocks = s.lblocks.set (slot idx) q1 ∧
      s1.rblocks = s.rblocks := by
  obtain ⟨q1, hd⟩ := del_some hne
  exact ⟨_, q1, (deleteBlock_ok_iff _ _ _ _ _).mpr ⟨q, q1, hq, hd, rfl⟩, hd,
    by simp [Store.setBlocks], by simp [Store.setBlocks], by simp [Store.setBlocks],
    by simp [Store.setBlocks], by simp [Store.setBlocks]⟩

theorem deleteBlock_r_intro {T : Type} {s : Store T} {idx : Int} {q : Ptr T}
    (hq : s.rblocks[slot idx]? = some q) (hne : q ≠ Ptr.freed) :
    ∃ s1 q1, deleteBlock Side.r idx s = Res.ok () s1 ∧ del q = some q1 ∧ s1.mps = s.mps ∧
      s1.mpo = s.mpo ∧ s1.files = s.files ∧ s1.lblocks = s.lblocks ∧
      s1.rblocks = s.rblocks.set (slot idx) q1 := by
  obtain ⟨q1, hd⟩ := del_some hne
  exact ⟨_, q1, (deleteBlock_ok_iff _ _ _ _ _).mpr ⟨q, q1, hq, hd, rfl⟩, hd,
    by simp [Store.setBlocks], by simp [Store.setBlocks], by simp [Store.setBlocks],
    by simp [Store.setBlocks], by simp [Store.setBlocks]⟩

theorem write_intro {T : Type} (s : Store T) (t : T) (side : Side) (len : Int) :
    ∃ s1, WriteGQTensorTOFile t side len s = Res.ok () s1 ∧ s1.mps = s.mps ∧ s1.mpo = s.mpo ∧
      s1.files = ((side, len), t) :: s.files ∧ s1.lblocks = s.lblocks ∧
      s1.rblocks = s.rblocks :=
  ⟨_, rfl, rfl, rfl, rfl, rfl, rfl⟩

theorem solve_intro {T R Q LP : Type} (ops : TensorOps T R Q LP) (p : SweepParams R LP)
    (g : Geometry) (s : Store T) {e0 e1 e2 e3 : Ptr T} {lsite rsite : T}
    (h0 : vecRead s.lblocks g.lblock_len = some e0) (h1 : vecRead s.mpo g.lsite_idx = some e1)
    (h2 : vecRead s.mpo g.rsite_idx = some e2) (h3 : vecRead s.rblocks g.rblock_len = some e3)
    (hl : vecRead s.mps g.lsite_idx = some (Ptr.live lsite))
    (hr : vecRead s.mps g.rsite_idx = some (Ptr.live rsite)) :
    ∃ s1, solve ops p g s = Res.ok (solved ops p g e0 e1 e2 e3 lsite rsite) s1 ∧
      s1.mps = s.mps ∧ s1.mpo = s.mpo ∧ s1.files = s.files ∧ s1.lblocks = s.lblocks ∧
      s1.rblocks = s.rblocks :=
  ⟨_, (solve_ok_iff ops p g s _ _).mpr ⟨e0, e1, e2, e3, lsite, rsite, h0, h1, h2, h3, hl, hr,
    rfl, rfl⟩, rfl, rfl, rfl, rfl, rfl⟩

theorem reassemble_intro {T R Q LP : Type} (ops : TensorOps T R Q LP) (g : Geometry)
    (dir : Char) (svd_res : SvdRes T R) (s : Store T) {x y : T} {l : Nat}
    (hdir : dir = 'r' ∨ dir = 'l')
    (gl : slot g.lsite_idx = l) (gr : slot g.rsite_idx = l + 1)
    (hx : s.mps[l]? = some (Ptr.live x)) (hy : s.mps[l + 1]? = some (Ptr.live y)) :
    ∃ s1 a b, reassemble ops g dir svd_res s = Res.ok () s1 ∧
      (dir = 'r' → a = svd_res.u ∧ b = ops.Contract svd_res.s svd_res.v [[1], [0]]) ∧
      (dir = 'l' → a = ops.Contract svd_res.u svd_res.s g.us_ctrct_axes ∧ b = svd_res.v) ∧
      s1.mps = (s.mps.set l (Ptr.live a)).set (l + 1) (Ptr.live b) ∧
      s1.mpo = s.mpo ∧ s1.files = s.files ∧ s1.lblocks = s.lblocks ∧
      s1.rblocks = s.rblocks := by
  have h1 : ∃ q q1, vecRead s.mps g.lsite_idx = some q ∧ del q = some q1 :=
    ⟨Ptr.live x, Ptr.freed, vecRead_of_getElem? gl hx, rfl⟩
  have h2 : ∀ a : T, ∃ q q1, vecRead (s.mps.set (slot g.lsite_idx) (Ptr.live a)) g.rsite_idx =
      some q ∧ del q = some q1 := by
    intro a
    refine ⟨Ptr.live y, Ptr.freed, vecRead_of_getElem? gr ?_, rfl⟩
    rw [gl, List.getElem?_set_ne (by omega)]
    exact hy
  rcases hdir with rfl | rfl
  · refine ⟨_, _, _, (reassemble_r_ok_iff ops g svd_res s _ ()).mpr ⟨h1, h2 _, rfl⟩,
      fun _ => ⟨rfl, rfl⟩, fun h => absurd h.symm l_ne_r, ?_, rfl, rfl, rfl, rfl⟩
    simp only [gl, gr]
  · refine ⟨_, _, _, (reassemble_l_ok_iff ops g svd_res s _ ()).mpr ⟨h1, h2 _, rfl⟩,
      fun h => absurd h l_ne_r, fun _ => ⟨rfl, rfl⟩, ?_, rfl, rfl, rfl, rfl⟩
    simp only [gl, gr]

theorem load_r_intro {T R LP : Type} (p : SweepParams R LP) (g : Geometry) (s : Store T)
    {n : Nat} {tr : T} (hn : slot g.rblock_len = n) (hlt : n < s.rblocks.length)
    (hfile : SweepParams.FileIO p = true → s.files.lookup (Side.r, g.rblock_len) = some tr)
    (hres : SweepParams.FileIO p = false → s.rblocks[n]? = some (Ptr.live tr)) :
    ∃ sa, loadBlock p g 'r' s = Res.ok () sa ∧ sa.mps = s.mps ∧ sa.mpo = s.mpo ∧
      sa.files = s.files ∧ sa.lblocks = s.lblocks ∧ sa.rblocks[n]? = some (Ptr.live tr) ∧
      ( SweepParams.FileIO p = true → sa.rblocks = s.rblocks.set n (Ptr.live tr)) ∧
      ( SweepParams.FileIO p = false → sa.rblocks = s.rblocks) := by
  cases hio : SweepParams.FileIO p with
  | true =>
    obtain ⟨sa, hread, a1, a2, a3, a4, a5⟩ := @read_r_intro _ s g.rblock_len _
      (by rw [hn]; exact hlt) (hfile hio)
    rw [hn] at a5
    refine ⟨sa, (loadBlock_ok_iff p g 'r' s sa ()).mpr (Or.inr (Or.inl ⟨hio, rfl, hread⟩)),
      a1, a2, a3, a4, ?_, fun _ => a5, fun h => by cases h⟩
    rw [a5, List.getElem?_set_self hlt]
  | false =>
    exact ⟨s, (loadBlock_ok_iff p g 'r' s s ()).mpr (Or.inl ⟨hio, rfl⟩), rfl, rfl, rfl, rfl,
      hres hio, (fun h => by cases h), fun _ => rfl⟩

theorem load_l_intro {T R LP : Type} (p : SweepParams R LP) (g : Geometry) (s : Store T)
    {n : Nat} {tl : T} (hn : slot g.lblock_len = n) (hlt : n < s.lblocks.length)
    (hfile : SweepParams.FileIO p = true → s.files.lookup (Side.l, g.lblock_len) = some tl) :
    ∃ sa, loadBlock p g 'l' s = Res.ok () sa ∧ sa.mps = s.mps ∧ sa.mpo = s.mpo ∧
      sa.files = s.files ∧ sa.rblocks = s.rblocks ∧
      ( SweepParams.FileIO p = true → sa.lblocks = s.lblocks.set n (Ptr.live tl)) ∧
      ( SweepParams.FileIO p = false → sa.lblocks = s.lblocks) := by
  cases hio : SweepParams.FileIO p with
  | true =>
    obtain ⟨sa, hread, a1, a2, a3, a4, a5⟩ := @read_l_intro _ s g.lblock_len _
      (by rw [hn]; exact hlt) (hfile hio)
    rw [hn] at a4
    exact ⟨sa, (loadBlock_ok_iff p g 'l' s sa ()).mpr (Or.inr (Or.inr ⟨hio, rfl, hread⟩)),
      a1, a2, a3, a5, fun _ => a4, fun h => by cases h⟩
  | false =>
    exact ⟨s, (loadBlock_ok_iff p g 'l' s s ()).mpr (Or.inl ⟨hio, rfl⟩), rfl, rfl, rfl, rfl,
      (fun h => by cases h), fun _ => rfl⟩

theorem commit_r_intro {T R LP : Type} (p : SweepParams R LP) (N : Nat) (i : Int)
    (g : Geometry) (nb : Option T) (s : Store T) {k n : Nat} {e0 : Ptr T} {tr : T}
    (h1 : slot (i + 1) = k + 1) (h0 : slot g.lblock_len = k) (h3 : slot g.rblock_len = n)
    (he0 : s.lblocks[k]? = some e0) (hne : e0 ≠ Ptr.freed)
    (hr : SweepParams.FileIO p = true → s.rblocks[n]? = some (Ptr.live tr))
    (hlt : nb ≠ none → k + 1 < s.lblocks.length)
    (htgt : SweepParams.FileIO p = false → nb ≠ none → s.lblocks[k + 1]? ≠ some Ptr.freed) :
    ∃ s1, commit p N i g 'r' nb s = Res.ok () s1 ∧ s1.mps = s.mps ∧ s1.mpo = s.mpo ∧
      ( SweepParams.FileIO p = true → ∃ q0, del e0 = some q0 ∧
        (nb = none → s1.files = s.files ∧ s1.lblocks = s.lblocks.set k q0 ∧
          s1.rblocks = s.rblocks) ∧
        (∀ t, nb = some t → s1.files = ((Side.l, i + 1), t) :: s.files ∧
          s1.lblocks = (s.lblocks.set (k + 1) (Ptr.live t)).set k q0 ∧
          s1.rblocks = s.rblocks.set n Ptr.freed)) ∧
      ( SweepParams.FileIO p = false → s1.files = s.files ∧ s1.rblocks = s.rblocks ∧
        (nb = none → s1.lblocks = s.lblocks) ∧
        (∀ t, nb = some t → s1.lblocks = s.lblocks.set (k + 1) (Ptr.live t))) := by
  cases hio : SweepParams.FileIO p with
  | true =>
    cases nb with
    | none =>
      obtain ⟨s1, q0, hd, hq, d1, d2, d3, d4, d5⟩ :=
        @deleteBlock_l_intro _ s g.lblock_len _ (by rw [h0]; exact he0) hne
      rw [h0] at d4
      exact ⟨s1, (commit_r_io_none p N i g s s1 () hio).mpr hd, d1, d2,
        fun _ => ⟨q0, hq, fun _ => ⟨d3, d4, d5⟩, fun t ht => by cases ht⟩, fun h => by cases h⟩
    | some t =>
      have hlt1 := hlt (by simp)
      obtain ⟨sx, hx, x1, x2, x3, x4, x5⟩ :=
        @storeBlock_l_intro _ s (i + 1) t (by rw [h1]; exact hlt1)
      obtain ⟨sy, hy, y1, y2, y3, y4, y5⟩ := write_intro sx t Side.l (i + 1)
      rw [h1] at x4
      obtain ⟨sz, q0, hz, hq, z1, z2, z3, z4, z5⟩ :=
        @deleteBlock_l_intro _ sy g.lblock_len e0
          (by rw [h0, y4, x4, List.getElem?_set_ne (by omega)]; exact he0) hne
      obtain ⟨s1, q3, hw, hq3, w1, w2, w3, w4, w5⟩ :=
        @deleteBlock_r_intro _ sz g.rblock_len (Ptr.live tr)
          (by rw [h3, z5, y5, x5]; exact hr hio) (by intro h; cases h)
      cases hq3
      rw [h0] at z4
      rw [h3] at w5
      refine ⟨s1, (commit_r_io_some p N i g t s s1 () hio).mpr ⟨sx, sy, sz, hx, hy, hz, hw⟩,
        by rw [w1, z1, y1, x1], by rw [w2, z2, y2, x2],
        fun _ => ⟨q0, hq, (fun h => by cases h), fun t1 ht1 => ?_⟩, fun h => by cases h⟩
      cases ht1
      exact ⟨by rw [w3, z3, y3, x3], by rw [w4, z4, y4, x4], by rw [w5, z5, y5, x5]⟩
  | false =>
    cases nb with
    | none =>
      exact ⟨s, (commit_r_mem_none p N i g s s () hio).mpr rfl, rfl, rfl, (fun h => by cases h),
        fun _ => ⟨rfl, rfl, fun _ => rfl, fun t ht => by cases ht⟩⟩
    | some t =>
      have hlt1 := hlt (by simp)
      have htg := htgt hio (by simp)
      obtain ⟨q, hq⟩ : ∃ q, s.lblocks[k + 1]? = some q := ⟨_, List.getElem?_eq_getElem hlt1⟩
      have hqne : q ≠ Ptr.freed := by
        intro h; rw [h] at hq; exact htg hq
      obtain ⟨sx, q1, hx, _, x1, x2, x3, x4, x5⟩ :=
        @deleteBlock_l_intro _ s (i + 1) q (by rw [h1]; exact hq) hqne
      rw [h1] at x4
      obtain ⟨s1, hy, y1, y2, y3, y4, y5⟩ :=
        @storeBlock_l_intro _ sx (i + 1) t (by rw [h1, x4]; simpa using hlt1)
      rw [h1, x4, List.set_set] at y4
      refine ⟨s1, (commit_r_mem_some p N i g t s s1 () hio).mpr ⟨sx, hx, hy⟩,
        by rw [y1, x1], by rw [y2, x2], (fun h => by cases h),
        fun _ => ⟨by rw [y3, x3], by rw [y5, x5], (fun h => by cases h), fun t1 ht1 => ?_⟩⟩
      cases ht1
      exact y4

theorem commit_l_intro {T R LP : Type} (p : SweepParams R LP) (N : Nat) (i : Int)
    (g : Geometry) (nb : Option T) (s : Store T) {k m : Nat} {tl : T} {e3 : Ptr T}
    (h1 : slot (u64 ((N : Int) - i)) = m + 1) (h0 : slot g.lblock_len = k)
    (h3 : slot g.rblock_len = m)
    (he3 : s.rblocks[m]? = some e3) (hne : e3 ≠ Ptr.freed)
    (hl : SweepParams.FileIO p = true → s.lblocks[k]? = some (Ptr.live tl))
    (hlt : nb ≠ none → m + 1 < s.rblocks.length)
    (htgt : SweepParams.FileIO p = false → nb ≠ none → s.rblocks[m + 1]? ≠ some Ptr.freed) :
    ∃ s1, commit p N i g 'l' nb s = Res.ok () s1 ∧ s1.mps = s.mps ∧ s1.mpo = s.mpo ∧
      ( SweepParams.FileIO p = true → ∃ q3, del e3 = some q3 ∧
        (nb = none → s1.files = s.files ∧ s1.rblocks = s.rblocks.set m q3 ∧
          s1.lblocks = s.lblocks) ∧
        (∀ t, nb = some t → s1.files = ((Side.r, u64 ((N : Int) - i)), t) :: s.files ∧
          s1.rblocks = (s.rblocks.set (m + 1) (Ptr.live t)).set m q3 ∧
          s1.lblocks = s.lblocks.set k Ptr.freed)) ∧
      ( SweepParams.FileIO p = false → s1.files = s.files ∧ s1.lblocks = s.lblocks ∧
        (nb = none → s1.rblocks = s.rblocks) ∧
        (∀ t, nb = some t → s1.rblocks = s.rblocks.set (m + 1) (Ptr.live t))) := by
  cases hio : SweepParams.FileIO p with
  | true =>
    cases nb with
    | none =>
      obtain ⟨s1, q3, hd, hq, d1, d2, d3, d4, d5⟩ :=
        @deleteBlock_r_intro _ s g.rblock_len _ (by rw [h3]; exact he3) hne
      rw [h3] at d5
      exact ⟨s1, (commit_l_io_none p N i g s s1 () hio).mpr hd, d1, d2,
        fun _ => ⟨q3, hq, fun _ => ⟨d3, d5, d4⟩, fun t ht => by cases ht⟩, fun h => by cases h⟩
    | some t =>
      have hlt1 := hlt (by simp)
      obtain ⟨sx, hx, x1, x2, x3, x4, x5⟩ :=
        @storeBlock_r_intro _ s (u64 ((N : Int) - i)) t (by rw [h1]; exact hlt1)
      obtain ⟨sy, hy, y1, y2, y3, y4, y5⟩ := write_intro sx t Side.r (u64 ((N : Int) - i))
      rw [h1] at x5
      obtain ⟨sz, q0, hz, hq0, z1, z2, z3, z4, z5⟩ :=
        @deleteBlock_l_intro _ sy g.lblock_len (Ptr.live tl)
          (by rw [h0, y4, x4]; exact hl hio) (by intro h; cases h)
      cases hq0
      obtain ⟨s1, q3, hw, hq3, w1, w2, w3, w4, w5⟩ :=
        @deleteBlock_r_intro _ sz g.rblock_len e3
          (by rw [h3, z5, y5, x5, List.getElem?_set_ne (by omega)]; exact he3) hne
      rw [h0] at z4
      rw [h3] at w5
      refine ⟨s1, (commit_l_io_some p N i g t s s1 () hio).mpr ⟨sx, sy, sz, hx, hy, hz, hw⟩,
        by rw [w1, z1, y1, x1], by rw [w2, z2, y2, x2],
        fun _ => ⟨q3, hq3, (fun h => by cases h), fun t1 ht1 => ?_⟩, fun h => by cases h⟩
      cases ht1
      exact ⟨by rw [w3, z3, y3, x3], by rw [w5, z5, y5, x5], by rw [w4, z4, y4, x4]⟩
  | false =>
    cases nb with
    | none =>
      exact ⟨s, (commit_l_mem_none p N i g s s () hio).mpr rfl, rfl, rfl, (fun h => by cases h),
        fun _ => ⟨rfl, rfl, fun _ => rfl, fun t ht => by cases ht⟩⟩
    | some t =>
      have hlt1 := hlt (by simp)
      have htg := htgt hio (by simp)
      obtain ⟨q, hq⟩ : ∃ q, s.rblocks[m + 1]? = some q := ⟨_, List.getElem?_eq_getElem hlt1⟩
      have hqne : q ≠ Ptr.freed := by
        intro h; rw [h] at hq; exact htg hq
      obtain ⟨sx, q1, hx, _, x1, x2, x3, x4, x5⟩ :=
        @deleteBlock_r_intro _ s (u64 ((N : Int) - i)) q
          (by rw [h1]; exact hq) hqne
      rw [h1] at x5
      obtain ⟨s1, hy, y1, y2, y3, y4, y5⟩ :=
        @storeBlock_r_intro _ sx (u64 ((N : Int) - i)) t
          (by rw [h1, x5]; simpa using hlt1)
      rw [h1, x5, List.set_set] at y5
      refine ⟨s1, (commit_l_mem_some p N i g t s s1 () hio).mpr ⟨sx, hx, hy⟩,
        by rw [y1, x1], by rw [y2, x2], (fun h => by cases h),
        fun _ => ⟨by rw [y3, x3], by rw [y4, x4], (fun h => by cases h), fun t1 ht1 => ?_⟩⟩
      cases ht1
      exact y5

theorem renorm_r_intro {T R Q LP : Type} (ops : TensorOps T R Q LP) (N k : Nat) (g : Geometry)
    (s : Store T) {site op : T} {e0 : Ptr T} (hN : 3 ≤ N) (hsize : N < 2 ^ 63) (hk : k + 2 ≤ N)
    (hsite : s.mps[k]? = some (Ptr.live site)) (hop : s.mpo[k]? = some (Ptr.live op))
    (he0 : s.lblocks[k]? = some e0) (hmid : 0 < k → ∃ tl, e0 = Ptr.live tl) :
    ∃ nb, renormalize ops N (k : Int) g 'r' s = Res.ok nb s ∧
      (k + 2 = N → nb = none) ∧ (nb ≠ none → k + 2 < N) ∧
      (k = 0 → nb = some (lblockEnd ops site op)) ∧
      (∀ tl, 0 < k → k + 2 < N → e0 = Ptr.live tl → nb = some (lblockGrow ops tl site op)) := by
  have rs : vecRead s.mps (k : Int) = some (Ptr.live site) := by
    rw [vecRead_natCast _ _ (by omega)]; exact hsite
  have ro : vecRead s.mpo (k : Int) = some (Ptr.live op) := by
    rw [vecRead_natCast _ _ (by omega)]; exact hop
  rcases Nat.eq_zero_or_pos k with h0 | h0
  · subst h0
    refine ⟨some (lblockEnd ops site op), (renormalize_r_ok_iff ops N _ g s s _).mpr
      ⟨rfl, Or.inl ⟨rfl, site, op, rs, ro, rfl⟩⟩, fun h => by omega, fun _ => by omega,
      fun _ => rfl, fun tl h => by omega⟩
  · have hk0 : (k : Int) ≠ 0 := by omega
    rcases Nat.eq_or_lt_of_le hk with h2 | h2
    · have hu : u64 (k : Int) = u64 ((N : Int) - 2) := by
        congr 1; omega
      exact ⟨none, (renormalize_r_ok_iff ops N _ g s s _).mpr
        ⟨rfl, Or.inr (Or.inr ⟨hk0, hu, rfl⟩)⟩, fun _ => rfl, fun h => absurd rfl h,
        fun h => by omega, fun tl _ h => by omega⟩
    · have hu : u64 (k : Int) ≠ u64 ((N : Int) - 2) := by
        unfold u64; omega
      obtain ⟨tl, rfl⟩ := hmid h0
      have rb : vecRead s.lblocks (k : Int) = some (Ptr.live tl) := by
        rw [vecRead_natCast _ _ (by omega)]; exact he0
      refine ⟨some (lblockGrow ops tl site op), (renormalize_r_ok_iff ops N _ g s s _).mpr
        ⟨rfl, Or.inr (Or.inl ⟨hk0, hu, tl, site, op, rb, rs, ro, rfl⟩)⟩, fun h => by omega,
        fun _ => h2, fun h => by omega, fun tl1 _ _ h => ?_⟩
      cases h
      rfl

theorem renorm_l_intro {T R Q LP : Type} (ops : TensorOps T R Q LP) (N k : Nat) (g : Geometry)
    (s : Store T) {site op : T} {e3 : Ptr T} {m : Nat} (hN : 3 ≤ N) (hsize : N < 2 ^ 63)
    (hk1 : 1 ≤ k) (hk : k + 1 ≤ N) (hm : slot g.rblock_len = m)
    (hsite : s.mps[k]? = some (Ptr.live site)) (hop : s.mpo[k]? = some (Ptr.live op))
    (he3 : s.rblocks[m]? = some e3) (hmid : 1 < k → k + 1 < N → ∃ tr, e3 = Ptr.live tr) :
    ∃ nb, renormalize ops N (k : Int) g 'l' s = Res.ok nb s ∧
      (k = 1 → nb = none) ∧ (nb ≠ none → 1 < k) ∧
      (k + 1 = N → nb = some (rblockEnd ops site op)) ∧
      (∀ tr, 1 < k → k + 1 < N → e3 = Ptr.live tr → nb = some (rblockGrow ops tr site op)) := by
  have rs : vecRead s.mps (k : Int) = some (Ptr.live site) := by
    rw [vecRead_natCast _ _ (by omega)]; exact hsite
  have ro : vecRead s.mpo (k : Int) = some (Ptr.live op) := by
    rw [vecRead_natCast _ _ (by omega)]; exact hop
  rcases Nat.eq_or_lt_of_le hk with h2 | h2
  · have hu : u64 (k : Int) = u64 ((N : Int) - 1) := by
      congr 1; omega
    refine ⟨some (rblockEnd ops site op), (renormalize_l_ok_iff ops N _ g s s _).mpr
      ⟨rfl, Or.inl ⟨hu, site, op, rs, ro, rfl⟩⟩, fun h => by omega, fun _ => by omega,
      fun _ => rfl, fun tr _ h => by omega⟩
  · have hu : u64 (k : Int) ≠ u64 ((N : Int) - 1) := by
      unfold u64; omega
    rcases Nat.eq_or_lt_of_le hk1 with h1 | h1
    · have hk' : (k : Int) = 1 := by omega
      exact ⟨none, (renormalize_l_ok_iff ops N _ g s s _).mpr
        ⟨rfl, Or.inr (Or.inr ⟨hu, hk', rfl⟩)⟩, fun _ => rfl, fun h => absurd rfl h,
        fun h => by omega, fun tr h => by omega⟩
    · have hk' : (k : Int) ≠ 1 := by omega
      obtain ⟨tr, rfl⟩ := hmid h1 h2
      have rb : vecRead s.rblocks g.rblock_len = some (Ptr.live tr) :=
        vecRead_of_getElem? hm he3
      refine ⟨some (rblockGrow ops tr site op), (renormalize_l_ok_iff ops N _ g s s _).mpr
        ⟨rfl, Or.inr (Or.inl ⟨hu, hk', tr, site, op, rb, rs, ro, rfl⟩)⟩, fun h => by omega,
        fun _ => h1, fun h => by omega, fun tr1 _ _ h => ?_⟩
      cases h
      rfl

theorem step_r_returns {T R Q LP : Type} (ops : TensorOps T R Q LP) (p : SweepParams R LP)
    (s : Store T) (N k : Nat) (tr : T) (e0 : Ptr T)
    (hN : 3 ≤ N) (hsize : N < 2 ^ 63) (hk : k + 2 ≤ N)
    (hmps : s.mps.length = N) (hmpo : s.mpo.length = N)
    (lmps : allLive s.mps = true) (lmpo : allLive s.mpo = true)
    (hll : s.lblocks.length = N - 1) (hrl : s.rblocks.length = N - 1)
    (hfile : SweepParams.FileIO p = true →
      s.files.lookup (Side.r, ((N - k - 2 : Nat) : Int)) = some tr)
    (hres : SweepParams.FileIO p = false → s.rblocks[N - k - 2]? = some (Ptr.live tr))
    (he0 : s.lblocks[k]? = some e0) (hne : e0 ≠ Ptr.freed)
    (hmid : 0 < k → ∃ tl, e0 = Ptr.live tl)
    (htgt : SweepParams.FileIO p = false → k + 2 < N → s.lblocks[k + 1]? ≠ some Ptr.freed) :
    ∃ g lsite rsite o1 o2 r nb s1,
      geometry N (k : Int) p.EETargetBond 'r' = some g ∧ (k = 0 → g.where_ = "lend") ∧
      s.mps[k]? = some (Ptr.live lsite) ∧ s.mps[k + 1]? = some (Ptr.live rsite) ∧
      s.mpo[k]? = some (Ptr.live o1) ∧ s.mpo[k + 1]? = some (Ptr.live o2) ∧
      r = solved ops p g e0 (Ptr.live o1) (Ptr.live o2) (Ptr.live tr) lsite rsite ∧
      TwoSiteUpdate ops (k : Int) p 'r' s = Res.ok r.lancz_res.gs_eng s1 ∧
      s1.mps = (s.mps.set k (Ptr.live r.svd_res.u)).set (k + 1)
        (Ptr.live (ops.Contract r.svd_res.s r.svd_res.v [[1], [0]])) ∧
      s1.mpo = s.mpo ∧
      (k + 2 = N → nb = none) ∧ (nb ≠ none → k + 2 < N) ∧
      (k = 0 → nb = some (lblockEnd ops r.svd_res.u o1)) ∧
      (∀ tl, 0 < k → k + 2 < N → e0 = Ptr.live tl →
        nb = some (lblockGrow ops tl r.svd_res.u o1)) ∧
      ( SweepParams.FileIO p = true → ∃ q0, del e0 = some q0 ∧
        (nb = none → s1.files = s.files ∧ s1.lblocks = s.lblocks.set k q0 ∧
          s1.rblocks = s.rblocks.set (N - k - 2) (Ptr.live tr)) ∧
        (∀ t, nb = some t → s1.files = ((Side.l, ((k + 1 : Nat) : Int)), t) :: s.files ∧
          s1.lblocks = (s.lblocks.set (k + 1) (Ptr.live t)).set k q0 ∧
          s1.rblocks = (s.rblocks.set (N - k - 2) (Ptr.live tr)).set (N - k - 2) Ptr.freed)) ∧
      ( SweepParams.FileIO p = false → s1.files = s.files ∧ s1.rblocks = s.rblocks ∧
        (nb = none → s1.lblocks = s.lblocks) ∧
        (∀ t, nb = some t → s1.lblocks = s.lblocks.set (k + 1) (Ptr.live t))) := by
  subst hmps
  obtain ⟨g, hg, gl, gr, gbl, gbr, gw⟩ := geometry_r p.EETargetBond hk hsize
  obtain ⟨lsite, hls⟩ := allLive_getElem? lmps (k := k) (by omega)
  obtain ⟨rsite, hrs⟩ := allLive_getElem? lmps (k := k + 1) (by omega)
  obtain ⟨o1, ho1⟩ := allLive_getElem? lmpo (k := k) (by omega)
  obtain ⟨o2, ho2⟩ := allLive_getElem? lmpo (k := k + 1) (by omega)
  have sl : slot g.lsite_idx = k := by rw [gl, slot_natCast (by omega)]
  have sr : slot g.rsite_idx = k + 1 := by rw [gr, slot_natCast (by omega)]
  have sbl : slot g.lblock_len = k := by rw [gbl, slot_natCast (by omega)]
  have sbr : slot g.rblock_len = s.mps.length - k - 2 := by rw [gbr, slot_natCast (by omega)]
  have s1' : slot ((k : Int) + 1) = k + 1 := by
    have := slot_natCast (k := k + 1) (by omega)
    rw [← this]; push_cast; rfl
  obtain ⟨sa, hload, a1, a2, a3, a4, a5, a6, a7⟩ := load_r_intro p g s sbr (by omega)
    (fun h => by rw [gbr]; exact hfile h) hres
  obtain ⟨sb, hsolve, b1, b2, b3, b4, b5⟩ := @solve_intro _ _ _ _ ops p g sa
    e0 (Ptr.live o1) (Ptr.live o2) (Ptr.live tr) lsite rsite
    (vecRead_of_getElem? sbl (by rw [a4]; exact he0))
    (vecRead_of_getElem? sl (by rw [a2]; exact ho1))
    (vecRead_of_getElem? sr (by rw [a2]; exact ho2))
    (vecRead_of_getElem? sbr a5)
    (vecRead_of_getElem? sl (by rw [a1]; exact hls))
    (vecRead_of_getElem? sr (by rw [a1]; exact hrs))
  generalize hr : solved ops p g e0 (Ptr.live o1) (Ptr.live o2) (Ptr.live tr) lsite rsite = r
    at hsolve
  obtain ⟨sc, a, b, hre, hab, _, c1, c2, c3, c4, c5⟩ := reassemble_intro ops g 'r' r.svd_res sb
    (Or.inl rfl) sl sr (x := lsite) (y := rsite) (by rw [b1, a1]; exact hls)
    (by rw [b1, a1]; exact hrs)
  obtain ⟨rfl, rfl⟩ := hab rfl
  have hsite : sc.mps[k]? = some (Ptr.live r.svd_res.u) := by
    rw [c1, List.getElem?_set_ne (by omega), List.getElem?_set_self (by rw [b1, a1]; omega)]
  obtain ⟨nb, hnorm, n1, n2, n3, n4⟩ := @renorm_r_intro _ _ _ _ ops s.mps.length k g
    sc _ _ e0 hN hsize hk hsite
    (by rw [c2, b2, a2]; exact ho1) (by rw [c4, b4, a4]; exact he0) hmid
  obtain ⟨s1, hcommit, d1, d2, d3, d4⟩ := @commit_r_intro _ _ _ p s.mps.length (k : Int) g
    nb sc k (s.mps.length - k - 2) e0 tr s1' sbl sbr
    (by rw [c4, b4, a4]; exact he0) hne (fun _ => by rw [c5, b5]; exact a5)
    (fun h => by rw [c4, b4, a4, hll]; have := n2 h; omega)
    (fun hio h => by rw [c4, b4, a4]; exact htgt hio (n2 h))
  have hkey : (k : Int) + 1 = ((k + 1 : Nat) : Int) := by push_cast; rfl
  refine ⟨g, lsite, rsite, o1, o2, r, nb, s1, hg, gw, hls, hrs, ho1, ho2, hr.symm, ?_, ?_, ?_,
    n1, n2, n3, n4, ?_, ?_⟩
  · rw [twoSiteUpdate_eq_stepBody ops p _ _ s g hg]
    exact (stepBody_ok_iff ops p _ _ g 'r' s s1 _).mpr
      ⟨sa, r, sb, sc, nb, sc, hload, hsolve, hre, hnorm, hcommit, rfl⟩
  · rw [d1, c1, b1, a1]
  · rw [d2, c2, b2, a2]
  · intro hio
    obtain ⟨q0, hq0, e1, e2⟩ := d3 hio
    refine ⟨q0, hq0, fun h => ?_, fun t ht => ?_⟩
    · obtain ⟨f1, f2, f3⟩ := e1 h
      exact ⟨by rw [f1, c3, b3, a3], by rw [f2, c4, b4, a4], by rw [f3, c5, b5, a6 hio]⟩
    · obtain ⟨f1, f2, f3⟩ := e2 t ht
      exact ⟨by rw [f1, c3, b3, a3, hkey], by rw [f2, c4, b4, a4], by rw [f3, c5, b5, a6 hio]⟩
  · intro hio
    obtain ⟨f1, f2, f3, f4⟩ := d4 hio
    exact ⟨by rw [f1, c3, b3, a3], by rw [f2, c5, b5, a7 hio],
      fun h => by rw [f3 h, c4, b4, a4], fun t ht => by rw [f4 t ht, c4, b4, a4]⟩

theorem step_l_returns {T R Q LP : Type} (ops : TensorOps T R Q LP) (p : SweepParams R LP)
    (s : Store T) (N k : Nat) (tl tr : T) (e0 : Ptr T)
    (hN : 3 ≤ N) (hsize : N < 2 ^ 63) (hk1 : 1 ≤ k) (hk : k + 1 ≤ N)
    (hmps : s.mps.length = N) (hmpo : s.mpo.length = N)
    (lmps : allLive s.mps = true) (lmpo : allLive s.mpo = true)
    (hll : s.lblocks.length = N - 1) (hrl : s.rblocks.length = N - 1)
    (hfile : SweepParams.FileIO p = true →
      s.files.lookup (Side.l, ((k - 1 : Nat) : Int)) = some tl ∧ e0 = Ptr.live tl)
    (hres : SweepParams.FileIO p = false → s.lblocks[k - 1]? = some e0)
    (he3 : s.rblocks[N - k - 1]? = some (Ptr.live tr))
    (htgt : SweepParams.FileIO p = false → 1 < k → s.rblocks[N - k]? ≠ some Ptr.freed) :
    ∃ g lsite rsite o1 o2 r nb s1,
      geometry N (k : Int) p.EETargetBond 'l' = some g ∧ (k = 1 → g.where_ = "lend") ∧
      s.mps[k - 1]? = some (Ptr.live lsite) ∧ s.mps[k]? = some (Ptr.live rsite) ∧
      s.mpo[k - 1]? = some (Ptr.live o1) ∧ s.mpo[k]? = some (Ptr.live o2) ∧
      r = solved ops p g e0 (Ptr.live o1) (Ptr.live o2) (Ptr.live tr) lsite rsite ∧
      TwoSiteUpdate ops (k : Int) p 'l' s = Res.ok r.lancz_res.gs_eng s1 ∧
      s1.mps = (s.mps.set (k - 1)
        (Ptr.live (ops.Contract r.svd_res.u r.svd_res.s g.us_ctrct_axes))).set k
          (Ptr.live r.svd_res.v) ∧
      s1.mpo = s.mpo ∧
      (k = 1 → nb = none) ∧ (nb ≠ none → 1 < k) ∧
      (k + 1 = N → nb = some (rblockEnd ops r.svd_res.v o2)) ∧
      (1 < k → k + 1 < N → nb = some (rblockGrow ops tr r.svd_res.v o2)) ∧
      ( SweepParams.FileIO p = true →
        (nb = none → s1.files = s.files ∧ s1.rblocks = s.rblocks.set (N - k - 1) Ptr.freed ∧
          s1.lblocks = s.lblocks.set (k - 1) (Ptr.live tl)) ∧
        (∀ t, nb = some t → s1.files = ((Side.r, ((N - k : Nat) : Int)), t) :: s.files ∧
          s1.rblocks = (s.rblocks.set (N - k) (Ptr.live t)).set (N - k - 1) Ptr.freed ∧
          s1.lblocks = (s.lblocks.set (k - 1) (Ptr.live tl)).set (k - 1) Ptr.freed)) ∧
      ( SweepParams.FileIO p = false → s1.files = s.files ∧ s1.lblocks = s.lblocks ∧
        (nb = none → s1.rblocks = s.rblocks) ∧
        (∀ t, nb = some t → s1.rblocks = s.rblocks.set (N - k) (Ptr.live t))) := by
  subst hmps
  obtain ⟨g, hg, gl, gr, gbl, gbr, gw⟩ := geometry_l p.EETargetBond hk1 hk hsize
  obtain ⟨lsite, hls⟩ := allLive_getElem? lmps (k := k - 1) (by omega)
  obtain ⟨rsite, hrs⟩ := allLive_getElem? lmps (k := k) (by omega)
  obtain ⟨o1, ho1⟩ := allLive_getElem? lmpo (k := k - 1) (by omega)
  obtain ⟨o2, ho2⟩ := allLive_getElem? lmpo (k := k) (by omega)
  have hkk : k - 1 + 1 = k := by omega
  have hNk : s.mps.length - k - 1 + 1 = s.mps.length - k := by omega
  have sl : slot g.lsite_idx = k - 1 := by rw [gl, slot_natCast (by omega)]
  have sr : slot g.rsite_idx = k - 1 + 1 := by rw [gr, slot_natCast (by omega), hkk]
  have sbl : slot g.lblock_len = k - 1 := by rw [gbl, slot_natCast (by omega)]
  have sbr : slot g.rblock_len = s.mps.length - k - 1 := by rw [gbr, slot_natCast (by omega)]
  have hu : u64 ((s.mps.length : Int) - (k : Int)) = ((s.mps.length - k : Nat) : Int) := by
    rw [u64_of_lt] <;> omega
  have s1' : slot (u64 ((s.mps.length : Int) - (k : Int))) = s.mps.length - k - 1 + 1 := by
    rw [hu, slot_natCast (by omega), hNk]
  obtain ⟨sa, hload, a1, a2, a3, a4, a5, a6⟩ := @load_l_intro _ _ _ p g s _ tl sbl (by omega)
    (fun h => by rw [gbl]; exact (hfile h).1)
  have ha0 : sa.lblocks[k - 1]? = some e0 := by
    cases hio : SweepParams.FileIO p with
    | true => rw [a5 hio, List.getElem?_set_self (by omega), (hfile hio).2]
    | false => rw [a6 hio]; exact hres hio
  obtain ⟨sb, hsolve, b1, b2, b3, b4, b5⟩ := @solve_intro _ _ _ _ ops p g sa
    e0 (Ptr.live o1) (Ptr.live o2) (Ptr.live tr) lsite rsite
    (vecRead_of_getElem? sbl ha0)
    (vecRead_of_getElem? sl (by rw [a2]; exact ho1))
    (vecRead_of_getElem? sr (by rw [a2, hkk]; exact ho2))
    (vecRead_of_getElem? sbr (by rw [a4]; exact he3))
    (vecRead_of_getElem? sl (by rw [a1]; exact hls))
    (vecRead_of_getElem? sr (by rw [a1, hkk]; exact hrs))
  generalize hr : solved ops p g e0 (Ptr.live o1) (Ptr.live o2) (Ptr.live tr) lsite rsite = r
    at hsolve
  obtain ⟨sc, a, b, hre, _, hab, c1, c2, c3, c4, c5⟩ := reassemble_intro ops g 'l' r.svd_res sb
    (Or.inr rfl) sl sr (x := lsite) (y := rsite) (by rw [b1, a1]; exact hls)
    (by rw [b1, a1, hkk]; exact hrs)
  obtain ⟨rfl, rfl⟩ := hab rfl
  rw [hkk] at c1
  have hsite : sc.mps[k]? = some (Ptr.live r.svd_res.v) := by
    rw [c1, List.getElem?_set_self (by simp only [List.length_set]; rw [b1, a1]; omega)]
  obtain ⟨nb, hnorm, n1, n2, n3, n4⟩ := @renorm_l_intro _ _ _ _ ops s.mps.length k g sc
    _ _ (Ptr.live tr) _ hN hsize hk1 hk sbr hsite
    (by rw [c2, b2, a2]; exact ho2) (by rw [c5, b5, a4]; exact he3) (fun _ _ => ⟨tr, rfl⟩)
  obtain ⟨s1, hcommit, d1, d2, d3, d4⟩ := @commit_l_intro _ _ _ p s.mps.length (k : Int) g
    nb sc (k - 1) (s.mps.length - k - 1) tl (Ptr.live tr) s1' sbl sbr
    (by rw [c5, b5, a4]; exact he3) (by intro h; cases h)
    (fun hio => by rw [c4, b4, a5 hio, List.getElem?_set_self (by omega)])
    (fun h => by rw [c5, b5, a4, hrl]; have := n2 h; omega)
    (fun hio h => by rw [c5, b5, a4, hNk]; exact htgt hio (n2 h))
  refine ⟨g, lsite, rsite, o1, o2, r, nb, s1, hg, fun h => gw h hN, hls, hrs, ho1, ho2, hr.symm,
    ?_, ?_, ?_, n1, n2, n3, fun h1 h2 => n4 tr h1 h2 rfl, ?_, ?_⟩
  · rw [twoSiteUpdate_eq_stepBody ops p _ _ s g hg]
    exact (stepBody_ok_iff ops p _ _ g 'l' s s1 _).mpr
      ⟨sa, r, sb, sc, nb, sc, hload, hsolve, hre, hnorm, hcommit, rfl⟩
  · rw [d1, c1, b1, a1]
  · rw [d2, c2, b2, a2]
  · intro hio
    obtain ⟨q3, hq3, e1, e2⟩ := d3 hio
    cases hq3
    refine ⟨fun h => ?_, fun t ht => ?_⟩
    · obtain ⟨f1, f2, f3⟩ := e1 h
      exact ⟨by rw [f1, c3, b3, a3], by rw [f2, c5, b5, a4], by rw [f3, c4, b4, a5 hio]⟩
    · obtain ⟨f1, f2, f3⟩ := e2 t ht
      exact ⟨by rw [f1, c3, b3, a3, hu], by rw [f2, c5, b5, a4, hNk],
        by rw [f3, c4, b4, a5 hio]⟩
  · intro hio
    obtain ⟨f1, f2, f3, f4⟩ := d4 hio
    exact ⟨by rw [f1, c3, b3, a3], by rw [f2, c4, b4, a6 hio],
      fun h => by rw [f3 h, c5, b5, a4], fun t ht => by rw [f4 t ht, c5, b5, a4, hNk]⟩

/-! ## C5: a sweep with and without file I/O -/

theorem allLive_set {T : Type} {v : List (Ptr T)} (h : allLive v = true) (i : Nat) (x : T) :
    allLive (v.set i (Ptr.live x)) = true := by
  apply allLive_of_getElem?
  intro k hk
  rw [List.length_set] at hk
  by_cases hik : i = k
  · subst hik
    exact ⟨x, List.getElem?_set_self hk⟩
  · rw [List.getElem?_set_ne hik]
    exact allLive_getElem? h hk

theorem solved_sim {T R Q LP : Type} (ops : TensorOps T R Q LP) (p : SweepParams R LP)
    (hign : ∀ (b0 b1 o1 o2 b3 : Ptr T) (init : T) (lp : LP),
      ops.LanczosSolver [b0, o1, o2, b3] init lp "lend" =
        ops.LanczosSolver [b1, o1, o2, b3] init lp "lend")
    (g : Geometry) (e0a e0b e1 e2 e3 : Ptr T) (l r : T)
    (h : e0a = e0b ∨ g.where_ = "lend") :
    solved ops { p with FileIO := true } g e0a e1 e2 e3 l r =
      solved ops { p with FileIO := false } g e0b e1 e2 e3 l r := by
  rcases h with rfl | hw
  · rfl
  · unfold solved
    simp only [hw]
    rw [hign e0a e0b]

theorem getElem?_live_inj {T : Type} {v w : List (Ptr T)} {k : Nat} {x y : T} (hvw : v = w)
    (hx : v[k]? = some (Ptr.live x)) (hy : w[k]? = some (Ptr.live y)) : x = y := by
  subst hvw
  rw [hx] at hy
  cases hy
  rfl

theorem lookup_cons_ne {T : Type} {key k : Side × Int} (t : T) (fs : List ((Side × Int) × T))
    (h : key ≠ k) : List.lookup key ((k, t) :: fs) = List.lookup key fs := by
  rw [lookup_cons_eq, if_neg h]

theorem lookup_cons_self {T : Type} (k : Side × Int) (t : T) (fs : List ((Side × Int) × T)) :
    List.lookup k ((k, t) :: fs) = some t := by
  rw [lookup_cons_eq, if_pos rfl]

theorem sim_forward_next {T : Type} (N k : Nat) (hN : 3 ≤ N) (hk : k + 2 < N)
    (a b a1 b1 : Store T) (h : SimForward N k a b) (t u v : T) (q0 : Ptr T)
    (amps : a1.mps = (a.mps.set k (Ptr.live u)).set (k + 1) (Ptr.live v))
    (bmps : b1.mps = (b.mps.set k (Ptr.live u)).set (k + 1) (Ptr.live v))
    (ampo : a1.mpo = a.mpo) (bmpo : b1.mpo = b.mpo)
    (af : a1.files = ((Side.l, ((k + 1 : Nat) : Int)), t) :: a.files)
    (alb : a1.lblocks = (a.lblocks.set (k + 1) (Ptr.live t)).set k q0)
    (arl1 : a1.rblocks.length = a.rblocks.length)
    (brb : b1.rblocks = b.rblocks)
    (blb : b1.lblocks = b.lblocks.set (k + 1) (Ptr.live t)) :
    SimForward N (k + 1) a1 b1 := by
  obtain ⟨⟨m1, m2, hbl, hbo, lb, lo, all, arl, bll, brl, bnl, bnr, hl0⟩, f0, fk, fr, fl⟩ := h
  have hne : ∀ j : Nat, (Side.r, (j : Int)) ≠ (Side.l, ((k + 1 : Nat) : Int)) := by
    intro j hc; cases hc
  have hne2 : ∀ j : Nat, j ≠ k + 1 → (Side.l, (j : Int)) ≠ (Side.l, ((k + 1 : Nat) : Int)) := by
    intro j hj hc
    have := (Prod.mk.inj hc).2
    omega
  refine ⟨⟨?_, ?_, ?_, ?_, ?_, ?_, ?_, ?_, ?_, ?_, ?_, ?_, ?_⟩, ?_, ?_, ?_, ?_⟩
  · rw [amps, bmps, m1]
  · rw [ampo, bmpo, m2]
  · rw [bmps, List.length_set, List.length_set]; exact hbl
  · rw [bmpo]; exact hbo
  · rw [bmps]; exact allLive_set (allLive_set lb _ _) _ _
  · rw [bmpo]; exact lo
  · rw [alb, List.length_set, List.length_set]; exact all
  · rw [arl1]; exact arl
  · rw [blb, List.length_set]; exact bll
  · rw [brb]; exact brl
  · intro j
    rw [blb]
    by_cases hj : k + 1 = j
    · subst hj
      rw [List.getElem?_set_self (by rw [bll]; omega)]
      intro hc; cases hc
    · rw [List.getElem?_set_ne hj]
      exact bnl j
  · rw [brb]; exact bnr
  · obtain ⟨t0, ht0⟩ := hl0
    refine ⟨t0, ?_⟩
    have h0 : (Side.l, (0 : Int)) ≠ (Side.l, ((k + 1 : Nat) : Int)) := by
      intro hc
      have := (Prod.mk.inj hc).2
      omega
    rw [af, lookup_cons_ne _ _ h0]
    exact ht0
  · intro hc
    exact absurd hc (Nat.succ_ne_zero k)
  · intro _
    refine ⟨t, ?_, ?_⟩
    · rw [alb, List.getElem?_set_ne (Nat.ne_of_lt (Nat.lt_succ_self k)),
        List.getElem?_set_self (by rw [all]; omega)]
    · rw [blb, List.getElem?_set_self (by rw [bll]; omega)]
  · intro j hj
    obtain ⟨x, hx1, hx2⟩ := fr j (by omega)
    refine ⟨x, by rw [brb]; exact hx1, ?_⟩
    rw [af, lookup_cons_ne _ _ (hne j)]
    exact hx2
  · intro j hj1 hj2
    by_cases h3 : j = k + 1
    · subst h3
      refine ⟨t, by rw [blb, List.getElem?_set_self (by rw [bll]; omega)], ?_⟩
      rw [af, lookup_cons_self]
    · obtain ⟨x, hx1, hx2⟩ := fl j hj1 (by omega)
      refine ⟨x, by rw [blb, List.getElem?_set_ne (Ne.symm h3)]; exact hx1, ?_⟩
      rw [af, lookup_cons_ne _ _ (hne2 j h3)]
      exact hx2

theorem sim_forward_last {T : Type} (N k : Nat) (hN : 3 ≤ N) (hk : k + 2 = N)
    (a b a1 b1 : Store T) (h : SimForward N k a b) (tr u v : T) (q0 : Ptr T)
    (hbr : b.rblocks[N - k - 2]? = some (Ptr.live tr))
    (amps : a1.mps = (a.mps.set k (Ptr.live u)).set (k + 1) (Ptr.live v))
    (bmps : b1.mps = (b.mps.set k (Ptr.live u)).set (k + 1) (Ptr.live v))
    (ampo : a1.mpo = a.mpo) (bmpo : b1.mpo = b.mpo)
    (af : a1.files = a.files) (alb : a1.lblocks = a.lblocks.set k q0)
    (arb : a1.rblocks = a.rblocks.set (N - k - 2) (Ptr.live tr))
    (brb : b1.rblocks = b.rblocks) (blb : b1.lblocks = b.lblocks) :
    SimBackward N (N - 1) a1 b1 := by
  obtain ⟨⟨m1, m2, hbl, hbo, lb, lo, all, arl, bll, brl, bnl, bnr, hl0⟩, f0, fk, fr, fl⟩ := h
  have hz : N - (N - 1) - 1 = 0 := by omega
  have hz2 : N - k - 2 = 0 := by omega
  rw [hz2] at hbr arb
  refine ⟨⟨?_, ?_, ?_, ?_, ?_, ?_, ?_, ?_, ?_, ?_, ?_, ?_, ?_⟩, ⟨tr, ?_, ?_⟩, ?_, ?_⟩
  · rw [amps, bmps, m1]
  · rw [ampo, bmpo, m2]
  · rw [bmps, List.length_set, List.length_set]; exact hbl
  · rw [bmpo]; exact hbo
  · rw [bmps]; exact allLive_set (allLive_set lb _ _) _ _
  · rw [bmpo]; exact lo
  · rw [alb, List.length_set]; exact all
  · rw [arb, List.length_set]; exact arl
  · rw [blb]; exact bll
  · rw [brb]; exact brl
  · rw [blb]; exact bnl
  · rw [brb]; exact bnr
  · rw [af]; exact hl0
  · rw [hz, arb, List.getElem?_set_self (by rw [arl]; omega)]
  · rw [hz, brb]; exact hbr
  · intro j hj1 hj2
    obtain ⟨x, hx1, hx2⟩ := fl j hj1 (by omega)
    exact ⟨x, by rw [blb]; exact hx1, by rw [af]; exact hx2⟩
  · intro j hj
    obtain ⟨x, hx1, hx2⟩ := fr j (by omega)
    exact ⟨x, by rw [brb]; exact hx1, by rw [af]; exact hx2⟩

theorem sim_forward_step {T R Q LP : Type} (ops : TensorOps T R Q LP) (p : SweepParams R LP)
    (hign : ∀ (b0 b1 o1 o2 b3 : Ptr T) (init : T) (lp : LP),
      ops.LanczosSolver [b0, o1, o2, b3] init lp "lend" =
        ops.LanczosSolver [b1, o1, o2, b3] init lp "lend")
    (N k : Nat) (hN : 3 ≤ N) (hsize : N < 2 ^ 63) (hk : k + 2 ≤ N) (a b : Store T)
    (h : SimForward N k a b) :
    ∃ e a1 b1, TwoSiteUpdate ops (k : Int) { p with FileIO := true } 'r' a = Res.ok e a1 ∧
      TwoSiteUpdate ops (k : Int) { p with FileIO := false } 'r' b = Res.ok e b1 ∧
      (k + 2 < N → SimForward N (k + 1) a1 b1) ∧
      (k + 2 = N → SimBackward N (N - 1) a1 b1) := by
  have h' := h
  obtain ⟨⟨m1, m2, hbl, hbo, lb, lo, all, arl, bll, brl, bnl, bnr, hl0⟩, f0, fk, fr, fl⟩ := h'
  obtain ⟨tr, hbr, hfr⟩ := fr (N - k - 2) (by omega)
  obtain ⟨e0a, e0b, ha0, hane, hb0, hbne, hmid⟩ : ∃ e0a e0b, a.lblocks[k]? = some e0a ∧
      e0a ≠ Ptr.freed ∧ b.lblocks[k]? = some e0b ∧ e0b ≠ Ptr.freed ∧
      (0 < k → ∃ tl, e0a = Ptr.live tl ∧ e0b = Ptr.live tl) := by
    rcases Nat.eq_zero_or_pos k with h0 | h0
    · subst h0
      have ha : a.lblocks[0]? = some a.lblocks[0] := List.getElem?_eq_getElem (by omega)
      have hb : b.lblocks[0]? = some b.lblocks[0] := List.getElem?_eq_getElem (by omega)
      refine ⟨_, _, ha, ?_, hb, ?_, fun h => absurd h (by omega)⟩
      · intro hc; rw [hc] at ha; exact f0 rfl ha
      · intro hc; rw [hc] at hb; exact bnl 0 hb
    · obtain ⟨tl, h1, h2⟩ := fk h0
      exact ⟨_, _, h1, (by intro hc; cases hc), h2, (by intro hc; cases hc),
        fun _ => ⟨tl, rfl, rfl⟩⟩
  obtain ⟨ga, lsa, rsa, o1a, o2a, ra, nba, a1, hga, gwa, A1, A2, A3, A4, hra, hruna, a1mps,
      a1mpo, na1, na2, na3, na4, aio, _⟩ :=
    step_r_returns ops { p with FileIO := true } a N k tr e0a hN hsize hk
      (by rw [m1]; exact hbl) (by rw [m2]; exact hbo) (by rw [m1]; exact lb)
      (by rw [m2]; exact lo) all arl (fun _ => hfr) (fun h => Bool.noConfusion h) ha0 hane
      (fun h => (hmid h).imp fun tl h => h.1) (fun h => Bool.noConfusion h)
  obtain ⟨gb, lsb, rsb, o1b, o2b, rb, nbb, b1, hgb, _, B1, B2, B3, B4, hrb, hrunb, b1mps,
      b1mpo, nb1, nb2, nb3, nb4, _, bio⟩ :=
    step_r_returns ops { p with FileIO := false } b N k tr e0b hN hsize hk
      hbl hbo lb lo bll brl (fun h => Bool.noConfusion h) (fun _ => hbr) hb0 hbne
      (fun h => (hmid h).imp fun tl h => h.2) (fun _ _ => bnl (k + 1))
  have hg : ga = gb := Option.some.inj (hga.symm.trans hgb)
  have e1 : lsa = lsb := getElem?_live_inj m1 A1 B1
  have e2 : rsa = rsb := getElem?_live_inj m1 A2 B2
  have e3 : o1a = o1b := getElem?_live_inj m2 A3 B3
  have e4 : o2a = o2b := getElem?_live_inj m2 A4 B4
  have hr : ra = rb := by
    rw [hra, hrb, hg, e1, e2, e3, e4]
    apply solved_sim ops p hign
    rcases Nat.eq_zero_or_pos k with h0 | h0
    · exact Or.inr (hg ▸ gwa h0)
    · obtain ⟨tl, h1, h2⟩ := hmid h0
      exact Or.inl (h1.trans h2.symm)
  have hnb : nba = nbb := by
    rcases Nat.eq_zero_or_pos k with h0 | h0
    · rw [na3 h0, nb3 h0, hr, e3]
    · rcases Nat.eq_or_lt_of_le hk with h2 | h2
      · rw [na1 h2, nb1 h2]
      · obtain ⟨tl, h1, h3⟩ := hmid h0
        rw [na4 tl h0 h2 h1, nb4 tl h0 h2 h3, hr, e3]
  have hsome : k + 2 < N → ∃ t, nbb = some t := by
    intro h2
    rcases Nat.eq_zero_or_pos k with h0 | h0
    · exact ⟨_, nb3 h0⟩
    · obtain ⟨tl, _, h1⟩ := hmid h0
      exact ⟨_, nb4 tl h0 h2 h1⟩
  obtain ⟨q0, _, an, as⟩ := aio rfl
  obtain ⟨bf, brb, bn, bs⟩ := bio rfl
  rw [hr] at a1mps hruna
  clear hra hrb na3 na4 nb3 nb4 aio bio A1 A2 A3 A4 B1 B2 B3 B4 hga hgb gwa
  refine ⟨_, a1, b1, hruna, hrunb, fun h2 => ?_, fun h2 => ?_⟩
  · obtain ⟨t, ht⟩ := hsome h2
    obtain ⟨af, alb, arb⟩ := as t (hnb.trans ht)
    exact sim_forward_next N k hN h2 a b a1 b1 h t _ _ q0 a1mps b1mps a1mpo b1mpo af alb
      (by rw [arb, List.length_set, List.length_set]) brb (bs t ht)
  · obtain ⟨af, alb, arb⟩ := an (na1 h2)
    exact sim_forward_last N k hN h2 a b a1 b1 h tr _ _ q0 hbr a1mps b1mps a1mpo b1mpo af alb
      arb brb (bn (nb1 h2))

theorem sim_backward_prev {T : Type} (N k : Nat) (hk2 : 2 ≤ k) (hk : k + 1 ≤ N)
    (a b a1 b1 : Store T) (h : SimBackward N k a b) (t u v : T)
    (amps : a1.mps = (a.mps.set (k - 1) (Ptr.live u)).set k (Ptr.live v))
    (bmps : b1.mps = (b.mps.set (k - 1) (Ptr.live u)).set k (Ptr.live v))
    (ampo : a1.mpo = a.mpo) (bmpo : b1.mpo = b.mpo)
    (af : a1.files = ((Side.r, ((N - k : Nat) : Int)), t) :: a.files)
    (arb : a1.rblocks = (a.rblocks.set (N - k) (Ptr.live t)).set (N - k - 1) Ptr.freed)
    (all1 : a1.lblocks.length = a.lblocks.length)
    (blb : b1.lblocks = b.lblocks)
    (brb : b1.rblocks = b.rblocks.set (N - k) (Ptr.live t)) :
    SimBackward N (k - 1) a1 b1 := by
  obtain ⟨⟨m1, m2, hbl, hbo, lb, lo, all, arl, bll, brl, bnl, bnr, hl0⟩, fk, fl, fr⟩ := h
  have hne : ∀ j : Nat, (Side.l, (j : Int)) ≠ (Side.r, ((N - k : Nat) : Int)) := by
    intro j hc; cases hc
  have hne2 : ∀ j : Nat, j ≠ N - k → (Side.r, (j : Int)) ≠ (Side.r, ((N - k : Nat) : Int)) := by
    intro j hj hc
    have := (Prod.mk.inj hc).2
    omega
  have hidx : N - (k - 1) - 1 = N - k := by omega
  refine ⟨⟨?_, ?_, ?_, ?_, ?_, ?_, ?_, ?_, ?_, ?_, ?_, ?_, ?_⟩, ⟨t, ?_, ?_⟩, ?_, ?_⟩
  · rw [amps, bmps, m1]
  · rw [ampo, bmpo, m2]
  · rw [bmps, List.length_set, List.length_set]; exact hbl
  · rw [bmpo]; exact hbo
  · rw [bmps]; exact allLive_set (allLive_set lb _ _) _ _
  · rw [bmpo]; exact lo
  · rw [all1]; exact all
  · rw [arb, List.length_set, List.length_set]; exact arl
  · rw [blb]; exact bll
  · rw [brb, List.length_set]; exact brl
  · rw [blb]; exact bnl
  · intro j
    rw [brb]
    by_cases hj : N - k = j
    · subst hj
      rw [List.getElem?_set_self (by rw [brl]; omega)]
      intro hc; cases hc
    · rw [List.getElem?_set_ne hj]
      exact bnr j
  · obtain ⟨t0, ht0⟩ := hl0
    refine ⟨t0, ?_⟩
    have h0 : (Side.l, (0 : Int)) ≠ (Side.r, ((N - k : Nat) : Int)) := by
      intro hc; cases hc
    rw [af, lookup_cons_ne _ _ h0]
    exact ht0
  · rw [hidx, arb, List.getElem?_set_ne (by omega), List.getElem?_set_self (by rw [arl]; omega)]
  · rw [hidx, brb, List.getElem?_set_self (by rw [brl]; omega)]
  · intro j hj1 hj2
    obtain ⟨x, hx1, hx2⟩ := fl j hj1 (by omega)
    refine ⟨x, by rw [blb]; exact hx1, ?_⟩
    rw [af, lookup_cons_ne _ _ (hne j)]
    exact hx2
  · intro j hj
    by_cases h3 : j = N - k
    · subst h3
      refine ⟨t, by rw [brb, List.getElem?_set_self (by rw [brl]; omega)], ?_⟩
      rw [af, lookup_cons_self]
    · obtain ⟨x, hx1, hx2⟩ := fr j (by omega)
      refine ⟨x, by rw [brb, List.getElem?_set_ne (Ne.symm h3)]; exact hx1, ?_⟩
      rw [af, lookup_cons_ne _ _ (hne2 j h3)]
      exact hx2

theorem sim_backward_last {T : Type} (N : Nat) (hN : 3 ≤ N)
    (a b a1 b1 : Store T) (h : SimBackward N 1 a b) (tl u v : T)
    (amps : a1.mps = (a.mps.set (1 - 1) (Ptr.live u)).set 1 (Ptr.live v))
    (bmps : b1.mps = (b.mps.set (1 - 1) (Ptr.live u)).set 1 (Ptr.live v))
    (ampo : a1.mpo = a.mpo) (bmpo : b1.mpo = b.mpo)
    (af : a1.files = a.files)
    (arb : a1.rblocks = a.rblocks.set (N - 1 - 1) Ptr.freed)
    (alb : a1.lblocks = a.lblocks.set (1 - 1) (Ptr.live tl))
    (blb : b1.lblocks = b.lblocks) (brb : b1.rblocks = b.rblocks) :
    SimForward N 0 a1 b1 := by
  obtain ⟨⟨m1, m2, hbl, hbo, lb, lo, all, arl, bll, brl, bnl, bnr, hl0⟩, fk, fl, fr⟩ := h
  refine ⟨⟨?_, ?_, ?_, ?_, ?_, ?_, ?_, ?_, ?_, ?_, ?_, ?_, ?_⟩, ?_, ?_, ?_, ?_⟩
  · rw [amps, bmps, m1]
  · rw [ampo, bmpo, m2]
  · rw [bmps, List.length_set, List.length_set]; exact hbl
  · rw [bmpo]; exact hbo
  · rw [bmps]; exact allLive_set (allLive_set lb _ _) _ _
  · rw [bmpo]; exact lo
  · rw [alb, List.length_set]; exact all
  · rw [arb, List.length_set]; exact arl
  · rw [blb]; exact bll
  · rw [brb]; exact brl
  · rw [blb]; exact bnl
  · rw [brb]; exact bnr
  · rw [af]; exact hl0
  · intro _
    rw [alb, List.getElem?_set_self (by rw [all]; omega)]
    intro hc; cases hc
  · intro hc; exact absurd hc (Nat.lt_irrefl 0)
  · intro j hj
    obtain ⟨x, hx1, hx2⟩ := fr j (by omega)
    exact ⟨x, by rw [brb]; exact hx1, by rw [af]; exact hx2⟩
  · intro j hj1 hj2
    omega

theorem sim_backward_step {T R Q LP : Type} (ops : TensorOps T R Q LP) (p : SweepParams R LP)
    (hign : ∀ (b0 b1 o1 o2 b3 : Ptr T) (init : T) (lp : LP),
      ops.LanczosSolver [b0, o1, o2, b3] init lp "lend" =
        ops.LanczosSolver [b1, o1, o2, b3] init lp "lend")
    (N k : Nat) (hN : 3 ≤ N) (hsize : N < 2 ^ 63) (hk1 : 1 ≤ k) (hk : k + 1 ≤ N)
    (a b : Store T) (h : SimBackward N k a b) :
    ∃ e a1 b1, TwoSiteUpdate ops (k : Int) { p with FileIO := true } 'l' a = Res.ok e a1 ∧
      TwoSiteUpdate ops (k : Int) { p with FileIO := false } 'l' b = Res.ok e b1 ∧
      (1 < k → SimBackward N (k - 1) a1 b1) ∧
      (k = 1 → SimForward N 0 a1 b1) := by
  have h' := h
  obtain ⟨⟨m1, m2, hbl, hbo, lb, lo, all, arl, bll, brl, bnl, bnr, hl0⟩, fk, fl, fr⟩ := h'
  obtain ⟨tr, har, hbr⟩ := fk
  obtain ⟨tl, e0b, hfl, hb0, hmid⟩ : ∃ tl e0b,
      a.files.lookup (Side.l, ((k - 1 : Nat) : Int)) = some tl ∧ b.lblocks[k - 1]? = some e0b ∧
      (1 < k → e0b = Ptr.live tl) := by
    rcases Nat.eq_or_lt_of_le hk1 with h1 | h1
    · subst h1
      obtain ⟨t0, ht0⟩ := hl0
      exact ⟨t0, _, ht0, List.getElem?_eq_getElem (by omega), fun h => absurd h (by omega)⟩
    · obtain ⟨x, hx1, hx2⟩ := fl (k - 1) (by omega) (by omega)
      exact ⟨x, _, hx2, hx1, fun _ => rfl⟩
  obtain ⟨ga, lsa, rsa, o1a, o2a, ra, nba, a1, hga, gwa, A1, A2, A3, A4, hra, hruna, a1mps,
      a1mpo, na1, na2, na3, na4, aio, _⟩ :=
    step_l_returns ops { p with FileIO := true } a N k tl tr (Ptr.live tl) hN hsize hk1 hk
      (by rw [m1]; exact hbl) (by rw [m2]; exact hbo) (by rw [m1]; exact lb)
      (by rw [m2]; exact lo) all arl (fun _ => ⟨hfl, rfl⟩) (fun h => Bool.noConfusion h) har
      (fun h => Bool.noConfusion h)
  obtain ⟨gb, lsb, rsb, o1b, o2b, rb, nbb, b1, hgb, _, B1, B2, B3, B4, hrb, hrunb, b1mps,
      b1mpo, nb1, nb2, nb3, nb4, _, bio⟩ :=
    step_l_returns ops { p with FileIO := false } b N k tl tr e0b hN hsize hk1 hk
      hbl hbo lb lo bll brl (fun h => Bool.noConfusion h) (fun _ => hb0) hbr
      (fun _ _ => bnr (N - k))
  have hg : ga = gb := Option.some.inj (hga.symm.trans hgb)
  have e1 : lsa = lsb := getElem?_live_inj m1 A1 B1
  have e2 : rsa = rsb := getElem?_live_inj m1 A2 B2
  have e3 : o1a = o1b := getElem?_live_inj m2 A3 B3
  have e4 : o2a = o2b := getElem?_live_inj m2 A4 B4
  have hr : ra = rb := by
    rw [hra, hrb, hg, e1, e2, e3, e4]
    apply solved_sim ops p hign
    rcases Nat.eq_or_lt_of_le hk1 with h1 | h1
    · exact Or.inr (hg ▸ gwa h1.symm)
    · exact Or.inl (hmid h1).symm
  have hnb : nba = nbb := by
    rcases Nat.eq_or_lt_of_le hk1 with h1 | h1
    · rw [na1 h1.symm, nb1 h1.symm]
    · rcases Nat.eq_or_lt_of_le hk with h2 | h2
      · rw [na3 h2, nb3 h2, hr, e4]
      · rw [na4 h1 h2, nb4 h1 h2, hr, e4]
  have hsome : 1 < k → ∃ t, nbb = some t := by
    intro h1
    rcases Nat.eq_or_lt_of_le hk with h2 | h2
    · exact ⟨_, nb3 h2⟩
    · exact ⟨_, nb4 h1 h2⟩
  obtain ⟨an, as⟩ := aio rfl
  obtain ⟨bf, blb, bn, bs⟩ := bio rfl
  rw [hr] at a1mps hruna
  rw [hg] at a1mps
  clear hra hrb na3 na4 nb3 nb4 aio bio A1 A2 A3 A4 B1 B2 B3 B4 hga hgb gwa
  refine ⟨_, a1, b1, hruna, hrunb, fun h2 => ?_, fun h2 => ?_⟩
  · obtain ⟨t, ht⟩ := hsome h2
    obtain ⟨af, arb, alb⟩ := as t (hnb.trans ht)
    exact sim_backward_prev N k h2 hk a b a1 b1 h t _ _ a1mps b1mps a1mpo b1mpo af arb
      (by rw [alb, List.length_set, List.length_set]) blb (bs t ht)
  · subst h2
    obtain ⟨af, arb, alb⟩ := an (na1 rfl)
    exact sim_backward_last N hN a b a1 b1 h tl _ _ a1mps b1mps a1mpo b1mpo af arb alb blb
      (bn (nb1 rfl))

theorem fl_one {σ R : Type} (update : Int → Char → M σ R) (i : Nat) (e0 : Option R) (a a1 : σ)
    (e : R) (hi : i64 (i : Int) = (i : Int)) (h : update (i : Int) 'r' a = Res.ok e a1) :
    forwardLoop update (0 + 1) i e0 a = Res.ok (some e) a1 := by
  simp only [forwardLoop, hi, M.bind, h, M.pure]

theorem fl_succ {σ R : Type} (update : Int → Char → M σ R) (cnt i : Nat) (e0 : Option R)
    (a a1 : σ) (e : R) (hi : i64 (i : Int) = (i : Int))
    (h : update (i : Int) 'r' a = Res.ok e a1) :
    forwardLoop update (cnt + 1) i e0 a = forwardLoop update cnt (i + 1) (some e) a1 := by
  rw [forwardLoop]
  simp only [hi, M.bind, h]

theorem bl_succ {σ R : Type} (update : Int → Char → M σ R) (k : Nat) (e0 : Option R)
    (a a1 : σ) (e : R) (hi : i64 ((k + 1 : Nat) : Int) = ((k + 1 : Nat) : Int))
    (h : update ((k + 1 : Nat) : Int) 'l' a = Res.ok e a1) :
    backwardLoop update (k + 1) e0 a = backwardLoop update k (some e) a1 := by
  rw [backwardLoop]
  simp only [hi, M.bind, h]

theorem fl_zero {σ R : Type} (update : Int → Char → M σ R) (i : Nat) (e0 : Option R) (a : σ) :
    forwardLoop update 0 i e0 a = Res.ok e0 a := rfl

theorem bl_zero {σ R : Type} (update : Int → Char → M σ R) (e0 : Option R) (a : σ) :
    backwardLoop update 0 e0 a = Res.ok e0 a := rfl

theorem sim_forward_loop {T R Q LP : Type} (ops : TensorOps T R Q LP) (p : SweepParams R LP)
    (hign : ∀ (b0 b1 o1 o2 b3 : Ptr T) (init : T) (lp : LP),
      ops.LanczosSolver [b0, o1, o2, b3] init lp "lend" =
        ops.LanczosSolver [b1, o1, o2, b3] init lp "lend")
    (N : Nat) (hN : 3 ≤ N) (hsize : N < 2 ^ 63) (cnt : Nat) :
    ∀ (i : Nat) (a b : Store T) (e0 : Option R), i + cnt + 2 = N → SimForward N i a b →
      ∃ e a1 b1,
        forwardLoop (fun j dir => TwoSiteUpdate ops j { p with FileIO := true } dir)
          (cnt + 1) i e0 a = Res.ok (some e) a1 ∧
        forwardLoop (fun j dir => TwoSiteUpdate ops j { p with FileIO := false } dir)
          (cnt + 1) i e0 b = Res.ok (some e) b1 ∧
        SimBackward N (N - 1) a1 b1 := by
  induction cnt with
  | zero =>
    intro i a b e0 hi h
    have hi2 : i + 2 ≤ N := by omega
    have hi3 : i + 2 = N := by omega
    have hi64 : i64 (i : Int) = (i : Int) := i64_of_lt (by omega) (by omega)
    obtain ⟨e, a1, b1, ha, hb, _, hlast⟩ := sim_forward_step ops p hign N i hN hsize hi2 a b h
    exact ⟨e, a1, b1, fl_one _ i e0 a a1 e hi64 ha, fl_one _ i e0 b b1 e hi64 hb, hlast hi3⟩
  | succ cnt ih =>
    intro i a b e0 hi h
    have hi2 : i + 2 ≤ N := by omega
    have hi3 : i + 2 < N := by omega
    have hi4 : i + 1 + cnt + 2 = N := by omega
    have hi64 : i64 (i : Int) = (i : Int) := i64_of_lt (by omega) (by omega)
    obtain ⟨e, a1, b1, ha, hb, hnext, _⟩ := sim_forward_step ops p hign N i hN hsize hi2 a b h
    obtain ⟨e2, a2, b2, ha2, hb2, hs⟩ := ih (i + 1) a1 b1 (some e) hi4 (hnext hi3)
    exact ⟨e2, a2, b2, (fl_succ _ (cnt + 1) i e0 a a1 e hi64 ha).trans ha2,
      (fl_succ _ (cnt + 1) i e0 b b1 e hi64 hb).trans hb2, hs⟩

theorem sim_backward_loop {T R Q LP : Type} (ops : TensorOps T R Q LP) (p : SweepParams R LP)
    (hign : ∀ (b0 b1 o1 o2 b3 : Ptr T) (init : T) (lp : LP),
      ops.LanczosSolver [b0, o1, o2, b3] init lp "lend" =
        ops.LanczosSolver [b1, o1, o2, b3] init lp "lend")
    (N : Nat) (hN : 3 ≤ N) (hsize : N < 2 ^ 63) (k : Nat) :
    ∀ (a b : Store T) (e0 : Option R), k + 2 ≤ N → SimBackward N (k + 1) a b →
      ∃ e a1 b1,
        backwardLoop (fun j dir => TwoSiteUpdate ops j { p with FileIO := true } dir)
          (k + 1) e0 a = Res.ok (some e) a1 ∧
        backwardLoop (fun j dir => TwoSiteUpdate ops j { p with FileIO := false } dir)
          (k + 1) e0 b = Res.ok (some e) b1 ∧
        SimForward N 0 a1 b1 := by
  induction k with
  | zero =>
    intro a b e0 hk h
    have hi64 : i64 (((0 + 1 : Nat)) : Int) = ((0 + 1 : Nat) : Int) :=
      i64_of_lt (by omega) (by omega)
    obtain ⟨e, a1, b1, ha, hb, _, hlast⟩ :=
      sim_backward_step ops p hign N (0 + 1) hN hsize (Nat.le_refl _) hk a b h
    exact ⟨e, a1, b1, (bl_succ _ 0 e0 a a1 e hi64 ha).trans (bl_zero _ _ _),
      (bl_succ _ 0 e0 b b1 e hi64 hb).trans (bl_zero _ _ _), hlast rfl⟩
  | succ k ih =>
    intro a b e0 hk h
    have hk1 : 1 ≤ k + 1 + 1 := by omega
    have hk2 : k + 1 + 1 + 1 ≤ N := by omega
    have hk3 : 1 < k + 1 + 1 := by omega
    have hk4 : k + 2 ≤ N := by omega
    have hi64 : i64 (((k + 1 + 1 : Nat)) : Int) = ((k + 1 + 1 : Nat) : Int) :=
      i64_of_lt (by omega) (by omega)
    obtain ⟨e, a1, b1, ha, hb, hnext, _⟩ :=
      sim_backward_step ops p hign N (k + 1 + 1) hN hsize hk1 hk2 a b h
    obtain ⟨e2, a2, b2, ha2, hb2, hs⟩ := ih a1 b1 (some e) hk4 (hnext hk3)
    exact ⟨e2, a2, b2, (bl_succ _ (k + 1) e0 a a1 e hi64 ha).trans ha2,
      (bl_succ _ (k + 1) e0 b b1 e hi64 hb).trans hb2, hs⟩

theorem sweepLoops_ok {σ R : Type} (update : Int → Char → M σ R) (N m : Nat)
    (hslot : slot ((N : Int) - 1) = m) (a a1 a2 : σ) (e : Option R) (e2 : Option R)
    (h1 : forwardLoop update m 0 none a = Res.ok e a1)
    (h2 : backwardLoop update m e a1 = Res.ok e2 a2) :
    sweepLoops update N a = Res.ok e2 a2 := by
  unfold sweepLoops
  rw [hslot]
  simp only [M.bind, h1]
  exact h2

theorem sim_sweep {T R Q LP : Type} (ops : TensorOps T R Q LP) (p : SweepParams R LP)
    (hign : ∀ (b0 b1 o1 o2 b3 : Ptr T) (init : T) (lp : LP),
      ops.LanczosSolver [b0, o1, o2, b3] init lp "lend" =
        ops.LanczosSolver [b1, o1, o2, b3] init lp "lend")
    (N : Nat) (hN : 3 ≤ N) (hsize : N < 2 ^ 63) (a b : Store T) (h : SimForward N 0 a b) :
    ∃ e a1 b1, TwoSiteSweep ops { p with FileIO := true } a = Res.ok (some e) a1 ∧
      TwoSiteSweep ops { p with FileIO := false } b = Res.ok (some e) b1 ∧
      SimForward N 0 a1 b1 := by
  have hb : b.mps.length = N := h.1.2.2.1
  have ha : a.mps.length = N := by rw [h.1.1]; exact hb
  have hslot : slot ((N : Int) - 1) = (N - 2) + 1 := by
    have h1 : ((N : Int) - 1) = ((N - 1 : Nat) : Int) := by omega
    rw [h1, slot_natCast (by omega)]
    omega
  have h0 : 0 + (N - 2) + 2 = N := by omega
  have h2 : N - 2 + 2 ≤ N := by omega
  have h3 : N - 2 + 1 = N - 1 := by omega
  obtain ⟨e, a1, b1, f1, f2, hs⟩ :=
    sim_forward_loop ops p hign N hN hsize (N - 2) 0 a b none h0 h
  rw [← h3] at hs
  obtain ⟨e2, a2, b2, g1, g2, hs2⟩ :=
    sim_backward_loop ops p hign N hN hsize (N - 2) a1 b1 (some e) h2 hs
  refine ⟨e2, a2, b2, ?_, ?_, hs2⟩
  · show sweepLoops _ a.mps.length a = _
    rw [ha]
    exact sweepLoops_ok _ N _ hslot a a1 a2 _ _ f1 g1
  · show sweepLoops _ b.mps.length b = _
    rw [hb]
    exact sweepLoops_ok _ N _ hslot b b1 b2 _ _ f2 g2

theorem rchain_unique {T R Q LP : Type} (ops : TensorOps T R Q LP) (N : Nat)
    (mps mpo rb rc : List (Ptr T))
    (b0 : rb[0]? = some (Ptr.live ops.GQTensor)) (c0 : rc[0]? = some (Ptr.live ops.GQTensor))
    (b1 : ∃ m o, mps[N - 1]? = some (Ptr.live m) ∧ mpo[N - 1]? = some (Ptr.live o) ∧
        rb[1]? = some (Ptr.live (rblockEnd ops m o)))
    (c1 : ∃ m o, mps[N - 1]? = some (Ptr.live m) ∧ mpo[N - 1]? = some (Ptr.live o) ∧
        rc[1]? = some (Ptr.live (rblockEnd ops m o)))
    (b2 : ∀ l, 2 ≤ l → l < N - 1 → ∃ b m o, rb[l - 1]? = some (Ptr.live b) ∧
        mps[N - l]? = some (Ptr.live m) ∧ mpo[N - l]? = some (Ptr.live o) ∧
        rb[l]? = some (Ptr.live (rblockGrow ops b m o)))
    (c2 : ∀ l, 2 ≤ l → l < N - 1 → ∃ b m o, rc[l - 1]? = some (Ptr.live b) ∧
        mps[N - l]? = some (Ptr.live m) ∧ mpo[N - l]? = some (Ptr.live o) ∧
        rc[l]? = some (Ptr.live (rblockGrow ops b m o))) :
    ∀ l, l < N - 1 → ∃ t, rb[l]? = some (Ptr.live t) ∧ rc[l]? = some (Ptr.live t) := by
  intro l
  induction l with
  | zero => intro _; exact ⟨_, b0, c0⟩
  | succ l ih =>
    intro hl
    rcases Nat.eq_zero_or_pos l with h0 | h0
    · subst h0
      obtain ⟨m, o, hm, ho, hb⟩ := b1
      obtain ⟨m2, o2, hm2, ho2, hc⟩ := c1
      have e1 : m = m2 := getElem?_live_inj rfl hm hm2
      have e2 : o = o2 := getElem?_live_inj rfl ho ho2
      subst e1 e2
      exact ⟨_, hb, hc⟩
    · obtain ⟨t, ht1, ht2⟩ := ih (by omega)
      obtain ⟨b, m, o, hb, hm, ho, hbl⟩ := b2 (l + 1) (by omega) hl
      obtain ⟨c, m2, o2, hc, hm2, ho2, hcl⟩ := c2 (l + 1) (by omega) hl
      have e1 : m = m2 := getElem?_live_inj rfl hm hm2
      have e2 : o = o2 := getElem?_live_inj rfl ho ho2
      have e3 : b = c := by
        rw [Nat.add_sub_cancel] at hb hc
        rw [ht1] at hb
        rw [ht2] at hc
        have x1 := Ptr.live.inj (Option.some.inj hb)
        have x2 := Ptr.live.inj (Option.some.inj hc)
        rw [← x1, ← x2]
      subst e1 e2 e3
      exact ⟨_, hbl, hcl⟩

theorem initThenSweep_of_init {T R Q LP : Type} (ops : TensorOps T R Q LP)
    (p : SweepParams R LP) (s s1 : Store T) (lb rb : List (Ptr T))
    (h : InitBlocks ops p s = Res.ok (lb, rb) s1) :
    initThenSweep ops p s = TwoSiteSweep ops p { s1 with lblocks := lb, rblocks := rb } := by
  unfold initThenSweep
  simp only [M.bind, h]

theorem getElem?_replicate_ne {T : Type} (n j : Nat) (x y : Ptr T) (h : x ≠ y) :
    (List.replicate n x)[j]? ≠ some y := by
  intro hc
  rw [List.getElem?_replicate] at hc
  split at hc
  · exact h (Option.some.inj hc)
  · cases hc

theorem sim_init {T R Q LP : Type} (ops : TensorOps T R Q LP) (p : SweepParams R LP)
    (s : Store T) (N : Nat) (hN : 3 ≤ N) (hsize : N < 2 ^ 63)
    (hmps : s.mps.length = N) (hmpo : s.mpo.length = N)
    (lmps : allLive s.mps = true) (lmpo : allLive s.mpo = true)
    (hw : p.Workflow = WorkflowMode.kTwoSiteAlgoWorkflowInitial) :
    ∃ a b, initThenSweep ops { p with FileIO := true } s =
        TwoSiteSweep ops { p with FileIO := true } a ∧
      initThenSweep ops { p with FileIO := false } s =
        TwoSiteSweep ops { p with FileIO := false } b ∧
      SimForward N 0 a b := by
  obtain ⟨ra, sa, hia, ral, ra0, ra1, ra2, amps, ampo, _, _, _, afiles⟩ :=
    initBlocks_spec ops { p with FileIO := true } s N hN hsize hmps hmpo lmps lmpo hw
  obtain ⟨rb, sb, hib, rbl, rb0, rb1, rb2, _, _, _, _, bsame, _⟩ :=
    initBlocks_spec ops { p with FileIO := false } s N hN hsize hmps hmpo lmps lmpo hw
  have hsb : sb = s := bsame rfl
  obtain ⟨afr, afl⟩ := afiles rfl
  have huniq := rchain_unique ops N s.mps s.mpo ra rb ra0 rb0 ra1 rb1 ra2 rb2
  rw [if_pos rfl] at hia
  rw [if_neg (by intro hc; cases hc)] at hib
  rw [hsb] at hib
  refine ⟨_, _, initThenSweep_of_init ops _ s sa _ _ hia,
    initThenSweep_of_init ops _ s s _ _ hib, ?_⟩
  refine ⟨⟨amps, ampo, hmps, hmpo, lmps, lmpo, List.length_replicate _ _,
    List.length_replicate _ _, List.length_replicate _ _, rbl, ?_, ?_, ⟨_, afl⟩⟩, ?_, ?_, ?_, ?_⟩
  · intro j
    exact getElem?_replicate_ne _ _ _ _ (by intro hc; cases hc)
  · intro j hc
    by_cases hj : j < N - 1
    · obtain ⟨t, _, ht⟩ := huniq j hj
      have := ht.symm.trans hc
      cases this
    · have hnone : rb[j]? = none := List.getElem?_eq_none (by omega)
      have := hnone.symm.trans hc
      cases this
  · intro _
    exact getElem?_replicate_ne _ _ _ _ (by intro hc; cases hc)
  · intro hc; exact absurd hc (Nat.lt_irrefl 0)
  · intro j hj
    obtain ⟨t, ht1, ht2⟩ := huniq j (by omega)
    obtain ⟨t2, ht3, ht4⟩ := afr j (by omega)
    have e : t = t2 := Ptr.live.inj (Option.some.inj (ht1.symm.trans ht3))
    exact ⟨t, ht2, by rw [e]; exact ht4⟩
  · intro j hj1 hj2
    omega

/-- C5: on a chain of `N ≥ 3` live sites and operators, with a file store in
which a read returns the last tensor written under the key, and a solver that
ignores the left block at the left end, `InitBlocks` (Initial workflow) followed
by one sweep with file I/O returns the same energy and leaves the same chain and
operators as `InitBlocks` followed by one sweep without file I/O. -/
theorem initThenSweep_checkpoint_agrees {T R Q LP : Type} (ops : TensorOps T R Q LP)
    (p : SweepParams R LP)
    (hign : ∀ (b0 b1 o1 o2 b3 : Ptr T) (init : T) (lp : LP),
      ops.LanczosSolver [b0, o1, o2, b3] init lp "lend" =
        ops.LanczosSolver [b1, o1, o2, b3] init lp "lend")
    (s : Store T) (N : Nat) (hN : 3 ≤ N) (hsize : N < 2 ^ 63)
    (hmps : s.mps.length = N) (hmpo : s.mpo.length = N)
    (lmps : allLive s.mps = true) (lmpo : allLive s.mpo = true)
    (hw : p.Workflow = WorkflowMode.kTwoSiteAlgoWorkflowInitial) :
    ∃ e a1 b1, initThenSweep ops { p with FileIO := true } s = Res.ok (some e) a1 ∧
      initThenSweep ops { p with FileIO := false } s = Res.ok (some e) b1 ∧
      a1.mps = b1.mps ∧ a1.mpo = b1.mpo := by
  obtain ⟨a, b, ha, hb, hsim⟩ := sim_init ops p s N hN hsize hmps hmpo lmps lmpo hw
  obtain ⟨e, a1, b1, h1, h2, hs⟩ := sim_sweep ops p hign N hN hsize a b hsim
  exact ⟨e, a1, b1, ha.trans h1, hb.trans h2, hs.1.1, hs.1.2.1⟩

theorem initThenSweep_checkpoint_agrees_witness :
    ∃ e a1 b1,
      initThenSweep toyOps { toyParams false with FileIO := true } (toyStore 3) =
        Res.ok (some e) a1 ∧
      initThenSweep toyOps { toyParams false with FileIO := false } (toyStore 3) =
        Res.ok (some e) b1 ∧
      a1.mps = b1.mps ∧ a1.mpo = b1.mpo :=
  initThenSweep_checkpoint_agrees toyOps (toyParams false) (fun _ _ _ _ _ _ _ => rfl)
    (toyStore 3) 3 (by decide) (by decide) rfl rfl (by decide) (by decide) rfl

/-! ## DuoVector -/

/-- C11, counterexample: in the two-slot toy vector, whose slot 0 owns the
object at address 0, storing the pointer to the object at address 1 into slot 0
through `operator()` leaves the object at address 0 alive: the prior occupant
is not freed. -/
theorem operatorCall_prior_occupant_counterexample :
    ∃ v1, toyDuo.raw_data_[0]? = some (some 0) ∧ toyDuo.heap[0]? = some (some 7) ∧
      toyDuo.operatorCallAssign 0 (some 1) = some v1 ∧
      v1.raw_data_[0]? = some (some 1) ∧
      v1.heap[0]? = some (some 7) ∧ v1.heap[0]? ≠ some none :=
  ⟨{ heap := [some 7, some 9], raw_data_ := [some 1, none] }, by decide, by decide, by decide,
    by decide, by decide, by decide⟩

/-- C11 (as amended): for a `DuoVector` and an in-range index whose slot holds
the address of a live object, a store of a pointer through `operator()` returns;
afterwards the slot holds the new pointer, every other slot and the size are
unchanged, and the free store is unchanged, so the prior occupant is still
alive: it has not been freed. -/
theorem operatorCall_store_overwrites_only {ElemT : Type} (v : DuoVector ElemT)
    (idx a : Nat) (ptr : Option Nat) (e : ElemT)
    (hocc : v.raw_data_[idx]? = some (some a)) (hlive : v.heap[a]? = some (some e)) :
    ∃ v1, v.operatorCallAssign idx ptr = some v1 ∧
      v1.raw_data_[idx]? = some ptr ∧
      (∀ j, j ≠ idx → v1.raw_data_[j]? = v.raw_data_[j]?) ∧
      v1.size = v.size ∧ v1.heap = v.heap ∧ v1.heap[a]? = some (some e) := by
  have hlt : idx < v.raw_data_.length := by
    rcases Nat.lt_or_ge idx v.raw_data_.length with h | h
    · exact h
    · rw [List.getElem?_eq_none h] at hocc
      cases hocc
  refine ⟨DuoVector.mk v.heap (v.raw_data_.set idx ptr), ?_, ?_, ?_, ?_, rfl, hlive⟩
  · unfold DuoVector.operatorCallAssign
    rw [if_pos hlt]
  · exact List.getElem?_set_self hlt
  · intro j hj
    exact List.getElem?_set_ne (Ne.symm hj)
  · unfold DuoVector.size
    exact List.length_set _ _ _

theorem operatorCall_store_overwrites_only_witness :
    ∃ v1, toyDuo.operatorCallAssign 0 (some 1) = some v1 ∧
      v1.raw_data_[0]? = some (some 1) ∧
      (∀ j, j ≠ 0 → v1.raw_data_[j]? = toyDuo.raw_data_[j]?) ∧
      v1.size = toyDuo.size ∧ v1.heap = toyDuo.heap ∧ v1.heap[0]? = some (some 7) :=
  operatorCall_store_overwrites_only toyDuo 0 0 (some 1) 7 (by decide) (by decide)

/-- C12: for a `DuoVector` and an in-range index whose slot is null or holds
the address of a live object, the mutable `operator[]` returns a reference to an
element.  On a null slot the element is a fresh default-constructed one, added
to the free store without touching the objects already there; on an occupied
slot it is the occupant and nothing changes.  In both cases the slot holds the
address of the returned live element afterwards, every other slot and the size
are unchanged, and a second access returns the same element and changes
nothing. -/
theorem operatorIndex_get_or_allocate {ElemT : Type} (dflt : ElemT) (v : DuoVector ElemT)
    (idx : Nat) (hidx : idx < v.size)
    (hwf : ∀ a, v.raw_data_[idx]? = some (some a) → ∃ e, v.heap[a]? = some (some e)) :
    ∃ a v1, v.operatorIndex dflt idx = some (a, v1) ∧
      (v.raw_data_[idx]? = some none →
        a = v.heap.length ∧ v1.heap = v.heap ++ [some dflt] ∧
        v1.heap[a]? = some (some dflt)) ∧
      (∀ a0, v.raw_data_[idx]? = some (some a0) → a = a0 ∧ v1 = v) ∧
      v1.raw_data_[idx]? = some (some a) ∧ (∃ e, v1.heap[a]? = some (some e)) ∧
      (∀ j, j ≠ idx → v1.raw_data_[j]? = v.raw_data_[j]?) ∧
      v1.size = v.size ∧
      v1.operatorIndex dflt idx = some (a, v1) := by
  unfold DuoVector.size at hidx
  obtain ⟨q, hq⟩ : ∃ q, v.raw_data_[idx]? = some q := ⟨_, List.getElem?_eq_getElem hidx⟩
  cases q with
  | none =>
    have hnew : (v.heap ++ [some dflt])[v.heap.length]? = some (some dflt) := by
      rw [List.getElem?_append_right (Nat.le_refl _), Nat.sub_self]
      rfl
    have hslot : (v.raw_data_.set idx (some v.heap.length))[idx]? = some (some v.heap.length) :=
      List.getElem?_set_self hidx
    refine ⟨v.heap.length, DuoVector.mk (v.heap ++ [some dflt])
      (v.raw_data_.set idx (some v.heap.length)), ?_, ?_, ?_, hslot,
      ⟨dflt, hnew⟩, ?_, ?_, ?_⟩
    · unfold DuoVector.operatorIndex
      rw [hq]
      rfl
    · intro _
      exact ⟨rfl, rfl, hnew⟩
    · intro a0 h0
      rw [hq] at h0
      cases h0
    · intro j hj
      exact List.getElem?_set_ne (Ne.symm hj)
    · unfold DuoVector.size
      exact List.length_set _ _ _
    · unfold DuoVector.operatorIndex
      simp only [hslot, hnew]
  | some a =>
    obtain ⟨e, he⟩ := hwf a hq
    have hrun : v.operatorIndex dflt idx = some (a, v) := by
      unfold DuoVector.operatorIndex
      simp only [hq, he]
    refine ⟨a, v, hrun, ?_, ?_, hq, ⟨e, he⟩, fun _ _ => rfl, rfl, hrun⟩
    · intro h0
      rw [hq] at h0
      cases h0
    · intro a0 h0
      rw [hq] at h0
      exact ⟨Option.some.inj (Option.some.inj h0), rfl⟩

theorem operatorIndex_get_or_allocate_witness :
    ∃ a v1, toyDuo.operatorIndex 0 1 = some (a, v1) ∧
      (toyDuo.raw_data_[1]? = some none →
        a = toyDuo.heap.length ∧ v1.heap = toyDuo.heap ++ [some 0] ∧
        v1.heap[a]? = some (some 0)) ∧
      (∀ a0, toyDuo.raw_data_[1]? = some (some a0) → a = a0 ∧ v1 = toyDuo) ∧
      v1.raw_data_[1]? = some (some a) ∧ (∃ e, v1.heap[a]? = some (some e)) ∧
      (∀ j, j ≠ 1 → v1.raw_data_[j]? = toyDuo.raw_data_[j]?) ∧
      v1.size = toyDuo.size ∧
      v1.operatorIndex 0 1 = some (a, v1) :=
  operatorIndex_get_or_allocate 0 toyDuo 1 (by decide) (fun a h => by cases h)

/-! ## Index bounds on a two-site chain -/

/-- C14, failing input: on the toy chain of two sites and two operators
`InitBlocks` (Initial workflow, with and without file I/O) creates block chains
of `N-1 = 1` slot and then writes slot 1 of the right chain, so the run stops in
undefined behaviour; and on a two-site chain with one-slot block chains the
forward step at site 0 stops in undefined behaviour as well, because it targets
slot 1 of the left chain. -/
theorem initBlocks_two_sites_out_of_bounds :
    (toyStore 2).mps.length = 2 ∧ (toyStore 2).mpo.length = 2 ∧
    slot (((toyStore 2).mps.length : Int) - 1) = 1 ∧
    vecWrite [Ptr.live toyOps.GQTensor] 1 (Ptr.live (rblockEnd toyOps 11 101)) = none ∧
    InitBlocks toyOps (toyParams false) (toyStore 2) = Res.fault Fault.ub (toyStore 2) ∧
    InitBlocks toyOps (toyParams true) (toyStore 2) = Res.fault Fault.ub (toyStore 2) ∧
    toyPair.lblocks.length = 1 ∧
    (∃ s1, TwoSiteUpdate toyOps 0 (toyParams false) 'r' toyPair = Res.fault Fault.ub s1) := by
  refine ⟨by decide, by decide, by decide, by decide, by decide, by decide, by decide, ?_⟩
  cases h : TwoSiteUpdate toyOps 0 (toyParams false) 'r' toyPair with
  | ok e s1 =>
    have hc : (TwoSiteUpdate toyOps 0 (toyParams false) 'r' toyPair).isOk = false := by decide
    rw [h] at hc
    cases hc
  | fault f s1 =>
    have hf : (match TwoSiteUpdate toyOps 0 (toyParams false) 'r' toyPair with
      | Res.ok _ _ => Fault.usage
      | Res.fault f _ => f) = Fault.ub := by decide
    rw [h] at hf
    exact ⟨s1, by rw [← hf]⟩

/-! ## Blocks of a chain -/

theorem leftBlockOf_congr {T R Q LP : Type} (ops : TensorOps T R Q LP)
    (mps mpo mps2 mpo2 : List (Ptr T)) (l : Nat)
    (h1 : ∀ i, i < l → mps2[i]? = mps[i]?) (h2 : ∀ i, i < l → mpo2[i]? = mpo[i]?) :
    leftBlockOf ops mps2 mpo2 l = leftBlockOf ops mps mpo l := by
  induction l with
  | zero => rfl
  | succ l ih =>
    have ih2 := ih (fun i hi => h1 i (by omega)) (fun i hi => h2 i (by omega))
    unfold leftBlockOf
    rw [h1 l (by omega), h2 l (by omega), ih2]

theorem rightBlockOf_congr {T R Q LP : Type} (ops : TensorOps T R Q LP)
    (mps mpo mps2 mpo2 : List (Ptr T)) (l : Nat) (hlen : mps2.length = mps.length)
    (h1 : ∀ i, mps.length ≤ i + l → mps2[i]? = mps[i]?)
    (h2 : ∀ i, mps.length ≤ i + l → mpo2[i]? = mpo[i]?) :
    rightBlockOf ops mps2 mpo2 l = rightBlockOf ops mps mpo l := by
  induction l with
  | zero => rfl
  | succ l ih =>
    have ih2 := ih (fun i hi => h1 i (by omega)) (fun i hi => h2 i (by omega))
    unfold rightBlockOf
    rw [hlen, h1 _ (by omega), h2 _ (by omega), ih2]

theorem leftBlockOf_one {T R Q LP : Type} (ops : TensorOps T R Q LP)
    (mps mpo : List (Ptr T)) (site op : T)
    (h1 : mps[0]? = some (Ptr.live site)) (h2 : mpo[0]? = some (Ptr.live op)) :
    leftBlockOf ops mps mpo 1 = some (lblockEnd ops site op) := by
  unfold leftBlockOf
  rw [h1, h2]
  rfl

theorem leftBlockOf_succ {T R Q LP : Type} (ops : TensorOps T R Q LP)
    (mps mpo : List (Ptr T)) (l : Nat) (hl : 0 < l) (b site op : T)
    (h1 : mps[l]? = some (Ptr.live site)) (h2 : mpo[l]? = some (Ptr.live op))
    (hb : leftBlockOf ops mps mpo l = some b) :
    leftBlockOf ops mps mpo (l + 1) = some (lblockGrow ops b site op) := by
  unfold leftBlockOf
  rw [h1, h2]
  simp only [Option.bind, deref]
  rw [if_neg (by omega), hb]
  rfl

theorem rightBlockOf_one {T R Q LP : Type} (ops : TensorOps T R Q LP)
    (mps mpo : List (Ptr T)) (site op : T)
    (h1 : mps[mps.length - 1]? = some (Ptr.live site))
    (h2 : mpo[mps.length - 1]? = some (Ptr.live op)) :
    rightBlockOf ops mps mpo 1 = some (rblockEnd ops site op) := by
  unfold rightBlockOf
  rw [h1, h2]
  rfl

theorem rightBlockOf_succ {T R Q LP : Type} (ops : TensorOps T R Q LP)
    (mps mpo : List (Ptr T)) (l : Nat) (hl : 0 < l) (b site op : T)
    (h1 : mps[mps.length - (l + 1)]? = some (Ptr.live site))
    (h2 : mpo[mps.length - (l + 1)]? = some (Ptr.live op))
    (hb : rightBlockOf ops mps mpo l = some b) :
    rightBlockOf ops mps mpo (l + 1) = some (rblockGrow ops b site op) := by
  unfold rightBlockOf
  rw [h1, h2]
  simp only [Option.bind, deref]
  rw [if_neg (by omega), hb]
  rfl

theorem lookup_append_some {T : Type} (a b : List ((Side × Int) × T)) (k : Side × Int) (t : T)
    (h : a.lookup k = some t) : (a ++ b).lookup k = some t := by
  rw [List.lookup_append, h]
  rfl

/-! ## The run with file I/O: one step -/

theorem set2_getElem?_ne {α : Type} (v : List α) (a b i : Nat) (x y : α) (h1 : a ≠ i)
    (h2 : b ≠ i) : ((v.set a x).set b y)[i]? = v[i]? := by
  rw [List.getElem?_set_ne h2, List.getElem?_set_ne h1]

theorem lookup_l_cons_r {T : Type} (j i : Nat) (t : T) (fs : List ((Side × Int) × T)) :
    List.lookup (Side.l, (j : Int)) (((Side.r, (i : Int)), t) :: fs) =
      List.lookup (Side.l, (j : Int)) fs :=
  lookup_cons_ne t fs (by intro hc; cases hc)

theorem lookup_r_cons_l {T : Type} (j i : Nat) (t : T) (fs : List ((Side × Int) × T)) :
    List.lookup (Side.r, (j : Int)) (((Side.l, (i : Int)), t) :: fs) =
      List.lookup (Side.r, (j : Int)) fs :=
  lookup_cons_ne t fs (by intro hc; cases hc)

theorem lookup_cons_same_side {T : Type} (sd : Side) (j i : Nat) (hji : j ≠ i) (t : T)
    (fs : List ((Side × Int) × T)) :
    List.lookup (sd, (j : Int)) (((sd, (i : Int)), t) :: fs) = List.lookup (sd, (j : Int)) fs :=
  lookup_cons_ne t fs (by
    intro hc
    have := (Prod.mk.inj hc).2
    omega)

theorem lookup_cons_exists {T : Type} (key k : Side × Int) (t : T)
    (fs : List ((Side × Int) × T)) (h : ∃ x, fs.lookup key = some x) :
    ∃ x, List.lookup key ((k, t) :: fs) = some x := by
  rw [lookup_cons_eq]
  by_cases hk : key = k
  · rw [if_pos hk]; exact ⟨t, rfl⟩
  · rw [if_neg hk]; exact h

theorem ckBase_cons {T : Type} (N : Nat) (before written : List ((Side × Int) × T))
    (s s1 : Store T) (h : CkBase N before written s) (key : Side × Int) (t : T)
    (i1 i2 : Nat) (x1 x2 : T)
    (hmps : s1.mps = (s.mps.set i1 (Ptr.live x1)).set i2 (Ptr.live x2)) (hmpo : s1.mpo = s.mpo)
    (hf : s1.files = (key, t) :: s.files)
    (hlb : s1.lblocks.length = s.lblocks.length) (hrb : s1.rblocks.length = s.rblocks.length) :
    CkBase N before ((key, t) :: written) s1 := by
  obtain ⟨b1, b2, b3, b4, b5, b6, b7, b8⟩ := h
  refine ⟨?_, ?_, ?_, ?_, ?_, ?_, ?_, ?_⟩
  · rw [hmps, List.length_set, List.length_set]; exact b1
  · rw [hmpo]; exact b2
  · rw [hmps]; exact allLive_set (allLive_set b3 _ _) _ _
  · rw [hmpo]; exact b4
  · rw [hlb]; exact b5
  · rw [hrb]; exact b6
  · rw [hf, b7]; rfl
  · intro j hj
    exact lookup_cons_exists _ _ _ _ (b8 j hj)

theorem ckBase_same {T : Type} (N : Nat) (before written : List ((Side × Int) × T))
    (s s1 : Store T) (h : CkBase N before written s)
    (i1 i2 : Nat) (x1 x2 : T)
    (hmps : s1.mps = (s.mps.set i1 (Ptr.live x1)).set i2 (Ptr.live x2)) (hmpo : s1.mpo = s.mpo)
    (hf : s1.files = s.files)
    (hlb : s1.lblocks.length = s.lblocks.length) (hrb : s1.rblocks.length = s.rblocks.length) :
    CkBase N before written s1 := by
  obtain ⟨b1, b2, b3, b4, b5, b6, b7, b8⟩ := h
  refine ⟨?_, ?_, ?_, ?_, ?_, ?_, ?_, b8⟩
  · rw [hmps, List.length_set, List.length_set]; exact b1
  · rw [hmpo]; exact b2
  · rw [hmps]; exact allLive_set (allLive_set b3 _ _) _ _
  · rw [hmpo]; exact b4
  · rw [hlb]; exact b5
  · rw [hrb]; exact b6
  · rw [hf, b7]

theorem ck_forward_next {T R Q LP : Type} (ops : TensorOps T R Q LP) (N k K : Nat)
    (hN : 3 ≤ N) (hk : k + 2 < N) (before written : List ((Side × Int) × T))
    (s s1 : Store T) (h : CkForward ops N k K before written s)
    (t u w tr o1 : T) (q0 : Ptr T) (hq0 : ∀ x, q0 ≠ Ptr.live x)
    (ho1 : s.mpo[k]? = some (Ptr.live o1))
    (ht0 : k = 0 → t = lblockEnd ops u o1)
    (ht1 : ∀ tl, 0 < k → s.lblocks[k]? = some (Ptr.live tl) → t = lblockGrow ops tl u o1)
    (hmps : s1.mps = (s.mps.set k (Ptr.live u)).set (k + 1) (Ptr.live w))
    (hmpo : s1.mpo = s.mpo)
    (hf : s1.files = ((Side.l, ((k + 1 : Nat) : Int)), t) :: s.files)
    (hlb : s1.lblocks = (s.lblocks.set (k + 1) (Ptr.live t)).set k q0)
    (hrb : s1.rblocks = (s.rblocks.set (N - k - 2) (Ptr.live tr)).set (N - k - 2) Ptr.freed) :
    CkForward ops N (k + 1) K before (((Side.l, ((k + 1 : Nat) : Int)), t) :: written) s1 := by
  obtain ⟨hb, hK, hr, hl, nr, nl, _, hres⟩ := h
  have hbase := ckBase_cons N before written s s1 hb _ t k (k + 1) u w hmps hmpo hf
    (by rw [hlb, List.length_set, List.length_set])
    (by rw [hrb, List.length_set, List.length_set])
  obtain ⟨b1, b2, b3, b4, b5, b6, b7, b8⟩ := hb
  have hlen : s1.mps.length = s.mps.length := by
    rw [hmps, List.length_set, List.length_set]
  have mlt : ∀ i, i < k → s1.mps[i]? = s.mps[i]? := by
    intro i hi
    rw [hmps]
    exact set2_getElem?_ne _ _ _ _ _ _ (by omega) (by omega)
  have mgt : ∀ i, k + 1 < i → s1.mps[i]? = s.mps[i]? := by
    intro i hi
    rw [hmps]
    exact set2_getElem?_ne _ _ _ _ _ _ (by omega) (by omega)
  have mk : s1.mps[k]? = some (Ptr.live u) := by
    rw [hmps, List.getElem?_set_ne (by omega), List.getElem?_set_self (by omega)]
  have hleft : ∀ j, j ≤ k → leftBlockOf ops s1.mps s1.mpo j = leftBlockOf ops s.mps s.mpo j := by
    intro j hj
    exact leftBlockOf_congr ops _ _ _ _ j (fun i hi => mlt i (by omega))
      (fun i hi => by rw [hmpo])
  have hnew : leftBlockOf ops s1.mps s1.mpo (k + 1) = some t := by
    rcases Nat.eq_zero_or_pos k with h0 | h0
    · subst h0
      rw [ht0 rfl]
      exact leftBlockOf_one ops _ _ u o1 mk (by rw [hmpo]; exact ho1)
    · obtain ⟨tl, hres1, hres2⟩ := hres h0
      rw [ht1 tl h0 hres1]
      exact leftBlockOf_succ ops _ _ k h0 tl u o1 mk (by rw [hmpo]; exact ho1)
        (by rw [hleft k (Nat.le_refl _)]; exact hres2)
  have hl1 : s1.lblocks[k + 1]? = some (Ptr.live t) := by
    rw [hlb, List.getElem?_set_ne (by omega), List.getElem?_set_self (by omega)]
  refine ⟨hbase, ?_, ?_, ?_, ?_, ?_, ?_, ?_⟩
  · intro j hj
    exact lookup_cons_exists _ _ _ _ (hK j hj)
  · intro j hj
    obtain ⟨x, hx1, hx2⟩ := hr j (by omega)
    refine ⟨x, by rw [lookup_r_cons_l]; exact hx1, ?_⟩
    rw [rightBlockOf_congr ops s.mps s.mpo s1.mps s1.mpo j hlen
      (fun i hi => mgt i (by omega)) (fun i hi => by rw [hmpo])]
    exact hx2
  · intro j hj
    rcases Nat.eq_or_lt_of_le hj with h1 | h1
    · subst h1
      exact ⟨t, lookup_cons_self _ _ _, hnew⟩
    · obtain ⟨x, hx1, hx2⟩ := hl j (by omega)
      refine ⟨x, by rw [lookup_cons_same_side Side.l j (k + 1) (by omega)]; exact hx1, ?_⟩
      rw [hleft j (by omega)]
      exact hx2
  · intro j x
    rw [hrb]
    by_cases hj : N - k - 2 = j
    · subst hj
      rw [List.getElem?_set_self (by rw [List.length_set]; omega)]
      intro hc; cases hc
    · rw [set2_getElem?_ne _ _ _ _ _ _ hj hj]
      exact nr j x
  · intro j x hj
    rw [hlb]
    by_cases hjk : k = j
    · subst hjk
      rw [List.getElem?_set_self (by rw [List.length_set]; omega)]
      intro hc
      exact hq0 x (Option.some.inj hc)
    · rw [set2_getElem?_ne _ _ _ _ _ _ (by omega) hjk]
      exact nl j x (by omega)
  · intro hc
    omega
  · intro _
    exact ⟨t, hl1, hnew⟩

theorem ck_forward_last {T R Q LP : Type} (ops : TensorOps T R Q LP) (N k K : Nat)
    (hN : 3 ≤ N) (hk : k + 2 = N) (before written : List ((Side × Int) × T))
    (s s1 : Store T) (h : CkForward ops N k K before written s)
    (u w tr : T) (q0 : Ptr T) (hq0 : ∀ x, q0 ≠ Ptr.live x)
    (htr : written.lookup (Side.r, ((N - k - 2 : Nat) : Int)) = some tr)
    (hmps : s1.mps = (s.mps.set k (Ptr.live u)).set (k + 1) (Ptr.live w))
    (hmpo : s1.mpo = s.mpo) (hf : s1.files = s.files)
    (hlb : s1.lblocks = s.lblocks.set k q0)
    (hrb : s1.rblocks = s.rblocks.set (N - k - 2) (Ptr.live tr)) :
    CkBackward ops N (N - 1) (N - 2) before written s1 := by
  obtain ⟨hb, hK, hr, hl, nr, nl, _, hres⟩ := h
  have hbase := ckBase_same N before written s s1 hb k (k + 1) u w hmps hmpo hf
    (by rw [hlb, List.length_set]) (by rw [hrb, List.length_set])
  obtain ⟨b1, b2, b3, b4, b5, b6, b7, b8⟩ := hb
  have mlt : ∀ i, i < k → s1.mps[i]? = s.mps[i]? := by
    intro i hi
    rw [hmps]
    exact set2_getElem?_ne _ _ _ _ _ _ (by omega) (by omega)
  have hleft : ∀ j, j ≤ k → leftBlockOf ops s1.mps s1.mpo j = leftBlockOf ops s.mps s.mpo j := by
    intro j hj
    exact leftBlockOf_congr ops _ _ _ _ j (fun i hi => mlt i (by omega))
      (fun i hi => by rw [hmpo])
  have hz : N - k - 2 = 0 := by omega
  have hz2 : N - (N - 1) - 1 = 0 := by omega
  rw [hz] at hrb htr
  obtain ⟨x0, hx01, hx02⟩ := hr 0 (by omega)
  have hx0 : x0 = tr := Option.some.inj (hx01.symm.trans htr)
  refine ⟨hbase, ?_, ?_, ?_, ?_, ?_, ?_⟩
  · intro j hj
    obtain ⟨x, hx1, _⟩ := hl j (by omega)
    exact ⟨x, hx1⟩
  · intro j hj
    have hj0 : j = 0 := by omega
    subst hj0
    exact ⟨x0, hx01, hx02⟩
  · intro j hj
    obtain ⟨x, hx1, hx2⟩ := hl j (by omega)
    exact ⟨x, hx1, by rw [hleft j (by omega)]; exact hx2⟩
  · intro j x
    rw [hlb]
    by_cases hjk : k = j
    · subst hjk
      rw [List.getElem?_set_self (by omega)]
      intro hc
      exact hq0 x (Option.some.inj hc)
    · rw [List.getElem?_set_ne hjk]
      exact nl j x (by omega)
  · intro j x hj
    rw [hz2] at hj
    rw [hrb, List.getElem?_set_ne (by omega)]
    exact nr j x
  · rw [hz2]
    refine ⟨tr, by rw [hrb, List.getElem?_set_self (by omega)], ?_⟩
    rw [← hx0]
    exact hx02

theorem ck_backward_prev {T R Q LP : Type} (ops : TensorOps T R Q LP) (N k K : Nat)
    (hN : 3 ≤ N) (hk1 : 1 < k) (hk : k + 1 ≤ N) (before written : List ((Side × Int) × T))
    (s s1 : Store T) (h : CkBackward ops N k K before written s)
    (t x v tl o2 : T)
    (ho2 : s.mpo[k]? = some (Ptr.live o2))
    (ht0 : k + 1 = N → t = rblockEnd ops v o2)
    (ht1 : ∀ tr, k + 1 < N → s.rblocks[N - k - 1]? = some (Ptr.live tr) →
      t = rblockGrow ops tr v o2)
    (hmps : s1.mps = (s.mps.set (k - 1) (Ptr.live x)).set k (Ptr.live v))
    (hmpo : s1.mpo = s.mpo)
    (hf : s1.files = ((Side.r, ((N - k : Nat) : Int)), t) :: s.files)
    (hrb : s1.rblocks = (s.rblocks.set (N - k) (Ptr.live t)).set (N - k - 1) Ptr.freed)
    (hlb : s1.lblocks = (s.lblocks.set (k - 1) (Ptr.live tl)).set (k - 1) Ptr.freed) :
    CkBackward ops N (k - 1) K before (((Side.r, ((N - k : Nat) : Int)), t) :: written) s1 := by
  obtain ⟨hb, hK, hr, hl, nl, nr, hres⟩ := h
  have hbase := ckBase_cons N before written s s1 hb _ t (k - 1) k x v hmps hmpo hf
    (by rw [hlb, List.length_set, List.length_set])
    (by rw [hrb, List.length_set, List.length_set])
  obtain ⟨b1, b2, b3, b4, b5, b6, b7, b8⟩ := hb
  have hlen : s1.mps.length = s.mps.length := by
    rw [hmps, List.length_set, List.length_set]
  have mlt : ∀ i, i + 1 < k → s1.mps[i]? = s.mps[i]? := by
    intro i hi
    rw [hmps]
    exact set2_getElem?_ne _ _ _ _ _ _ (by omega) (by omega)
  have mgt : ∀ i, k < i → s1.mps[i]? = s.mps[i]? := by
    intro i hi
    rw [hmps]
    exact set2_getElem?_ne _ _ _ _ _ _ (by omega) (by omega)
  have mk : s1.mps[k]? = some (Ptr.live v) := by
    rw [hmps, List.getElem?_set_self (by rw [List.length_set]; omega)]
  have hright : ∀ j, j + k + 1 ≤ N →
      rightBlockOf ops s1.mps s1.mpo j = rightBlockOf ops s.mps s.mpo j := by
    intro j hj
    exact rightBlockOf_congr ops s.mps s.mpo s1.mps s1.mpo j hlen
      (fun i hi => mgt i (by omega)) (fun i hi => by rw [hmpo])
  obtain ⟨l, hl1⟩ : ∃ l, N - k = l + 1 := ⟨N - k - 1, by omega⟩
  have hidx : s1.mps.length - (l + 1) = k := by omega
  have hl2 : N - k - 1 = l := by omega
  have hnew : rightBlockOf ops s1.mps s1.mpo (N - k) = some t := by
    rw [hl1]
    rcases Nat.eq_zero_or_pos l with h0 | h0
    · subst h0
      rw [ht0 (by omega)]
      exact rightBlockOf_one ops _ _ v o2 (by rw [← hidx] at mk; exact mk)
        (by rw [hmpo]; rw [← hidx] at ho2; exact ho2)
    · obtain ⟨tr, hres1, hres2⟩ := hres
      rw [ht1 tr (by omega) hres1]
      rw [hl2] at hres2
      exact rightBlockOf_succ ops _ _ l h0 tr v o2 (by rw [hidx]; exact mk)
        (by rw [hidx, hmpo]; exact ho2)
        (by rw [hright l (by omega)]; exact hres2)
  have hi1 : N - (k - 1) - 1 = N - k := by omega
  refine ⟨hbase, ?_, ?_, ?_, ?_, ?_, ?_⟩
  · intro j hj
    exact lookup_cons_exists _ _ _ _ (hK j hj)
  · intro j hj
    by_cases hjk : j = N - k
    · subst hjk
      exact ⟨t, lookup_cons_self _ _ _, hnew⟩
    · obtain ⟨y, hy1, hy2⟩ := hr j (by omega)
      refine ⟨y, by rw [lookup_cons_same_side Side.r j (N - k) hjk]; exact hy1, ?_⟩
      rw [hright j (by omega)]
      exact hy2
  · intro j hj
    obtain ⟨y, hy1, hy2⟩ := hl j (by omega)
    refine ⟨y, by rw [lookup_l_cons_r]; exact hy1, ?_⟩
    rw [leftBlockOf_congr ops s.mps s.mpo s1.mps s1.mpo j (fun i hi => mlt i (by omega))
      (fun i hi => by rw [hmpo])]
    exact hy2
  · intro j y
    rw [hlb]
    by_cases hjk : k - 1 = j
    · subst hjk
      rw [List.getElem?_set_self (by rw [List.length_set]; omega)]
      intro hc; cases hc
    · rw [set2_getElem?_ne _ _ _ _ _ _ hjk hjk]
      exact nl j y
  · intro j y hj
    rw [hi1] at hj
    rw [hrb]
    by_cases hjk : N - k - 1 = j
    · subst hjk
      rw [List.getElem?_set_self (by rw [List.length_set]; omega)]
      intro hc; cases hc
    · rw [set2_getElem?_ne _ _ _ _ _ _ (by omega) hjk]
      exact nr j y (by omega)
  · rw [hi1]
    refine ⟨t, ?_, hnew⟩
    rw [hrb, List.getElem?_set_ne (by omega), List.getElem?_set_self (by omega)]

theorem ck_backward_last {T R Q LP : Type} (ops : TensorOps T R Q LP) (N K : Nat)
    (hN : 3 ≤ N) (before written : List ((Side × Int) × T))
    (s s1 : Store T) (h : CkBackward ops N 1 K before written s)
    (x v tl : T)
    (hmps : s1.mps = (s.mps.set (1 - 1) (Ptr.live x)).set 1 (Ptr.live v))
    (hmpo : s1.mpo = s.mpo) (hf : s1.files = s.files)
    (hrb : s1.rblocks = s.rblocks.set (N - 1 - 1) Ptr.freed)
    (hlb : s1.lblocks = s.lblocks.set (1 - 1) (Ptr.live tl)) :
    CkForward ops N 0 K before written s1 := by
  obtain ⟨hb, hK, hr, hl, nl, nr, hres⟩ := h
  have hbase := ckBase_same N before written s s1 hb (1 - 1) 1 x v hmps hmpo hf
    (by rw [hlb, List.length_set]) (by rw [hrb, List.length_set])
  obtain ⟨b1, b2, b3, b4, b5, b6, b7, b8⟩ := hb
  have hlen : s1.mps.length = s.mps.length := by
    rw [hmps, List.length_set, List.length_set]
  have mgt : ∀ i, 1 < i → s1.mps[i]? = s.mps[i]? := by
    intro i hi
    rw [hmps]
    exact set2_getElem?_ne _ _ _ _ _ _ (by omega) (by omega)
  refine ⟨hbase, hK, ?_, ?_, ?_, ?_, ?_, ?_⟩
  · intro j hj
    obtain ⟨y, hy1, hy2⟩ := hr j (by omega)
    refine ⟨y, hy1, ?_⟩
    rw [rightBlockOf_congr ops s.mps s.mpo s1.mps s1.mpo j hlen
      (fun i hi => mgt i (by omega)) (fun i hi => by rw [hmpo])]
    exact hy2
  · intro j hj
    have hj0 : j = 0 := by omega
    subst hj0
    obtain ⟨y, hy1, hy2⟩ := hl 0 (by omega)
    exact ⟨y, hy1, hy2⟩
  · intro j y
    rw [hrb]
    by_cases hjk : N - 1 - 1 = j
    · subst hjk
      rw [List.getElem?_set_self (by omega)]
      intro hc; cases hc
    · rw [List.getElem?_set_ne hjk]
      exact nr j y (by omega)
  · intro j y hj
    rw [hlb, List.getElem?_set_ne (by omega)]
    exact nl j y
  · intro _
    rw [hlb, List.getElem?_set_self (by omega)]
    intro hc; cases hc
  · intro hc
    exact absurd hc (Nat.lt_irrefl 0)

theorem ck_forward_step {T R Q LP : Type} (ops : TensorOps T R Q LP) (p : SweepParams R LP)
    (hio : SweepParams.FileIO p = true)
    (N k K : Nat) (hN : 3 ≤ N) (hsize : N < 2 ^ 63) (hk : k + 2 ≤ N)
    (before written : List ((Side × Int) × T)) (s : Store T)
    (h : CkForward ops N k K before written s) :
    ∃ e s1 written1, TwoSiteUpdate ops (k : Int) p 'r' s = Res.ok e s1 ∧
      (k + 2 < N → CkForward ops N (k + 1) K before written1 s1) ∧
      (k + 2 = N → CkBackward ops N (N - 1) (N - 2) before written1 s1) := by
  have h' := h
  obtain ⟨⟨b1, b2, b3, b4, b5, b6, b7, b8⟩, hK, hr, hl, nr, nl, h0, hres⟩ := h'
  obtain ⟨tr, htr, _⟩ := hr (N - k - 2) (by omega)
  obtain ⟨e0, he0⟩ : ∃ e0, s.lblocks[k]? = some e0 :=
    ⟨_, List.getElem?_eq_getElem (by omega)⟩
  have hmid : 0 < k → ∃ tl, e0 = Ptr.live tl := by
    intro hk0
    obtain ⟨tl, htl, _⟩ := hres hk0
    exact ⟨tl, Option.some.inj (he0.symm.trans htl)⟩
  have hne : e0 ≠ Ptr.freed := by
    intro hc
    rcases Nat.eq_zero_or_pos k with hk0 | hk0
    · subst hk0
      rw [hc] at he0
      exact h0 rfl he0
    · obtain ⟨tl, htl⟩ := hmid hk0
      rw [hc] at htl
      cases htl
  have hoff : ∀ {P : Prop}, SweepParams.FileIO p = false → P := by
    intro P hc
    rw [hio] at hc
    cases hc
  obtain ⟨g, lsite, rsite, o1, o2, r, nb, s1, _, _, _, _, A3, _, _, hrun, s1mps, s1mpo,
      n1, n2, n3, n4, io, _⟩ :=
    step_r_returns ops p s N k tr e0 hN hsize hk b1 b2 b3 b4 b5 b6
      (fun _ => by rw [b7]; exact lookup_append_some _ _ _ _ htr) (fun hc => hoff hc)
      he0 hne hmid (fun hc => hoff hc)
  obtain ⟨q0, hq0, hnone, hsome⟩ := io hio
  have hq0n : ∀ x, q0 ≠ Ptr.live x := fun x => del_ne_live hq0 x
  rcases Nat.eq_or_lt_of_le hk with hlast | hnext
  · obtain ⟨f1, f2, f3⟩ := hnone (n1 hlast)
    refine ⟨_, s1, written, hrun, fun hc => absurd hlast (by omega), fun _ => ?_⟩
    exact ck_forward_last ops N k K hN hlast before written s s1 h _ _ tr q0 hq0n htr
      s1mps s1mpo f1 f2 f3
  · obtain ⟨t, ht⟩ : ∃ t, nb = some t := by
      rcases Nat.eq_zero_or_pos k with hk0 | hk0
      · exact ⟨_, n3 hk0⟩
      · obtain ⟨tl, htl⟩ := hmid hk0
        exact ⟨_, n4 tl hk0 hnext htl⟩
    obtain ⟨f1, f2, f3⟩ := hsome t ht
    refine ⟨_, s1, ((Side.l, ((k + 1 : Nat) : Int)), t) :: written, hrun, fun _ => ?_,
      fun hc => absurd hc (by omega)⟩
    refine ck_forward_next ops N k K hN hnext before written s s1 h t _ _ tr o1 q0 hq0n A3
      ?_ ?_ s1mps s1mpo f1 f2 f3
    · intro hk0
      exact Option.some.inj (ht.symm.trans (n3 hk0))
    · intro tl hk0 htl
      have he : e0 = Ptr.live tl := Option.some.inj (he0.symm.trans htl)
      exact Option.some.inj (ht.symm.trans (n4 tl hk0 hnext he))

theorem ck_backward_step {T R Q LP : Type} (ops : TensorOps T R Q LP) (p : SweepParams R LP)
    (hio : SweepParams.FileIO p = true)
    (N k K : Nat) (hN : 3 ≤ N) (hsize : N < 2 ^ 63) (hk1 : 1 ≤ k) (hk : k + 1 ≤ N)
    (before written : List ((Side × Int) × T)) (s : Store T)
    (h : CkBackward ops N k K before written s) :
    ∃ e s1 written1, TwoSiteUpdate ops (k : Int) p 'l' s = Res.ok e s1 ∧
      (1 < k → CkBackward ops N (k - 1) K before written1 s1) ∧
      (k = 1 → CkForward ops N 0 K before written1 s1) := by
  have h' := h
  obtain ⟨⟨b1, b2, b3, b4, b5, b6, b7, b8⟩, hK, hr, hl, nl, nr, hres⟩ := h'
  obtain ⟨tr, htr, _⟩ := hres
  obtain ⟨tl, htl, _⟩ := hl (k - 1) (by omega)
  have hoff : ∀ {P : Prop}, SweepParams.FileIO p = false → P := by
    intro P hc
    rw [hio] at hc
    cases hc
  obtain ⟨g, lsite, rsite, o1, o2, r, nb, s1, _, _, _, _, _, A4, _, hrun, s1mps, s1mpo,
      n1, n2, n3, n4, io, _⟩ :=
    step_l_returns ops p s N k tl tr (Ptr.live tl) hN hsize hk1 hk b1 b2 b3 b4 b5 b6
      (fun _ => ⟨by rw [b7]; exact lookup_append_some _ _ _ _ htl, rfl⟩) (fun hc => hoff hc)
      htr (fun hc => hoff hc)
  obtain ⟨hnone, hsome⟩ := io hio
  rcases Nat.eq_or_lt_of_le hk1 with hlast | hprev
  · obtain ⟨f1, f2, f3⟩ := hnone (n1 hlast.symm)
    refine ⟨_, s1, written, hrun, fun hc => absurd hc (by omega), fun _ => ?_⟩
    subst hlast
    exact ck_backward_last ops N K hN before written s s1 h _ _ tl s1mps s1mpo f1 f2 f3
  · obtain ⟨t, ht⟩ : ∃ t, nb = some t := by
      rcases Nat.eq_or_lt_of_le hk with hend | hmid
      · exact ⟨_, n3 hend⟩
      · exact ⟨_, n4 hprev hmid⟩
    obtain ⟨f1, f2, f3⟩ := hsome t ht
    refine ⟨_, s1, ((Side.r, ((N - k : Nat) : Int)), t) :: written, hrun, fun _ => ?_,
      fun hc => absurd hc (by omega)⟩
    refine ck_backward_prev ops N k K hN hprev hk before written s s1 h t _ _ tl o2 A4
      ?_ ?_ s1mps s1mpo f1 f2 f3
    · intro hend
      exact Option.some.inj (ht.symm.trans (n3 hend))
    · intro tr2 hmid htr2
      have he : tr = tr2 := Ptr.live.inj (Option.some.inj (htr.symm.trans htr2))
      rw [← he]
      exact Option.some.inj (ht.symm.trans (n4 hprev hmid))

/-! ## Files written by `InitBlocks` -/

theorem lookup_append_exists_right {T : Type} (a b : List ((Side × Int) × T)) (k : Side × Int)
    (h : ∃ t, b.lookup k = some t) : ∃ t, (a ++ b).lookup k = some t := by
  rw [List.lookup_append]
  cases ha : a.lookup k with
  | none => simpa using h
  | some x => exact ⟨x, rfl⟩

theorem initLoop_files {T R Q LP : Type} (ops : TensorOps T R Q LP) (p : SweepParams R LP)
    (hio : SweepParams.FileIO p = true) (N : Nat) (cnt : Nat) :
    ∀ (i : Nat) (rb : List (Ptr T)) (s : Store T) (rb1 : List (Ptr T)) (s1 : Store T),
      initLoop ops p N cnt i rb s = Res.ok rb1 s1 →
      ∃ new, s1.files = new ++ s.files ∧
        ∀ l : Nat, i ≤ l → l < i + cnt → ∃ t, new.lookup (Side.r, (l : Int)) = some t := by
  induction cnt with
  | zero =>
    intro i rb s rb1 s1 h
    have hs : s = s1 := by
      simp only [initLoop, M.pure] at h
      exact (Res.ok.inj h).2
    subst hs
    exact ⟨[], rfl, fun l h1 h2 => by omega⟩
  | succ cnt ih =>
    intro i rb s rb1 s1 h
    simp only [initLoop] at h
    split at h
    · split at h
      · cases h
      · rename_i x4 x3 x2 x1 site block op h3 h2 h1 x0 rblocks1 hwr
        simp only [hio, if_true, M.bind, WriteGQTensorTOFile] at h
        obtain ⟨new, hn1, hn2⟩ := ih _ _ _ _ _ h
        refine ⟨new ++ [((Side.r, (i : Int)), rblockGrow ops block site op)], ?_, ?_⟩
        · rw [hn1, List.append_assoc]
          rfl
        · intro l h1 h2
          rcases Nat.eq_or_lt_of_le h1 with he | hlt
          · subst he
            exact lookup_append_exists_right _ _ _ ⟨_, by rw [lookup_cons_eq, if_pos rfl]⟩
          · obtain ⟨t, ht⟩ := hn2 l (by omega) (by omega)
            exact ⟨t, lookup_append_some _ _ _ _ ht⟩
    · cases h

theorem initBlocks_files {T R Q LP : Type} (ops : TensorOps T R Q LP) (p : SweepParams R LP)
    (hio : SweepParams.FileIO p = true)
    (hw : p.Workflow = WorkflowMode.kTwoSiteAlgoWorkflowInitial)
    (s s1 : Store T) (blocks : List (Ptr T) × List (Ptr T))
    (h : InitBlocks ops p s = Res.ok blocks s1) :
    ∃ new, s1.files = new ++ s.files ∧
      (∃ t, new.lookup (Side.l, (0 : Int)) = some t) ∧
      (∃ t, new.lookup (Side.r, ((0 : Nat) : Int)) = some t) ∧
      (∃ t, new.lookup (Side.r, ((1 : Nat) : Int)) = some t) ∧
      ∀ l : Nat, 2 ≤ l → l < 2 + (slot ((s.mps.length : Int) - 1) - 2) →
        ∃ t, new.lookup (Side.r, (l : Int)) = some t := by
  have hwf : ¬ (p.Workflow = WorkflowMode.kTwoSiteAlgoWorkflowContinue) := by
    rw [hw]; decide
  simp only [InitBlocks] at h
  split at h
  · cases h
  · split at h
    · split at h
      · cases h
      · rename_i x3 x2 x1 rblocks1 site op h3 h2 h1 x0 rblocks2 hwr
        simp only [hio, if_true, bind, pure, M.bind_ok_iff, M.pure_ok_iff,
          WriteGQTensorTOFile] at h
        obtain ⟨_, sa, hsa, _, sb, hsb, rb3, sc, hloop, rb4, sd, hdel, _, se, hse, _, hfin⟩ := h
        have e1 := (Res.ok.inj hsa).2
        have e2 := (Res.ok.inj hsb).2
        have e4 : sd = sc := by
          cases hd : deleteAll rb3 with
          | none =>
            rw [hd] at hdel
            cases hdel
          | some x =>
            rw [hd] at hdel
            exact ((Res.ok.inj hdel).2).symm
        have e5 := (Res.ok.inj hse).2
        obtain ⟨new, hn1, hn2⟩ := initLoop_files ops p hio _ _ _ _ _ _ _ hloop
        have hlr : ∀ j : Nat, (Side.r, (j : Int)) ≠ (Side.l, (0 : Int)) := by
          intro j hc; cases hc
        refine ⟨((Side.l, (0 : Int)), ops.GQTensor) ::
          (new ++ [((Side.r, (1 : Int)), rblockEnd ops site op),
            ((Side.r, (0 : Int)), ops.GQTensor)]), ?_, ⟨_, lookup_cons_self _ _ _⟩, ?_, ?_, ?_⟩
        · rw [← hfin, ← e5, e4, hn1, ← e2, ← e1]
          simp only [List.cons_append, List.append_assoc, List.nil_append]
        · rw [lookup_cons_ne _ _ (hlr 0)]
          refine lookup_append_exists_right _ _ _ ⟨ops.GQTensor, ?_⟩
          rw [lookup_cons_ne _ _ (by intro hc; cases hc)]
          exact lookup_cons_self _ _ _
        · rw [lookup_cons_ne _ _ (hlr 1)]
          exact lookup_append_exists_right _ _ _ ⟨_, lookup_cons_self _ _ _⟩
        · intro l h1 h2
          obtain ⟨t, ht⟩ := hn2 l h1 h2
          rw [lookup_cons_ne _ _ (hlr l)]
          exact ⟨t, lookup_append_some _ _ _ _ ht⟩
    · cases h

theorem rightBlockOf_of_chain {T R Q LP : Type} (ops : TensorOps T R Q LP) (N : Nat)
    (mps mpo rb : List (Ptr T)) (hlen : mps.length = N)
    (b0 : rb[0]? = some (Ptr.live ops.GQTensor))
    (b1 : ∃ m o, mps[N - 1]? = some (Ptr.live m) ∧ mpo[N - 1]? = some (Ptr.live o) ∧
        rb[1]? = some (Ptr.live (rblockEnd ops m o)))
    (b2 : ∀ l, 2 ≤ l → l < N - 1 → ∃ b m o, rb[l - 1]? = some (Ptr.live b) ∧
        mps[N - l]? = some (Ptr.live m) ∧ mpo[N - l]? = some (Ptr.live o) ∧
        rb[l]? = some (Ptr.live (rblockGrow ops b m o))) :
    ∀ l, l < N - 1 → ∃ t, rb[l]? = some (Ptr.live t) ∧ rightBlockOf ops mps mpo l = some t := by
  intro l
  induction l with
  | zero => intro _; exact ⟨_, b0, rfl⟩
  | succ l ih =>
    intro hl
    rcases Nat.eq_zero_or_pos l with h0 | h0
    · subst h0
      obtain ⟨m, o, hm, ho, hb⟩ := b1
      exact ⟨_, hb, rightBlockOf_one ops mps mpo m o (by rw [hlen]; exact hm)
        (by rw [hlen]; exact ho)⟩
    · obtain ⟨t, ht1, ht2⟩ := ih (by omega)
      obtain ⟨b, m, o, hb, hm, ho, hbl⟩ := b2 (l + 1) (by omega) hl
      rw [Nat.add_sub_cancel] at hb
      have e : b = t := Ptr.live.inj (Option.some.inj (hb.symm.trans ht1))
      subst e
      exact ⟨_, hbl, rightBlockOf_succ ops mps mpo l h0 b m o (by rw [hlen]; exact hm)
        (by rw [hlen]; exact ho) ht2⟩

theorem initThenSteps_of_init {T R Q LP : Type} (ops : TensorOps T R Q LP)
    (p : SweepParams R LP) (m n : Nat) (s s1 : Store T) (lb rb : List (Ptr T))
    (h : InitBlocks ops p s = Res.ok (lb, rb) s1) :
    initThenSteps ops p m n s =
      sweepsThen ops p m n { s1 with lblocks := lb, rblocks := rb } := by
  unfold initThenSteps
  simp only [M.bind, h]

theorem ck_init {T R Q LP : Type} (ops : TensorOps T R Q LP) (p : SweepParams R LP)
    (hio : SweepParams.FileIO p = true)
    (hw : p.Workflow = WorkflowMode.kTwoSiteAlgoWorkflowInitial)
    (s : Store T) (N : Nat) (hN : 3 ≤ N) (hsize : N < 2 ^ 63)
    (hmps : s.mps.length = N) (hmpo : s.mpo.length = N)
    (lmps : allLive s.mps = true) (lmpo : allLive s.mpo = true) :
    ∃ a written, (∀ m n, initThenSteps ops p m n s = sweepsThen ops p m n a) ∧
      CkForward ops N 0 0 s.files written a := by
  obtain ⟨rb, s1, hinit, rbl, rb0, rb1, rb2, s1mps, s1mpo, _, _, _, hfiles⟩ :=
    initBlocks_spec ops p s N hN hsize hmps hmpo lmps lmpo hw
  obtain ⟨hfr, hfl⟩ := hfiles hio
  rw [if_pos hio] at hinit
  obtain ⟨new, hn, hl0, hr0, hr1, hr2⟩ := initBlocks_files ops p hio hw s s1 _ hinit
  have hslot : slot ((s.mps.length : Int) - 1) = N - 1 := by
    rw [hmps]
    have h1 : ((N : Int) - 1) = ((N - 1 : Nat) : Int) := by omega
    rw [h1, slot_natCast (by omega)]
  have hchain := rightBlockOf_of_chain ops N s.mps s.mpo rb hmps rb0 rb1 rb2
  have hrnew : ∀ j : Nat, j + 2 ≤ N → ∃ t, new.lookup (Side.r, (j : Int)) = some t ∧
      rightBlockOf ops s.mps s.mpo j = some t := by
    intro j hj
    obtain ⟨t, ht1, ht2⟩ := hfr j (by omega)
    obtain ⟨t2, ht3, ht4⟩ := hchain j (by omega)
    have e : t2 = t := Ptr.live.inj (Option.some.inj (ht3.symm.trans ht1))
    have hex : ∃ x, new.lookup (Side.r, (j : Int)) = some x := by
      rcases Nat.lt_or_ge j 2 with h2 | h2
      · rcases Nat.lt_or_ge j 1 with h1 | h1
        · have : j = 0 := by omega
          subst this
          exact hr0
        · have : j = 1 := by omega
          subst this
          exact hr1
      · exact hr2 j h2 (by rw [hslot]; omega)
    obtain ⟨x, hx⟩ := hex
    have hx2 := lookup_append_some new s.files _ x hx
    rw [← hn, ht2] at hx2
    have e2 : t = x := Option.some.inj hx2
    exact ⟨x, hx, by rw [← e2, ← e]; exact ht4⟩
  have hlnew : new.lookup (Side.l, (0 : Int)) = some ops.GQTensor := by
    obtain ⟨x, hx⟩ := hl0
    have hx2 := lookup_append_some new s.files _ x hx
    rw [← hn, hfl] at hx2
    rw [hx, ← Option.some.inj hx2]
  refine ⟨_, new, fun m n => initThenSteps_of_init ops p m n s s1 _ _ hinit, ?_⟩
  refine ⟨⟨?_, ?_, ?_, ?_, List.length_replicate _ _, List.length_replicate _ _, hn, ?_⟩,
    ?_, ?_, ?_, ?_, ?_, ?_, ?_⟩
  · show s1.mps.length = N
    rw [s1mps]; exact hmps
  · show s1.mpo.length = N
    rw [s1mpo]; exact hmpo
  · show allLive s1.mps = true
    rw [s1mps]; exact lmps
  · show allLive s1.mpo = true
    rw [s1mpo]; exact lmpo
  · intro j hj
    obtain ⟨t, ht, _⟩ := hrnew j hj
    exact ⟨t, ht⟩
  · intro j hj
    have : j = 0 := by omega
    subst this
    exact ⟨_, hlnew⟩
  · intro j hj
    show ∃ t, new.lookup (Side.r, (j : Int)) = some t ∧
      rightBlockOf ops s1.mps s1.mpo j = some t
    rw [s1mps, s1mpo]
    exact hrnew j (by omega)
  · intro j hj
    have : j = 0 := by omega
    subst this
    exact ⟨_, hlnew, rfl⟩
  · intro j t
    exact getElem?_replicate_ne _ _ _ _ (by intro hc; cases hc)
  · intro j t _
    exact getElem?_replicate_ne _ _ _ _ (by intro hc; cases hc)
  · intro _
    exact getElem?_replicate_ne _ _ _ _ (by intro hc; cases hc)
  · intro hc
    exact absurd hc (Nat.lt_irrefl 0)

/-! ## The run with file I/O: sweeps -/

theorem sweepCalls_length (N : Nat) : (sweepCalls N).length = 2 * (N - 1) := by
  unfold sweepCalls
  simp only [List.length_append, List.length_map, List.length_reverse, List.length_range]
  omega

theorem sweepCalls_forward (N n : Nat) (h : n + 1 < N) :
    (sweepCalls N)[n]? = some ((n : Int), 'r') := by
  unfold sweepCalls
  rw [List.getElem?_append_left (by simp; omega), List.getElem?_map,
    List.getElem?_range (by omega)]
  rfl

theorem sweepCalls_backward (N n : Nat) (h1 : N ≤ n + 1) (h2 : n + 2 < 2 * N) :
    (sweepCalls N)[n]? = some (((2 * N - 2 - n : Nat) : Int), 'l') := by
  unfold sweepCalls
  rw [List.getElem?_append_right (by simp; omega), List.getElem?_map,
    List.getElem?_reverse (by simp; omega)]
  simp only [List.length_map, List.length_range]
  rw [List.getElem?_range (by omega)]
  simp only [Option.map]
  congr 2
  omega

theorem runCalls_snoc_ok {σ R : Type} (update : Int → Char → M σ R)
    (calls : List (Int × Char)) (c : Int × Char) (e0 e1 : Option R) (s s1 s2 : σ) (e2 : R)
    (h1 : runCalls update calls e0 s = Res.ok e1 s1)
    (h2 : update c.1 c.2 s1 = Res.ok e2 s2) :
    runCalls update (calls ++ [c]) e0 s = Res.ok (some e2) s2 := by
  rw [runCalls_append]
  simp only [M.bind, h1, runCalls, h2, M.pure]

theorem ck_steps {T R Q LP : Type} (ops : TensorOps T R Q LP) (p : SweepParams R LP)
    (hio : SweepParams.FileIO p = true)
    (N K : Nat) (hN : 3 ≤ N) (hsize : N < 2 ^ 63)
    (before written : List ((Side × Int) × T)) (s : Store T)
    (h : CkForward ops N 0 K before written s) (n : Nat) :
    n + 2 ≤ 2 * N →
    ∃ e s1 written1,
      runCalls (fun i dir => TwoSiteUpdate ops i p dir) ((sweepCalls N).take n) none s =
        Res.ok e s1 ∧
      CkAt ops N n K before written1 s1 := by
  induction n with
  | zero =>
    intro _
    exact ⟨none, s, written, rfl, fun _ => h, fun hc => absurd hc (by omega),
      fun hc => absurd hc (by omega)⟩
  | succ n ih =>
    intro hn
    obtain ⟨e, sn, wn, hrun, hf, hb, _⟩ := ih (by omega)
    rcases Nat.lt_or_ge (n + 1) N with hfw | hbw
    · obtain ⟨e2, s2, w2, hstep, hnext, hlast⟩ :=
        ck_forward_step ops p hio N n K hN hsize (by omega) before wn sn (hf hfw)
      have htake : (sweepCalls N).take (n + 1) = (sweepCalls N).take n ++ [((n : Int), 'r')] := by
        rw [List.take_succ, sweepCalls_forward N n hfw]
        rfl
      refine ⟨some e2, s2, w2, ?_, fun hc => hnext (by omega), fun _ hc => ?_,
        fun hc => absurd hc (by omega)⟩
      · rw [htake]
        exact runCalls_snoc_ok _ _ ((n : Int), 'r') none e s sn s2 e2 hrun hstep
      · have hk : 2 * N - 2 - (n + 1) = N - 1 := by omega
        rw [hk]
        exact hlast (by omega)
    · have hk1 : 1 ≤ 2 * N - 2 - n := by omega
      have hk2 : 2 * N - 2 - n + 1 ≤ N := by omega
      obtain ⟨e2, s2, w2, hstep, hprev, hlast⟩ :=
        ck_backward_step ops p hio N (2 * N - 2 - n) (N - 2) hN hsize hk1 hk2 before wn sn
          (hb hbw (by omega))
      have htake : (sweepCalls N).take (n + 1) =
          (sweepCalls N).take n ++ [(((2 * N - 2 - n : Nat) : Int), 'l')] := by
        rw [List.take_succ, sweepCalls_backward N n hbw (by omega)]
        rfl
      have hk3 : 2 * N - 2 - n - 1 = 2 * N - 2 - (n + 1) := by omega
      refine ⟨some e2, s2, w2, ?_, fun hc => absurd hc (by omega), fun _ hc => ?_,
        fun hc => hlast (by omega)⟩
      · rw [htake]
        exact runCalls_snoc_ok _ _ (((2 * N - 2 - n : Nat) : Int), 'l') none e s sn s2 e2
          hrun hstep
      · rw [← hk3]
        exact hprev (by omega)

theorem ck_sweep {T R Q LP : Type} (ops : TensorOps T R Q LP) (p : SweepParams R LP)
    (hio : SweepParams.FileIO p = true)
    (N K : Nat) (hN : 3 ≤ N) (hsize : N < 2 ^ 63)
    (before written : List ((Side × Int) × T)) (s : Store T)
    (h : CkForward ops N 0 K before written s) :
    ∃ e s1 written1, TwoSiteSweep ops p s = Res.ok e s1 ∧
      CkForward ops N 0 (N - 2) before written1 s1 := by
  have hlen : s.mps.length = N := h.1.1
  obtain ⟨e, s1, w1, hrun, _, _, hat⟩ :=
    ck_steps ops p hio N K hN hsize before written s h (2 * N - 2) (by omega)
  rw [List.take_of_length_le (by rw [sweepCalls_length]; omega)] at hrun
  refine ⟨e, s1, w1, ?_, hat (by omega)⟩
  show sweepLoops _ s.mps.length s = _
  rw [hlen, sweepLoops_eq_runCalls _ N (by omega) hsize]
  exact hrun

theorem ck_sweeps {T R Q LP : Type} (ops : TensorOps T R Q LP) (p : SweepParams R LP)
    (hio : SweepParams.FileIO p = true)
    (N : Nat) (hN : 3 ≤ N) (hsize : N < 2 ^ 63)
    (before : List ((Side × Int) × T)) (m : Nat) :
    ∀ (K : Nat) (written : List ((Side × Int) × T)) (s : Store T),
      CkForward ops N 0 K before written s → ∀ n, n + 2 ≤ 2 * N →
      ∃ e s1 written1, sweepsThen ops p m n s = Res.ok e s1 ∧
        CkAt ops N n (if m = 0 then K else N - 2) before written1 s1 := by
  induction m with
  | zero =>
    intro K written s h n hn
    have hlen : s.mps.length = N := h.1.1
    obtain ⟨e, s1, w1, hrun, hat⟩ := ck_steps ops p hio N K hN hsize before written s h n hn
    refine ⟨e, s1, w1, ?_, by rw [if_pos rfl]; exact hat⟩
    show runCalls _ ((sweepCalls s.mps.length).take n) none s = _
    rw [hlen]
    exact hrun
  | succ m ih =>
    intro K written s h n hn
    obtain ⟨e, s1, w1, hrun, h1⟩ := ck_sweep ops p hio N K hN hsize before written s h
    obtain ⟨e2, s2, w2, hrun2, hat⟩ := ih (N - 2) w1 s1 h1 n hn
    refine ⟨e2, s2, w2, ?_, ?_⟩
    · show M.bind (TwoSiteSweep ops p) (fun _ => sweepsThen ops p m n) s = _
      simp only [M.bind, hrun]
      exact hrun2
    · rw [if_neg (Nat.succ_ne_zero m)]
      have hK : (if m = 0 then N - 2 else N - 2) = N - 2 := by split <;> rfl
      rw [hK] at hat
      exact hat

/-! ## Resident blocks and block files of the run with file I/O -/

theorem atMostOne_of_only {T : Type} (s : Store T) (side : Side) (j : Nat)
    (h : residentOnlyAt s side j) : atMostOneResident s := by
  intro sd i t sd2 i2 t2 h1 h2
  obtain ⟨a1, a2⟩ := h sd i t h1
  obtain ⟨c1, c2⟩ := h sd2 i2 t2 h2
  exact ⟨a1.trans c1.symm, a2.trans c2.symm⟩

theorem ckForward_resident {T R Q LP : Type} (ops : TensorOps T R Q LP) (N k K : Nat)
    (before written : List ((Side × Int) × T)) (s : Store T)
    (h : CkForward ops N k K before written s) : residentOnlyAt s Side.l k := by
  obtain ⟨_, _, _, _, nr, nl, _, _⟩ := h
  intro sd i t hlive
  cases sd with
  | l =>
    refine ⟨rfl, ?_⟩
    rcases Nat.eq_or_lt_of_le (Nat.le_refl i) with _ | hc
    · by_cases hik : i = k
      · exact hik
      · exact absurd hlive (nl i t hik)
    · exact absurd hc (Nat.lt_irrefl i)
  | r => exact absurd hlive (nr i t)

theorem ckBackward_resident {T R Q LP : Type} (ops : TensorOps T R Q LP) (N k K : Nat)
    (before written : List ((Side × Int) × T)) (s : Store T)
    (h : CkBackward ops N k K before written s) : residentOnlyAt s Side.r (N - k - 1) := by
  obtain ⟨_, _, _, _, nl, nr, _⟩ := h
  intro sd i t hlive
  cases sd with
  | l => exact absurd hlive (nl i t)
  | r =>
    refine ⟨rfl, ?_⟩
    by_cases hik : i = N - k - 1
    · exact hik
    · exact absurd hlive (nr i t hik)

theorem sweepCalls_last_call (N n : Nat) (hN : 3 ≤ N) (hn0 : 0 < n) (hn : n ≤ 2 * (N - 1))
    (i : Nat) (dir : Char) (h : (sweepCalls N)[n - 1]? = some ((i : Int), dir)) :
    (dir = 'r' ∧ i + 1 = n ∧ n + 1 ≤ N) ∨ (dir = 'l' ∧ i + n = 2 * N - 1 ∧ N ≤ n) := by
  rcases Nat.lt_or_ge n N with h1 | h1
  · rw [sweepCalls_forward N (n - 1) (by omega)] at h
    have h2 := Option.some.inj h
    have h3 := (Prod.mk.inj h2).1
    have h4 := (Prod.mk.inj h2).2
    exact Or.inl ⟨h4.symm, by omega, by omega⟩
  · rw [sweepCalls_backward N (n - 1) (by omega) (by omega)] at h
    have h2 := Option.some.inj h
    have h3 := (Prod.mk.inj h2).1
    have h4 := (Prod.mk.inj h2).2
    exact Or.inr ⟨h4.symm, by omega, h1⟩

theorem sweepCalls_next_call (N n : Nat) (hN : 3 ≤ N)
    (i : Nat) (dir : Char) (h : (sweepCalls N)[n]? = some ((i : Int), dir)) :
    (dir = 'r' ∧ i = n ∧ n + 1 < N) ∨ (dir = 'l' ∧ i + n = 2 * N - 2 ∧ N ≤ n + 1 ∧
      n + 2 < 2 * N) := by
  rcases Nat.lt_or_ge (n + 1) N with h1 | h1
  · rw [sweepCalls_forward N n h1] at h
    have h2 := Option.some.inj h
    have h3 := (Prod.mk.inj h2).1
    have h4 := (Prod.mk.inj h2).2
    exact Or.inl ⟨h4.symm, by omega, h1⟩
  · rcases Nat.lt_or_ge (n + 2) (2 * N) with h5 | h5
    · rw [sweepCalls_backward N n h1 h5] at h
      have h2 := Option.some.inj h
      have h3 := (Prod.mk.inj h2).1
      have h4 := (Prod.mk.inj h2).2
      exact Or.inr ⟨h4.symm, by omega, h1, h5⟩
    · rw [List.getElem?_eq_none (by rw [sweepCalls_length]; omega)] at h
      cases h

theorem ck_run {T R Q LP : Type} (ops : TensorOps T R Q LP) (p : SweepParams R LP)
    (hio : SweepParams.FileIO p = true)
    (hw : p.Workflow = WorkflowMode.kTwoSiteAlgoWorkflowInitial)
    (s : Store T) (N : Nat) (hN : 3 ≤ N) (hsize : N < 2 ^ 63)
    (hmps : s.mps.length = N) (hmpo : s.mpo.length = N)
    (lmps : allLive s.mps = true) (lmpo : allLive s.mpo = true)
    (m n : Nat) (hn : n ≤ 2 * (N - 1)) :
    ∃ e s1 written, initThenSteps ops p m n s = Res.ok e s1 ∧
      CkAt ops N n (if m = 0 then 0 else N - 2) s.files written s1 := by
  obtain ⟨a, w, hrun, hck⟩ := ck_init ops p hio hw s N hN hsize hmps hmpo lmps lmpo
  obtain ⟨e, s1, w1, hrun1, hat⟩ :=
    ck_sweeps ops p hio N hN hsize s.files m 0 w a hck n (by omega)
  exact ⟨e, s1, w1, (hrun m n).trans hrun1, hat⟩

/-- C13: on a chain of `N ≥ 3` live sites and operators, with file I/O, after
`InitBlocks` (Initial workflow), `m` complete sweeps and the first `n` steps of
the next sweep, at most one slot of the two block chains points to a live block.
No block other than the following is resident: the left block of length 0
before the first step of a sweep, the left block of length `i+1` after the
forward step `i < N-2`, the right block of length 0 after the forward step
`N-2`, the right block of length `N-i` after the backward step `i > 1`, and the
left block of length 0 after the backward step 1. -/
theorem checkpoint_resident_block {T R Q LP : Type} (ops : TensorOps T R Q LP)
    (p : SweepParams R LP) (hio : SweepParams.FileIO p = true)
    (hw : p.Workflow = WorkflowMode.kTwoSiteAlgoWorkflowInitial)
    (s : Store T) (N : Nat) (hN : 3 ≤ N) (hsize : N < 2 ^ 63)
    (hmps : s.mps.length = N) (hmpo : s.mpo.length = N)
    (lmps : allLive s.mps = true) (lmpo : allLive s.mpo = true)
    (m n : Nat) (hn : n ≤ 2 * (N - 1)) :
    ∃ e s1, initThenSteps ops p m n s = Res.ok e s1 ∧
      atMostOneResident s1 ∧
      (n = 0 → residentOnlyAt s1 Side.l 0) ∧
      (∀ i : Nat, 0 < n → (sweepCalls N)[n - 1]? = some ((i : Int), 'r') → i + 2 < N →
        residentOnlyAt s1 Side.l (i + 1)) ∧
      (∀ i : Nat, 0 < n → (sweepCalls N)[n - 1]? = some ((i : Int), 'r') → i + 2 = N →
        residentOnlyAt s1 Side.r 0) ∧
      (∀ i : Nat, 0 < n → (sweepCalls N)[n - 1]? = some ((i : Int), 'l') → 1 < i →
        residentOnlyAt s1 Side.r (N - i)) ∧
      (0 < n → (sweepCalls N)[n - 1]? = some ((1 : Int), 'l') →
        residentOnlyAt s1 Side.l 0) := by
  obtain ⟨e, s1, w, hrun, hf, hb, hz⟩ :=
    ck_run ops p hio hw s N hN hsize hmps hmpo lmps lmpo m n hn
  have hfor : n + 1 < N → residentOnlyAt s1 Side.l n := fun h =>
    ckForward_resident ops N n _ _ w s1 (hf h)
  have hback : N ≤ n + 1 → n + 2 < 2 * N → residentOnlyAt s1 Side.r (n + 1 - N) := by
    intro h1 h2
    have h3 := ckBackward_resident ops N _ _ _ w s1 (hb h1 h2)
    have h4 : N - (2 * N - 2 - n) - 1 = n + 1 - N := by omega
    rw [h4] at h3
    exact h3
  have hend : n + 2 = 2 * N → residentOnlyAt s1 Side.l 0 := fun h =>
    ckForward_resident ops N 0 _ _ w s1 (hz h)
  have hrl : ('r' = 'l') → False := by decide
  have hlr : ('l' = 'r') → False := by decide
  refine ⟨e, s1, hrun, ?_, ?_, ?_, ?_, ?_, ?_⟩
  · rcases Nat.lt_or_ge (n + 1) N with h1 | h1
    · exact atMostOne_of_only s1 _ _ (hfor h1)
    · rcases Nat.lt_or_ge (n + 2) (2 * N) with h2 | h2
      · exact atMostOne_of_only s1 _ _ (hback h1 h2)
      · exact atMostOne_of_only s1 _ _ (hend (by omega))
  · intro h0
    subst h0
    exact hfor (by omega)
  · intro i hn0 hcall hi
    rcases sweepCalls_last_call N n hN hn0 hn i 'r' hcall with ⟨_, h2, h3⟩ | ⟨h1, _, _⟩
    · have hin : i + 1 = n := h2
      rw [hin]
      exact hfor (by omega)
    · exact absurd h1 hrl
  · intro i hn0 hcall hi
    rcases sweepCalls_last_call N n hN hn0 hn i 'r' hcall with ⟨_, h2, h3⟩ | ⟨h1, _, _⟩
    · have h5 := hback (by omega) (by omega)
      have h6 : n + 1 - N = 0 := by omega
      rw [h6] at h5
      exact h5
    · exact absurd h1 hrl
  · intro i hn0 hcall hi
    rcases sweepCalls_last_call N n hN hn0 hn i 'l' hcall with ⟨h1, _, _⟩ | ⟨_, h2, h3⟩
    · exact absurd h1 hlr
    · have h5 := hback (by omega) (by omega)
      have h6 : n + 1 - N = N - i := by omega
      rw [h6] at h5
      exact h5
  · intro hn0 hcall
    rcases sweepCalls_last_call N n hN hn0 hn 1 'l' hcall with ⟨h1, _, _⟩ | ⟨_, h2, h3⟩
    · exact absurd h1 hlr
    · exact hend (by omega)

theorem checkpoint_resident_block_witness :
    ∃ e s1, initThenSteps toyOps (toyParams true) 1 3 (toyStore 3) = Res.ok e s1 ∧
      atMostOneResident s1 ∧
      (3 = 0 → residentOnlyAt s1 Side.l 0) ∧
      (∀ i : Nat, 0 < 3 → (sweepCalls 3)[3 - 1]? = some ((i : Int), 'r') → i + 2 < 3 →
        residentOnlyAt s1 Side.l (i + 1)) ∧
      (∀ i : Nat, 0 < 3 → (sweepCalls 3)[3 - 1]? = some ((i : Int), 'r') → i + 2 = 3 →
        residentOnlyAt s1 Side.r 0) ∧
      (∀ i : Nat, 0 < 3 → (sweepCalls 3)[3 - 1]? = some ((i : Int), 'l') → 1 < i →
        residentOnlyAt s1 Side.r (3 - i)) ∧
      (0 < 3 → (sweepCalls 3)[3 - 1]? = some ((1 : Int), 'l') →
        residentOnlyAt s1 Side.l 0) :=
  checkpoint_resident_block toyOps (toyParams true) rfl rfl (toyStore 3) 3 (by decide)
    (by decide) rfl rfl (by decide) (by decide) 1 3 (by decide)

/-- C15: on a chain of `N ≥ 3` live sites and operators, with file I/O, after
`InitBlocks` (Initial workflow), `m` complete sweeps and the first `n` steps of
the next sweep, the files of the store are files written since the start of the
run on top of the files there were before it, and the file the next step reads
is among the written ones: before the forward step `i` the last write to the
right file of length `N-i-2`, and before the backward step `i` the last write to
the left file of length `i-1`, holds the block of that side and length of the
current chain.  After one complete sweep a left and a right file of every
length `0..N-2` have been written. -/
theorem checkpoint_reads_written_files {T R Q LP : Type} (ops : TensorOps T R Q LP)
    (p : SweepParams R LP) (hio : SweepParams.FileIO p = true)
    (hw : p.Workflow = WorkflowMode.kTwoSiteAlgoWorkflowInitial)
    (s : Store T) (N : Nat) (hN : 3 ≤ N) (hsize : N < 2 ^ 63)
    (hmps : s.mps.length = N) (hmpo : s.mpo.length = N)
    (lmps : allLive s.mps = true) (lmpo : allLive s.mpo = true)
    (m n : Nat) (hn : n ≤ 2 * (N - 1)) :
    ∃ e s1 written, initThenSteps ops p m n s = Res.ok e s1 ∧
      s1.files = written ++ s.files ∧
      (∀ i : Nat, (sweepCalls N)[n]? = some ((i : Int), 'r') →
        ∃ t, written.lookup (Side.r, ((N - i - 2 : Nat) : Int)) = some t ∧
          rightBlockOf ops s1.mps s1.mpo (N - i - 2) = some t) ∧
      (∀ i : Nat, (sweepCalls N)[n]? = some ((i : Int), 'l') →
        ∃ t, written.lookup (Side.l, ((i - 1 : Nat) : Int)) = some t ∧
          leftBlockOf ops s1.mps s1.mpo (i - 1) = some t) ∧
      (1 ≤ m → ∀ j : Nat, j + 2 ≤ N →
        (∃ t, written.lookup (Side.l, (j : Int)) = some t) ∧
        (∃ t, written.lookup (Side.r, (j : Int)) = some t)) := by
  obtain ⟨e, s1, w, hrun, hf, hb, hz⟩ :=
    ck_run ops p hio hw s N hN hsize hmps hmpo lmps lmpo m n hn
  have hrl : ('r' = 'l') → False := by decide
  have hlr : ('l' = 'r') → False := by decide
  have hfiles : s1.files = w ++ s.files := by
    rcases Nat.lt_or_ge (n + 1) N with h1 | h1
    · exact (hf h1).1.2.2.2.2.2.2.1
    · rcases Nat.lt_or_ge (n + 2) (2 * N) with h2 | h2
      · exact (hb h1 h2).1.2.2.2.2.2.2.1
      · exact (hz (by omega)).1.2.2.2.2.2.2.1
  refine ⟨e, s1, w, hrun, hfiles, ?_, ?_, ?_⟩
  · intro i hcall
    rcases sweepCalls_next_call N n hN i 'r' hcall with ⟨_, h2, h3⟩ | ⟨h1, _, _, _⟩
    · have hin : i = n := h2
      rw [hin]
      exact (hf h3).2.2.1 (N - n - 2) (by omega)
    · exact absurd h1 hrl
  · intro i hcall
    rcases sweepCalls_next_call N n hN i 'l' hcall with ⟨h1, _, _⟩ | ⟨_, h2, h3, h4⟩
    · exact absurd h1 hlr
    · have hi : 2 * N - 2 - n = i := by omega
      have h5 := (hb h3 h4).2.2.2.1 (i - 1) (by omega)
      exact h5
  · intro hm j hj
    have hK : (if m = 0 then 0 else N - 2) = N - 2 := by
      rw [if_neg (by omega)]
    rw [hK] at hf
    rcases Nat.lt_or_ge (n + 1) N with h1 | h1
    · exact ⟨(hf h1).2.1 j (by omega), (hf h1).1.2.2.2.2.2.2.2 j hj⟩
    · rcases Nat.lt_or_ge (n + 2) (2 * N) with h2 | h2
      · exact ⟨(hb h1 h2).2.1 j (by omega), (hb h1 h2).1.2.2.2.2.2.2.2 j hj⟩
      · exact ⟨(hz (by omega)).2.1 j (by omega), (hz (by omega)).1.2.2.2.2.2.2.2 j hj⟩

theorem checkpoint_reads_written_files_witness :
    ∃ e s1 written, initThenSteps toyOps (toyParams true) 1 3 (toyStore 3) = Res.ok e s1 ∧
      s1.files = written ++ (toyStore 3).files ∧
      (∀ i : Nat, (sweepCalls 3)[3]? = some ((i : Int), 'r') →
        ∃ t, written.lookup (Side.r, ((3 - i - 2 : Nat) : Int)) = some t ∧
          rightBlockOf toyOps s1.mps s1.mpo (3 - i - 2) = some t) ∧
      (∀ i : Nat, (sweepCalls 3)[3]? = some ((i : Int), 'l') →
        ∃ t, written.lookup (Side.l, ((i - 1 : Nat) : Int)) = some t ∧
          leftBlockOf toyOps s1.mps s1.mpo (i - 1) = some t) ∧
      (1 ≤ 1 → ∀ j : Nat, j + 2 ≤ 3 →
        (∃ t, written.lookup (Side.l, (j : Int)) = some t) ∧
        (∃ t, written.lookup (Side.r, (j : Int)) = some t)) :=
  checkpoint_reads_written_files toyOps (toyParams true) rfl rfl (toyStore 3) 3 (by decide)
    (by decide) rfl rfl (by decide) (by decide) 1 3 (by decide)

/-! ## C3: a sweep that returns -/

/-- Witness of C3: on the three-site toy chain with the blocks `InitBlocks`
returns for it, the calls before the last one return, the last call
`TwoSiteUpdate(1, 'l')` returns an energy, and the sweep returns that energy
and the store of that call. -/
theorem twoSiteSweep_returns_last_energy_witness :
    InitBlocks toyOps (toyParams false) (toyStore 3) =
      Res.ok (toyStart.lblocks, toyStart.rblocks) (toyStore 3) ∧
    TwoSiteSweep toyOps (toyParams false) toyStart =
      M.bind (runCalls (fun i dir => TwoSiteUpdate toyOps i (toyParams false) dir)
                (sweepCalls toyStart.mps.length).dropLast none)
        (fun _ => M.bind (TwoSiteUpdate toyOps 1 (toyParams false) 'l')
          (fun e => M.pure (some e))) toyStart ∧
    ∃ e0 s0 e s1,
      runCalls (fun i dir => TwoSiteUpdate toyOps i (toyParams false) dir)
        (sweepCalls toyStart.mps.length).dropLast none toyStart = Res.ok e0 s0 ∧
      TwoSiteUpdate toyOps 1 (toyParams false) 'l' s0 = Res.ok e s1 ∧
      TwoSiteSweep toyOps (toyParams false) toyStart = Res.ok (some e) s1 ∧
      e = 230522553 := by
  have heq := twoSiteSweep_returns_last_energy toyOps (toyParams false) toyStart
    (by decide) (by decide)
  have hcalls : ([] ++ [(0, 'r')] ++ [(1, 'r')] ++ [(2, 'l')] : List (Int × Char)) =
      (sweepCalls toyStart.mps.length).dropLast := by
    decide
  have h1 : TwoSiteUpdate toyOps 0 (toyParams false) 'r' toyStart = Res.ok 3926
      { mps := [Ptr.live 2008, Ptr.live 16080, Ptr.live 12],
        mpo := [Ptr.live 100, Ptr.live 101, Ptr.live 102],
        lblocks := [Ptr.null, Ptr.live 29629],
        rblocks := [Ptr.live 0, Ptr.live 1715],
        files := [], leaked := [],
        trace := [Event.solve [Ptr.null, Ptr.live 100, Ptr.live 101, Ptr.live 1715] 88
          "lend"] } := by
    decide
  have h2 : TwoSiteUpdate toyOps 1 (toyParams false) 'r'
      { mps := [Ptr.live 2008, Ptr.live 16080, Ptr.live 12],
        mpo := [Ptr.live 100, Ptr.live 101, Ptr.live 102],
        lblocks := [Ptr.null, Ptr.live 29629],
        rblocks := [Ptr.live 0, Ptr.live 1715],
        files := [], leaked := [],
        trace := [Event.solve [Ptr.null, Ptr.live 100, Ptr.live 101, Ptr.live 1715] 88
          "lend"] } = Res.ok 107973
      { mps := [Ptr.live 2008, Ptr.live 78139, Ptr.live 625128],
        mpo := [Ptr.live 100, Ptr.live 101, Ptr.live 102],
        lblocks := [Ptr.null, Ptr.live 29629],
        rblocks := [Ptr.live 0, Ptr.live 1715],
        files := [], leaked := [],
        trace := [Event.solve [Ptr.null, Ptr.live 100, Ptr.live 101, Ptr.live 1715] 88
            "lend",
          Event.solve [Ptr.live 29629, Ptr.live 101, Ptr.live 102, Ptr.live 0] 48303
            "rend"] } := by
    decide
  have h3 : TwoSiteUpdate toyOps 2 (toyParams false) 'l'
      { mps := [Ptr.live 2008, Ptr.live 78139, Ptr.live 625128],
        mpo := [Ptr.live 100, Ptr.live 101, Ptr.live 102],
        lblocks := [Ptr.null, Ptr.live 29629],
        rblocks := [Ptr.live 0, Ptr.live 1715],
        files := [], leaked := [],
        trace := [Event.solve [Ptr.null, Ptr.live 100, Ptr.live 101, Ptr.live 1715] 88
            "lend",
          Event.solve [Ptr.live 29629, Ptr.live 101, Ptr.live 102, Ptr.live 0] 48303
            "rend"] } = Res.ok 3419730
      { mps := [Ptr.live 2008, Ptr.live 27119176, Ptr.live 3389898],
        mpo := [Ptr.live 100, Ptr.live 101, Ptr.live 102],
        lblocks := [Ptr.null, Ptr.live 29629],
        rblocks := [Ptr.live 0, Ptr.live 47460119],
        files := [], leaked := [],
        trace := [Event.solve [Ptr.null, Ptr.live 100, Ptr.live 101, Ptr.live 1715] 88
            "lend",
          Event.solve [Ptr.live 29629, Ptr.live 101, Ptr.live 102, Ptr.live 0] 48303
            "rend",
          Event.solve [Ptr.live 29629, Ptr.live 101, Ptr.live 102, Ptr.live 0] 3360060
            "rend"] } := by
    decide
  have h4 : TwoSiteUpdate toyOps 1 (toyParams false) 'l'
      { mps := [Ptr.live 2008, Ptr.live 27119176, Ptr.live 3389898],
        mpo := [Ptr.live 100, Ptr.live 101, Ptr.live 102],
        lblocks := [Ptr.null, Ptr.live 29629],
        rblocks := [Ptr.live 0, Ptr.live 47460119],
        files := [], leaked := [],
        trace := [Event.solve [Ptr.null, Ptr.live 100, Ptr.live 101, Ptr.live 1715] 88
            "lend",
          Event.solve [Ptr.live 29629, Ptr.live 101, Ptr.live 102, Ptr.live 0] 48303
            "rend",
          Event.solve [Ptr.live 29629, Ptr.live 101, Ptr.live 102, Ptr.live 0] 3360060
            "rend"] } = Res.ok 230522553
      { mps := [Ptr.live 1464497856, Ptr.live 183062233, Ptr.live 3389898],
        mpo := [Ptr.live 100, Ptr.live 101, Ptr.live 102],
        lblocks := [Ptr.null, Ptr.live 29629],
        rblocks := [Ptr.live 0, Ptr.live 47460119],
        files := [], leaked := [],
        trace := [Event.solve [Ptr.null, Ptr.live 100, Ptr.live 101, Ptr.live 1715] 88
            "lend",
          Event.solve [Ptr.live 29629, Ptr.live 101, Ptr.live 102, Ptr.live 0] 48303
            "rend",
          Event.solve [Ptr.live 29629, Ptr.live 101, Ptr.live 102, Ptr.live 0] 3360060
            "rend",
          Event.solve [Ptr.null, Ptr.live 100, Ptr.live 101, Ptr.live 47460119] 135601907
            "lend"] } := by
    decide
  have r0 : runCalls (fun i dir => TwoSiteUpdate toyOps i (toyParams false) dir) [] none
      toyStart = Res.ok none toyStart := rfl
  have r1 := runCalls_snoc_ok (fun i dir => TwoSiteUpdate toyOps i (toyParams false) dir)
    [] (0, 'r') none none toyStart toyStart _ 3926 r0 h1
  have r2 := runCalls_snoc_ok (fun i dir => TwoSiteUpdate toyOps i (toyParams false) dir)
    _ (1, 'r') none _ toyStart _ _ 107973 r1 h2
  have r3 := runCalls_snoc_ok (fun i dir => TwoSiteUpdate toyOps i (toyParams false) dir)
    _ (2, 'l') none _ toyStart _ _ 3419730 r2 h3
  rw [hcalls] at r3
  have hlast := heq.trans ((M.bind_ok_iff _ _ _ _ _).mpr ⟨_, _, r3,
    (M.bind_ok_iff _ _ _ _ _).mpr ⟨_, _, h4, (M.pure_ok_iff _ _ _ _).mpr ⟨rfl, rfl⟩⟩⟩)
  exact ⟨by decide, heq, _, _, _, _, r3, h4, hlast, rfl⟩

end Gqmps2
